import Mathlib

/-!
# Confer: a shallow embedding of `include/confer.hpp`

The header consists of
* the error counter macros (`CT_ERRORS_TYPE`, `CT_ERRORS_PARAMS`,
  `CT_INCREMENT_ERRORS`, `CT_ADD_TO_ERRORS`, `CT_HAS_ERRORS`),
* the assertion macros (`CT_ASSERT_CODE_FMT` and everything defined from it),
* `test_case`, `test_suite` and `test_suite::run`,
* `print_failed_tests` and `sum_failed_tests_errors`.

The procedures of `examples/usage_example.cpp` are embedded as well.

Conventions of the embedding.
* `std::size_t` is a natural number below `2 ^ 64`; `++` and `+=` reduce modulo `2 ^ 64`.
* A C++ callable is a function on an explicit world state `σ` that either returns a value or
  throws an exception of type `ε`; the side effects performed before a throw persist.
* `test_suite::run` additionally records every call it makes in a trace (ghost state), so that
  the order of hook and procedure invocations can be stated.
* A test procedure written with the macros is a statement transformer over the procedure state
  (the local counter `errors`, the log sink, and the user's other variables).
-/

namespace Confer

/-! ## Error counter (confer.hpp, lines 61-119) -/

/-- Number of values of `std::size_t`. -/
def SIZE_MODULUS : Nat := 2 ^ 64

/-- Default `CT_ERRORS_TYPE` is `std::size_t`: a natural number, kept below `SIZE_MODULUS`
by the operations. -/
abbrev CT_ERRORS_TYPE : Type := Nat

/-- Default `CT_ERRORS_PARAMS` is `0`. -/
def CT_ERRORS_PARAMS : CT_ERRORS_TYPE := 0

/-- Macro `CT_INCREMENT_ERRORS(errors)` is `errors++` on a `std::size_t`: the new value of
the variable. -/
def CT_INCREMENT_ERRORS (errors : CT_ERRORS_TYPE) : CT_ERRORS_TYPE :=
  (errors + 1) % SIZE_MODULUS

/-- Macro `CT_ADD_TO_ERRORS(errors, number)` is `errors += number` on a `std::size_t`: the new
value of the variable. -/
def CT_ADD_TO_ERRORS (errors number : CT_ERRORS_TYPE) : CT_ERRORS_TYPE :=
  (errors + number) % SIZE_MODULUS

/-- Macro `CT_HAS_ERRORS(errors)` is `errors != 0`. -/
def CT_HAS_ERRORS (errors : CT_ERRORS_TYPE) : Bool :=
  errors != 0

/-! ## Log sink (confer.hpp, lines 267-306) -/

/-- The active log sink (`log_file` when open, otherwise `std::cout`): the lines written to it,
oldest first. -/
abbrev LogSink : Type := List String

/-- Replacement of the `{}` fields of a `std::format_string` by the already formatted arguments,
left to right. -/
def format_chars : List Char → List String → List Char
  | '{' :: '}' :: rest, arg :: args => arg.data ++ format_chars rest args
  | c :: rest, args => c :: format_chars rest args
  | [], _ => []

/-- The text `std::format(format, args...)`. -/
def format (fmt : String) (args : List String) : String :=
  String.mk (format_chars fmt.data args)

/-- Function `logln(format, args...)`: `std::println` to the sink appends one line. -/
def logln (fmt : String) (args : List String) (sink : LogSink) : LogSink :=
  sink ++ [format fmt args]

/-! ## Test cases and suites (confer.hpp, lines 308-390) -/

/-- Struct `test_case`. The member `function` is a `std::function<CT_ERRORS_TYPE()>`: called
in a world state it returns a counter or throws, and leaves a new world state. (An empty
`std::function` is the callable that throws `std::bad_function_call`.) -/
structure test_case (σ ε : Type) where
  title : String
  function_name : String
  function : σ → Except ε CT_ERRORS_TYPE × σ

/-- Method `test_case::run`: `return function();`. -/
def test_case.run {σ ε : Type} (test : test_case σ ε) (s : σ) :
    Except ε CT_ERRORS_TYPE × σ :=
  test.function s

/-- Struct `test_suite`. Each hook is a `std::function`, which may be empty (`none`). -/
structure test_suite (σ ε : Type) where
  tests : List (test_case σ ε)
  pre_run : Option (test_case σ ε → σ → Except ε Unit × σ)
  post_run : Option (test_case σ ε → CT_ERRORS_TYPE → σ → Except ε Unit × σ)
  run_failed : Option (test_case σ ε → CT_ERRORS_TYPE → σ → Except ε Bool × σ)

/-- An element of the vector returned by `test_suite::run`:
`std::pair<const test_case *, CT_ERRORS_TYPE>`. -/
abbrev failed_test (σ ε : Type) : Type := test_case σ ε × CT_ERRORS_TYPE

/-- One call made by `test_suite::run`, with its arguments and how it ended. -/
inductive Event (σ ε : Type) where
  | pre_run (test : test_case σ ε) (result : Except ε Unit)
  | function (test : test_case σ ε) (result : Except ε CT_ERRORS_TYPE)
  | run_failed (test : test_case σ ε) (errors : CT_ERRORS_TYPE) (result : Except ε Bool)
  | post_run (test : test_case σ ε) (errors : CT_ERRORS_TYPE) (result : Except ε Unit)

/-- What a piece of `test_suite::run` leaves behind: the value computed or the exception in
flight, the world state, and the calls it made, oldest first. -/
structure Outcome (σ ε α : Type) where
  result : Except ε α
  world : σ
  trace : List (Event σ ε)

/-- A piece of `test_suite::run`, started in a world state. -/
def Run (σ ε α : Type) : Type := σ → Outcome σ ε α

variable {σ ε : Type}

/-- A piece that makes no call and computes `a`. -/
def Run.pure {α : Type} (a : α) : Run σ ε α := fun s =>
  ⟨.ok a, s, []⟩

/-- Sequencing: `next` runs after `first` unless `first` threw, in which case the exception
propagates. -/
def Run.bind {α β : Type} (first : Run σ ε α) (next : α → Run σ ε β) : Run σ ε β :=
  fun s =>
    match first s with
    | ⟨.error e, s1, trace1⟩ => ⟨.error e, s1, trace1⟩
    | ⟨.ok a, s1, trace1⟩ =>
      match next a s1 with
      | ⟨result, s2, trace2⟩ => ⟨result, s2, trace1 ++ trace2⟩

instance : Monad (Run σ ε) where
  pure := Run.pure
  bind := Run.bind

/-- A call of the callable `f`, recorded as `event`. -/
def Run.call {α : Type} (f : σ → Except ε α × σ) (event : Except ε α → Event σ ε) :
    Run σ ε α := fun s =>
  match f s with
  | (result, s1) => ⟨result, s1, [event result]⟩

/-- Line 372: `if (pre_run) pre_run(test);`. -/
def test_suite.call_pre_run (suite : test_suite σ ε) (test : test_case σ ε) : Run σ ε Unit :=
  match suite.pre_run with
  | none => pure ()
  | some hook => Run.call (hook test) (Event.pre_run test)

/-- Line 379: the condition `run_failed && run_failed(test, errors)`. -/
def test_suite.call_run_failed (suite : test_suite σ ε) (test : test_case σ ε)
    (errors : CT_ERRORS_TYPE) : Run σ ε Bool :=
  match suite.run_failed with
  | none => pure false
  | some hook => Run.call (hook test errors) (Event.run_failed test errors)

/-- Line 385: `if (post_run) post_run(test, errors);`. -/
def test_suite.call_post_run (suite : test_suite σ ε) (test : test_case σ ε)
    (errors : CT_ERRORS_TYPE) : Run σ ε Unit :=
  match suite.post_run with
  | none => pure ()
  | some hook => Run.call (hook test errors) (Event.post_run test errors)

/-- Lines 374-383: `bool end_test = false;` and the statement `if (CT_HAS_ERRORS(errors))`,
which appends to `failed_tests` and consults the failure hook. It computes the new
`failed_tests` and `end_test`. -/
def test_suite.check_errors (suite : test_suite σ ε) (test : test_case σ ε)
    (errors : CT_ERRORS_TYPE) (failed_tests : List (failed_test σ ε)) :
    Run σ ε (List (failed_test σ ε) × Bool) :=
  if CT_HAS_ERRORS errors then do
    -- failed_tests.emplace_back(test, errors);
    -- if (run_failed && run_failed(test, errors)) end_test = true;
    let stop ← suite.call_run_failed test errors
    pure (failed_tests ++ [(test, errors)], stop)
  else
    pure (failed_tests, false)

/-- Lines 372-385: one iteration of the loop of `test_suite::run`, up to the test of
`end_test`. It computes the new `failed_tests` and `end_test`. -/
def test_suite.run_body (suite : test_suite σ ε) (test : test_case σ ε)
    (failed_tests : List (failed_test σ ε)) : Run σ ε (List (failed_test σ ε) × Bool) := do
  -- if (pre_run) pre_run(test);
  suite.call_pre_run test
  -- CT_ERRORS_TYPE errors = test->run();
  let errors ← Run.call test.run (Event.function test)
  -- bool end_test = false; if (CT_HAS_ERRORS(errors)) ...
  let checked ← suite.check_errors test errors failed_tests
  -- if (post_run) post_run(test, errors);
  suite.call_post_run test errors
  pure checked

/-- Lines 370-387: the loop `for (auto &test : tests)` over the tests still to run, with
`if (end_test) break;` at the end of each iteration. -/
def test_suite.run_loop (suite : test_suite σ ε) :
    List (test_case σ ε) → List (failed_test σ ε) → Run σ ε (List (failed_test σ ε))
  | [], failed_tests => pure failed_tests
  | test :: rest, failed_tests => do
    let (failed_tests, end_test) ← suite.run_body test failed_tests
    if end_test then pure failed_tests else suite.run_loop rest failed_tests

/-- Method `test_suite::run` (lines 366-389), started in world state `s`: `failed_tests` is
initially empty. -/
def test_suite.run (suite : test_suite σ ε) (s : σ) : Outcome σ ε (List (failed_test σ ε)) :=
  suite.run_loop suite.tests [] s

/-- Function `default_pre_runner(decor_char, decor_count)`: the returned hook writes the
decorated title to the log sink. -/
def default_pre_runner (decor_char : Char) (decor_count : Nat) :
    test_case LogSink ε → LogSink → Except ε Unit × LogSink :=
  let decor := String.mk (List.replicate decor_count decor_char)
  fun test sink => (.ok (), logln "{} {} {}" [decor, test.title, decor] sink)

/-- Function `default_post_runner(decor_char, decor_count)`: the returned hook writes the
decorated end-of-test line to the log sink. -/
def default_post_runner (decor_char : Char) (decor_count : Nat) :
    test_case LogSink ε → CT_ERRORS_TYPE → LogSink → Except ε Unit × LogSink :=
  let decor := String.mk (List.replicate decor_count decor_char)
  fun test errors sink =>
    (.ok (), logln "{} End of {}, {} errors {}\n" [decor, test.title, toString errors, decor] sink)

/-- Function `default_run_failed_quitter()`: the returned hook logs and returns `true`. -/
def default_run_failed_quitter :
    test_case LogSink ε → CT_ERRORS_TYPE → LogSink → Except ε Bool × LogSink :=
  fun test _errors sink =>
    (.ok true, logln "{} failed, cannot conduct further tests." [test.title] sink)

/-! ## Aggregation (confer.hpp, lines 443-477) -/

/-- Function `print_failed_tests`: nothing for an empty vector, otherwise the heading and then
one `logln` per record in order. -/
def print_failed_tests (failed_tests : List (failed_test σ ε)) (sink : LogSink) : LogSink :=
  if failed_tests.isEmpty then sink
  else
    failed_tests.foldl
      (fun out failed_test =>
        logln "  {}: {} errors" [failed_test.1.title, toString failed_test.2] out)
      (logln "Failed tests:" [] sink)

/-- Function `sum_failed_tests_errors`: `std::ranges::for_each` applies `CT_ADD_TO_ERRORS` to
the local `errors`, initialised with `CT_ERRORS_PARAMS`, for each record in order. -/
def sum_failed_tests_errors (failed_tests : List (failed_test σ ε)) : CT_ERRORS_TYPE :=
  failed_tests.foldl (fun errors failed_test => CT_ADD_TO_ERRORS errors failed_test.2)
    CT_ERRORS_PARAMS

/-! ## Test procedures and assertion macros (confer.hpp, lines 105-265) -/

/-- State of a running test procedure: the local counter `CT_ERRORS`, the log sink, and the
other variables the procedure can reach. -/
structure ProcState (τ : Type) where
  errors : CT_ERRORS_TYPE
  sink : LogSink
  vars : τ

/-- How a statement of a test procedure ends: control reaches the next statement, or the
procedure has executed `return`, or the behaviour is undefined (an `operator[]` out of
range). -/
inductive Flow (τ : Type) where
  | next (st : ProcState τ)
  | returned (value : CT_ERRORS_TYPE) (st : ProcState τ)
  | undefined

/-- A statement of a test procedure. -/
abbrev Stmt (τ : Type) : Type := ProcState τ → Flow τ

/-- A macro argument is an expression, evaluated where the expansion uses it: its value, or
`none` when evaluating it is undefined (an `operator[]` out of range). -/
abbrev Operand (α : Type) : Type := Option α

/-- The `__VA_ARGS__` handed to `logln`: the format string and the formatted arguments. -/
structure LogArgs where
  fmt : String
  args : List String

variable {τ α : Type}

/-- Sequencing `first; second`. -/
def Stmt.seq (first second : Stmt τ) : Stmt τ := fun st =>
  match first st with
  | .next st1 => second st1
  | .returned value st1 => .returned value st1
  | .undefined => .undefined

/-- The empty block `{}`. -/
def Stmt.empty : Stmt τ := fun st => .next st

/-- Loop `for (std::size_t i = 0; i < n; i++) { body }`, given as the indices still to visit. -/
def Stmt.for_indices (body : Nat → Stmt τ) : List Nat → Stmt τ
  | [], st => .next st
  | i :: rest, st =>
    match body i st with
    | .next st1 => Stmt.for_indices body rest st1
    | .returned value st1 => .returned value st1
    | .undefined => .undefined

/-- Macro `CT_BEGIN`: `CT_ERRORS_TYPE CT_ERRORS(CT_ERRORS_PARAMS);`. -/
def CT_BEGIN : Stmt τ := fun st =>
  .next { st with errors := CT_ERRORS_PARAMS }

/-- Macro `CT_END`: `return CT_ERRORS;`. -/
def CT_END : Stmt τ := fun st =>
  .returned st.errors st

/-- The binary operators of C++ without side effects that bind as tightly as `!=` or less
tightly: `==` and `!=`, then `&`, `^`, `|`, `&&` and `||`. -/
inductive LooseOp where
  | eq
  | ne
  | bit_and
  | bit_xor
  | bit_or
  | log_and
  | log_or

/-- Precedence of the operator: a smaller level binds tighter. -/
def LooseOp.level : LooseOp → Nat
  | .eq => 0
  | .ne => 0
  | .bit_and => 1
  | .bit_xor => 2
  | .bit_or => 3
  | .log_and => 4
  | .log_or => 5

/-- Value of `a op b` for operands of type `int`; a result of type `bool` is given as the
`int` it converts to, 1 or 0. -/
def LooseOp.apply : LooseOp → Int → Int → Int
  | .eq, a, b => if a = b then 1 else 0
  | .ne, a, b => if a = b then 0 else 1
  | .bit_and, a, b => Int.land a b
  | .bit_xor, a, b => Int.xor a b
  | .bit_or, a, b => Int.lor a b
  | .log_and, a, b => if a = 0 then 0 else if b = 0 then 0 else 1
  | .log_or, a, b => if a = 0 then (if b = 0 then 0 else 1) else 1

/-- The text of a macro argument of type `int`, as the preprocessor pastes it: expressions
that bind tighter than `!=` (literals, names, calls, arithmetic, anything in parentheses),
each given by its value, joined by operators that do not. Evaluating the text changes no
state. -/
structure IntText where
  head : Int
  rest : List (LooseOp × Int)

/-- One level of the grammar: the operators of precedence `level` are applied to their
neighbours, left to right; the operators of other levels stay. -/
def IntText.reduce (level : Nat) : Int → List (LooseOp × Int) → IntText
  | acc, [] => ⟨acc, []⟩
  | acc, (op, x) :: rest =>
    if op.level = level then IntText.reduce level (op.apply acc x) rest
    else
      let tail := IntText.reduce level x rest
      ⟨acc, (op, tail.head) :: tail.rest⟩

/-- The value of the text as a C++ expression: the levels are reduced tightest first. -/
def IntText.value (text : IntText) : Int :=
  ([0, 1, 2, 3, 4, 5].foldl (fun t level => IntText.reduce level t.head t.rest) text).head

/-- The text `value != expected` that the expansion of `CT_ASSERT_CODE_FMT` forms. -/
def IntText.paste_ne (value expected : IntText) : IntText :=
  ⟨value.head, value.rest ++ (LooseOp.ne, expected.head) :: expected.rest⟩

/-- What the expansion of an assertion macro does with the texts `γ` of its arguments `value`
and `expected`, for values of type `α`: it pastes them into `value != expected`, the
condition of its `if`, and into the arguments of `logln`, where each text is an expression of
its own. -/
class MacroOperand (γ : Type) (α : outParam Type) where
  condition : γ → γ → Operand Bool
  argument : γ → Operand α

/-- An argument whose text binds tighter than `!=`, given by its value, or by `none` when
evaluating it is undefined: the condition applies the `!=` of the type to the two values. -/
instance [BEq α] : MacroOperand (Operand α) α where
  condition value expected :=
    match value, expected with
    | some v, some e => some (v != e)
    | _, _ => none
  argument value := value

/-- An argument of type `int` given by its text: the condition is the value of the pasted
text `value != expected`, converted to `bool`. -/
instance : MacroOperand IntText Int where
  condition value expected := some ((IntText.paste_ne value expected).value != 0)
  argument value := some value.value

/-- Macro `CT_ASSERT_CODE_FMT(value, expected, code, ...)`:
`if (value != expected) { logln(__VA_ARGS__); CT_INCREMENT_ERRORS(CT_ERRORS); code; }`. -/
def CT_ASSERT_CODE_FMT {γ : Type} [MacroOperand γ α] (value expected : γ) (code : Stmt τ)
    (va_args : Operand LogArgs) : Stmt τ := fun st =>
  match MacroOperand.condition value expected with
  | some true =>
    match va_args with
    | some a =>
      let st1 := { st with sink := logln a.fmt a.args st.sink }
      let st2 := { st1 with errors := CT_INCREMENT_ERRORS st1.errors }
      code st2
    | none => .undefined
  | some false => .next st
  | none => .undefined

/-- Macro `CT_ASSERT_FMT(value, expected, ...)`. -/
def CT_ASSERT_FMT {γ : Type} [MacroOperand γ α] (value expected : γ)
    (va_args : Operand LogArgs) : Stmt τ :=
  CT_ASSERT_CODE_FMT value expected Stmt.empty va_args

/-- The arguments `"{}: {} != {} ({} != {})", message, #value, #expected, value, expected`;
`value_text` and `expected_text` are the stringified macro arguments, `value` and `expected`
the values of the two texts as arguments of `logln`. -/
def assert_va_args [ToString α] (message value_text expected_text : String)
    (value expected : Operand α) : Operand LogArgs :=
  match value, expected with
  | some v, some e =>
    some ⟨"{}: {} != {} ({} != {})", [message, value_text, expected_text, toString v, toString e]⟩
  | _, _ => none

/-- Macro `CT_ASSERT_CODE(value, expected, message, code)`. -/
def CT_ASSERT_CODE {γ : Type} [MacroOperand γ α] [ToString α]
    (value_text expected_text : String) (value expected : γ) (message : String)
    (code : Stmt τ) : Stmt τ :=
  CT_ASSERT_CODE_FMT value expected code
    (assert_va_args message value_text expected_text (MacroOperand.argument value)
      (MacroOperand.argument expected))

/-- Macro `CT_ASSERT(value, expected, message)`. -/
def CT_ASSERT {γ : Type} [MacroOperand γ α] [ToString α] (value_text expected_text : String)
    (value expected : γ) (message : String) : Stmt τ :=
  CT_ASSERT_CODE_FMT value expected Stmt.empty
    (assert_va_args message value_text expected_text (MacroOperand.argument value)
      (MacroOperand.argument expected))

/-- Macro `CT_ASSERT_END_FMT(value, expected, ...)`. -/
def CT_ASSERT_END_FMT {γ : Type} [MacroOperand γ α] (value expected : γ)
    (va_args : Operand LogArgs) : Stmt τ :=
  CT_ASSERT_CODE_FMT value expected CT_END va_args

/-- Macro `CT_ASSERT_END(value, expected, message)`. -/
def CT_ASSERT_END {γ : Type} [MacroOperand γ α] [ToString α]
    (value_text expected_text : String) (value expected : γ) (message : String) : Stmt τ :=
  CT_ASSERT_CODE_FMT value expected CT_END
    (assert_va_args message value_text expected_text (MacroOperand.argument value)
      (MacroOperand.argument expected))

/-- Macro `CT_ASSERT_SIZE(value, expected)`. -/
def CT_ASSERT_SIZE (value_text expected_text : String) (value expected : List α) : Stmt τ :=
  CT_ASSERT_END_FMT (some value.length) (some expected.length)
    (some ⟨"Invalid size: {}.size() != {}.size() ({} != {})",
      [value_text, expected_text, toString value.length, toString expected.length]⟩)

/-- The arguments of `logln` in `CT_ASSERT_ELM`. -/
def elm_va_args [ToString α] (value_text expected_text : String) (value expected : List α)
    (i : Nat) : Operand LogArgs :=
  match value[i]?, expected[i]? with
  | some v, some e =>
    some ⟨"Invalid element: {}[{}] != {}[{}] ({} != {})",
      [value_text, toString i, expected_text, toString i, toString v, toString e]⟩
  | _, _ => none

/-- Macro `CT_ASSERT_ELM(value, expected, i)`. -/
def CT_ASSERT_ELM [BEq α] [ToString α] (value_text expected_text : String)
    (value expected : List α) (i : Nat) : Stmt τ :=
  CT_ASSERT_FMT value[i]? expected[i]? (elm_va_args value_text expected_text value expected i)

/-- Macro `CT_ASSERT_CTR(value, expected)`. -/
def CT_ASSERT_CTR [BEq α] [ToString α] (value_text expected_text : String)
    (value expected : List α) : Stmt τ :=
  Stmt.seq (CT_ASSERT_SIZE value_text expected_text value expected)
    (Stmt.for_indices (fun i => CT_ASSERT_ELM value_text expected_text value expected i)
      (List.range expected.length))

/-- Macro `CT_ASSERT_SUB_SIZE(value, expected, i)`. -/
def CT_ASSERT_SUB_SIZE (value_text expected_text : String) (value expected : List (List α))
    (i : Nat) : Stmt τ :=
  CT_ASSERT_END_FMT (value[i]?.map List.length) (expected[i]?.map List.length)
    (match value[i]?, expected[i]? with
      | some v, some e =>
        some ⟨"Invalid size: {}[{}].size() != {}[{}].size() ({} != {})",
          [value_text, toString i, expected_text, toString i, toString v.length,
            toString e.length]⟩
      | _, _ => none)

/-- The arguments of `logln` in `CT_ASSERT_SUB_ELM`; the last one is `expected[i2][i2]`. -/
def sub_elm_va_args [ToString α] (value_text expected_text : String)
    (value expected : List (List α)) (i1 i2 : Nat) : Operand LogArgs :=
  match value[i1]?.bind (fun row => row[i2]?), expected[i2]?.bind (fun row => row[i2]?) with
  | some v, some e =>
    some ⟨"Invalid element: {}[{}][{}] != {}[{}][{}] ({} != {})",
      [value_text, toString i1, toString i2, expected_text, toString i1, toString i2,
        toString v, toString e]⟩
  | _, _ => none

/-- Macro `CT_ASSERT_SUB_ELM(value, expected, i1, i2)`. -/
def CT_ASSERT_SUB_ELM [BEq α] [ToString α] (value_text expected_text : String)
    (value expected : List (List α)) (i1 i2 : Nat) : Stmt τ :=
  CT_ASSERT_FMT (value[i1]?.bind (fun row => row[i2]?)) (expected[i1]?.bind (fun row => row[i2]?))
    (sub_elm_va_args value_text expected_text value expected i1 i2)

/-- Macro `CT_ASSERT_SUB_CTR(value, expected, i)`; the loop bound is `expected[i].size()`. -/
def CT_ASSERT_SUB_CTR [BEq α] [ToString α] (value_text expected_text : String)
    (value expected : List (List α)) (i : Nat) : Stmt τ :=
  Stmt.seq (CT_ASSERT_SUB_SIZE value_text expected_text value expected i)
    (fun st =>
      match expected[i]? with
      | some row =>
        Stmt.for_indices (fun j => CT_ASSERT_SUB_ELM value_text expected_text value expected i j)
          (List.range row.length) st
      | none => .undefined)

/-- Macro `CT_ASSERT_NEST_CTR(value, expected)`. -/
def CT_ASSERT_NEST_CTR [BEq α] [ToString α] (value_text expected_text : String)
    (value expected : List (List α)) : Stmt τ :=
  Stmt.seq (CT_ASSERT_SIZE value_text expected_text value expected)
    (Stmt.for_indices (fun i => CT_ASSERT_SUB_CTR value_text expected_text value expected i)
      (List.range expected.length))

/-! ## Suites with absent and with do-nothing hooks -/

section NoopHooks

variable {σ ε : Type}

/-- A `pre_run` callable that does nothing. -/
def noop_pre_run : test_case σ ε → σ → Except ε Unit × σ :=
  fun _ s => (.ok (), s)

/-- A `post_run` callable that does nothing. -/
def noop_post_run : test_case σ ε → CT_ERRORS_TYPE → σ → Except ε Unit × σ :=
  fun _ _ s => (.ok (), s)

/-- A `run_failed` callable that does nothing and returns `false`. -/
def noop_run_failed : test_case σ ε → CT_ERRORS_TYPE → σ → Except ε Bool × σ :=
  fun _ _ s => (.ok false, s)

/-- The suite of `tests` with `pre_run`, `post_run` and `run_failed` all unset. -/
def suite_without_hooks (tests : List (test_case σ ε)) : test_suite σ ε :=
  { tests := tests, pre_run := none, post_run := none, run_failed := none }

/-- The suite of `tests` with the three hooks set to the do-nothing callables. -/
def suite_with_noop_hooks (tests : List (test_case σ ε)) : test_suite σ ε :=
  { tests := tests, pre_run := some noop_pre_run, post_run := some noop_post_run,
    run_failed := some noop_run_failed }

end NoopHooks

/-! ## The usage example (examples/usage_example.cpp, lines 49-100) -/

/-- The block of the customized assertion in `test_basic_assertion`:
`{ int value = 8; value++; }`. The variables of the procedure state hold the value that the
block's local `value` had when the block was last left, `none` while it has not run. -/
def test_basic_assertion_block : Stmt (Option Int) := fun st =>
  .next { st with vars := some (8 + 1) }

/-- Function `test_basic_assertion` of the usage example. -/
def test_basic_assertion : Stmt (Option Int) :=
  Stmt.seq CT_BEGIN
    (Stmt.seq (CT_ASSERT "1 + 1" "2" (some (1 + 1 : Int)) (some 2) "1 + 1 should equal 2")
      (Stmt.seq (CT_ASSERT "2 * 2" "4" (some (2 * 2 : Int)) (some 4) "2 * 2 should equal 4")
        (Stmt.seq
          (CT_ASSERT_CODE_FMT (some (3 * 3 : Int)) (some 8) test_basic_assertion_block
            (some ⟨"3 * 3 should equal 8... should it?", []⟩))
          CT_END)))

/-- The vectors `nested_value` and `nested_expected` of `test_container_assertion`. -/
def usage_nested : List (List Int) :=
  [[1, 2, 3, 4, 5], [6, 7, 8, 9, 10], [11, 12, 13, 14, 15]]

/-- Function `test_container_assertion` of the usage example. -/
def test_container_assertion : Stmt Unit :=
  Stmt.seq CT_BEGIN
    (Stmt.seq (CT_ASSERT_CTR "value" "expected" [(1 : Int), 2, 3, 4, 5] [1, 2, 3, 4, 5])
      (Stmt.seq (CT_ASSERT_NEST_CTR "nested_value" "nested_expected" usage_nested usage_nested)
        CT_END))

/-! ## Values of type `float` (IEEE 754 binary32) -/

/-- Number of binary digits of `n`, counted with at most `fuel` halvings. -/
def bit_length_aux : Nat → Nat → Nat
  | 0, _ => 0
  | fuel + 1, n => if n = 0 then 0 else bit_length_aux fuel (n / 2) + 1

/-- Number of binary digits of `n`, for `n < 2 ^ 1024`. -/
def bit_length (n : Nat) : Nat := bit_length_aux 1024 n

/-- A value of type `float`: NaN, an infinity, or the finite value `units * 2 ^ -149`, a
multiple of the smallest positive `float`; the values of the type are those whose `units`
have at most 24 significant binary digits and are below `2 ^ 277` in magnitude. The sign of
a zero is not recorded. -/
inductive Binary32 where
  | nan
  | infinity (negative : Bool)
  | finite (units : Int)

/-- The `float` nearest to `n * 2 ^ -(149 + shift)`, ties to the even significand (the
rounding of IEEE 754 arithmetic): the low digits beyond 24 significant ones, and those below
one unit, are dropped and the rest is rounded; a magnitude of `2 ^ 128` or more, which is
`2 ^ 277` units or more, a number of more than 277 binary digits, gives an infinity. -/
def Binary32.round (n : Int) (shift : Nat) : Binary32 :=
  let a := n.natAbs
  let drop := max shift (bit_length a - 24)
  let q := a / 2 ^ drop
  let r := a % 2 ^ drop
  let up := decide (2 ^ drop < 2 * r) || (decide (2 * r = 2 ^ drop) && decide (q % 2 = 1))
  let units := (if up then q + 1 else q) * 2 ^ (drop - shift)
  if 277 < bit_length units then .infinity (decide (n < 0))
  else .finite (if n < 0 then -(units : Int) else units)

/-- Operator `+` of `float`. -/
def Binary32.add : Binary32 → Binary32 → Binary32
  | .finite a, .finite b => Binary32.round (a + b) 0
  | .finite _, .infinity s => .infinity s
  | .infinity s, .finite _ => .infinity s
  | .infinity s, .infinity t => if s = t then .infinity s else .nan
  | _, _ => .nan

/-- Operator `*` of `float`. -/
def Binary32.mul : Binary32 → Binary32 → Binary32
  | .finite a, .finite b => Binary32.round (a * b) 149
  | .finite a, .infinity s => if a = 0 then .nan else .infinity (s != decide (a < 0))
  | .infinity s, .finite b => if b = 0 then .nan else .infinity (s != decide (b < 0))
  | .infinity s, .infinity t => .infinity (s != t)
  | _, _ => .nan

/-- Operator `==` of `float`: NaN is equal to nothing, not even to itself. -/
def Binary32.eq : Binary32 → Binary32 → Bool
  | .finite a, .finite b => decide (a = b)
  | .infinity s, .infinity t => s == t
  | _, _ => false

/-- Operators `==` and `!=` of `float`; `a != b` is `!(a == b)`. -/
instance : BEq Binary32 := ⟨Binary32.eq⟩

/-- The conversion `(int)` of a `float`: the value truncated toward zero, or `none` when
that is not a value of a 32-bit `int` (undefined behaviour). -/
def Binary32.to_int : Binary32 → Option Int
  | .finite units =>
    let truncated := Int.tdiv units (2 ^ 149)
    if -(2 ^ 31) ≤ truncated ∧ truncated < 2 ^ 31 then some truncated else none
  | _ => none

/-! ## The custom counter (examples/custom_errors_class.cpp) -/

namespace custom_errors_class

/-- Struct `my_error_t`. -/
structure my_error_t where
  errors_count : Binary32

/-- Constructor `my_error_t(float base, float power)`:
`errors_count = std::pow(base, power);`. The library function `std::pow` on `float` is the
parameter `pow`. -/
def my_error_t.construct (pow : Binary32 → Binary32 → Binary32) (base power : Binary32) :
    my_error_t :=
  ⟨pow base power⟩

/-- Member `operator()`: `errors_count += 0.5f;`. -/
def my_error_t.operator_call (error : my_error_t) : my_error_t :=
  ⟨error.errors_count.add (.finite (2 ^ 148))⟩

/-- Member `operator[]`: `errors_count += addition.errors_count;`. -/
def my_error_t.operator_index (error addition : my_error_t) : my_error_t :=
  ⟨error.errors_count.add addition.errors_count⟩

/-- Member `get_errors`: `return (int)(errors_count * 2.0f);`. -/
def my_error_t.get_errors (error : my_error_t) : Option Int :=
  (error.errors_count.mul (.finite (2 ^ 150))).to_int

/-- Member `has_errors`: `return errors_count != 0.0f;`. -/
def my_error_t.has_errors (error : my_error_t) : Bool :=
  error.errors_count != .finite 0

/-- Macro `CT_ERRORS_PARAMS`: `0.0f, 1.0f`. -/
def CT_ERRORS_PARAMS : Binary32 × Binary32 := (.finite 0, .finite (2 ^ 149))

/-- Macro `CT_INCREMENT_ERRORS(errors)`: `errors()`. -/
def CT_INCREMENT_ERRORS (errors : my_error_t) : my_error_t := errors.operator_call

/-- Macro `CT_ADD_TO_ERRORS(errors, number)`: `errors[number]`. -/
def CT_ADD_TO_ERRORS (errors number : my_error_t) : my_error_t := errors.operator_index number

/-- Macro `CT_HAS_ERRORS(errors)`: `errors.has_errors()`. -/
def CT_HAS_ERRORS (errors : my_error_t) : Bool := errors.has_errors

/-- The specialization `std::formatter<my_error_t>`: the text of `error.get_errors()`. -/
def formatter (error : my_error_t) : Option String :=
  error.get_errors.map toString

/-- State of the test procedure of the example: the local counter `my_errors` and the log
sink. -/
structure ProcState where
  my_errors : my_error_t
  sink : LogSink

/-- How a statement of the procedure ends: control reaches the next statement, or the
procedure has executed `return`, or the behaviour is undefined. -/
inductive Flow where
  | next (st : ProcState)
  | returned (value : my_error_t) (st : ProcState)
  | undefined

/-- A statement of the procedure. -/
abbrev Stmt : Type := ProcState → Flow

/-- Sequencing `first; second`. -/
def Stmt.seq (first second : Stmt) : Stmt := fun st =>
  match first st with
  | .next st1 => second st1
  | .returned value st1 => .returned value st1
  | .undefined => .undefined

/-- The object that `CT_ERRORS_TYPE CT_ERRORS(CT_ERRORS_PARAMS);` declares:
`my_error_t my_errors(0.0f, 1.0f);`. -/
def fresh_counter (pow : Binary32 → Binary32 → Binary32) : my_error_t :=
  my_error_t.construct pow CT_ERRORS_PARAMS.1 CT_ERRORS_PARAMS.2

/-- Macro `CT_BEGIN` of confer.hpp with the macros of the example. -/
def CT_BEGIN (pow : Binary32 → Binary32 → Binary32) : Stmt := fun st =>
  .next { st with my_errors := fresh_counter pow }

/-- Macro `CT_END`: `return my_errors;`. -/
def CT_END : Stmt := fun st =>
  .returned st.my_errors st

/-- The statement `CT_INCREMENT_ERRORS(CT_ERRORS);`. -/
def increment_errors : Stmt := fun st =>
  .next { st with my_errors := CT_INCREMENT_ERRORS st.my_errors }

/-- The empty block `{}`. -/
def Stmt.empty : Stmt := fun st => .next st

/-- Macro `CT_ASSERT_CODE_FMT(value, expected, code, ...)` of confer.hpp with the macros of the
example:
`if (value != expected) { logln(__VA_ARGS__); CT_INCREMENT_ERRORS(CT_ERRORS); code; }`. -/
def CT_ASSERT_CODE_FMT {γ α : Type} [MacroOperand γ α] (value expected : γ) (code : Stmt)
    (va_args : Operand LogArgs) : Stmt := fun st =>
  match MacroOperand.condition value expected with
  | some true =>
    match va_args with
    | some a =>
      let st1 := { st with sink := logln a.fmt a.args st.sink }
      let st2 := { st1 with my_errors := CT_INCREMENT_ERRORS st1.my_errors }
      code st2
    | none => .undefined
  | some false => .next st
  | none => .undefined

/-- Macro `CT_ASSERT(value, expected, message)` of confer.hpp with the macros of the
example. -/
def CT_ASSERT {γ α : Type} [MacroOperand γ α] [ToString α] (value_text expected_text : String)
    (value expected : γ) (message : String) : Stmt :=
  CT_ASSERT_CODE_FMT value expected Stmt.empty
    (assert_va_args message value_text expected_text (MacroOperand.argument value)
      (MacroOperand.argument expected))

/-- Function `test_custom_errors_class`. -/
def test_custom_errors_class (pow : Binary32 → Binary32 → Binary32) : Stmt :=
  Stmt.seq (CT_BEGIN pow)
    (Stmt.seq increment_errors
      (Stmt.seq increment_errors
        (Stmt.seq increment_errors
          (Stmt.seq increment_errors
            (Stmt.seq
              (fun st => CT_ASSERT "CT_ERRORS.get_errors()" "4" st.my_errors.get_errors
                (some (4 : Int)) "4 error increments should result in 4 errors" st)
              CT_END)))))

end custom_errors_class

/-! ## Concrete suites used to instantiate the theorems -/

section Fixtures

/-- A test case whose procedure writes nothing and returns `errors`. -/
def witness_case (title : String) (errors : CT_ERRORS_TYPE) : test_case LogSink String :=
  { title := title, function_name := "test_case", function := fun sink => (.ok errors, sink) }

/-- Six test cases, of which the second and the fifth return a counter with errors. -/
def witness_cases : List (test_case LogSink String) :=
  [witness_case "case 1" 0, witness_case "case 2" 1, witness_case "case 3" 0,
    witness_case "case 4" 0, witness_case "case 5" 3, witness_case "case 6" 0]

/-- A suite with all three hooks set, whose failure hook never asks to stop. -/
def witness_suite : test_suite LogSink String :=
  { tests := witness_cases
    pre_run := some (default_pre_runner '=' 3)
    post_run := some (default_post_runner '=' 3)
    run_failed := some (fun test _errors sink =>
      (.ok false, logln "{} failed, continuing." [test.title] sink)) }

/-- A suite with all three hooks set, whose failure hook is `default_run_failed_quitter`. -/
def stopping_suite : test_suite LogSink String :=
  { tests := witness_cases
    pre_run := some (default_pre_runner '=' 3)
    post_run := some (default_post_runner '=' 3)
    run_failed := some default_run_failed_quitter }

/-- The state of a test procedure just after `CT_BEGIN`, with nothing logged yet. -/
def witness_state : ProcState Unit :=
  { errors := CT_ERRORS_PARAMS, sink := [], vars := () }

/-- A test case whose procedure throws `e`. -/
def throwing_case (title : String) (e : String) : test_case LogSink String :=
  { title := title, function_name := "test_case", function := fun sink => (.error e, sink) }

/-- A suite whose second case throws. -/
def throwing_suite : test_suite LogSink String :=
  { tests := [witness_case "case 1" 0, throwing_case "case 2" "boom", witness_case "case 3" 5]
    pre_run := some (default_pre_runner '=' 3)
    post_run := some (default_post_runner '=' 3)
    run_failed := none }

/-- A suite without hooks whose two cases each return `2 ^ 63`. -/
def overflow_suite : test_suite LogSink String :=
  suite_without_hooks
    [witness_case "case 1" 9223372036854775808, witness_case "case 2" 9223372036854775808]

/-- A suite without hooks whose three cases return 0, 3 and 0. -/
def three_case_suite : test_suite LogSink String :=
  suite_without_hooks
    [witness_case "case 1" 0, witness_case "case 2" 3, witness_case "case 3" 0]

/-- A test case over a world state that is one shared flag; its procedure leaves the flag and
returns `errors`. -/
def flag_case (title : String) (errors : CT_ERRORS_TYPE) : test_case Bool String :=
  { title := title, function_name := "test_case", function := fun flag => (.ok errors, flag) }

/-- A `pre_run` hook that sets the shared flag. -/
def flag_pre_run : test_case Bool String → Bool → Except String Unit × Bool :=
  fun _test _flag => (.ok (), true)

/-- A failure hook that returns the shared flag. -/
def flag_run_failed :
    test_case Bool String → CT_ERRORS_TYPE → Bool → Except String Bool × Bool :=
  fun _test _errors flag => (.ok flag, flag)

/-- Two failing cases with the failure hook `flag_run_failed` and the given `pre_run`. -/
def flag_suite (pre_run : Option (test_case Bool String → Bool → Except String Unit × Bool)) :
    test_suite Bool String :=
  { tests := [flag_case "case 1" 1, flag_case "case 2" 1]
    pre_run := pre_run
    post_run := none
    run_failed := some flag_run_failed }

/-- A test case whose procedure writes one line to the log sink and returns `errors`. -/
def logging_case (title : String) (errors : CT_ERRORS_TYPE) : test_case LogSink String :=
  { title := title, function_name := "test_case"
    function := fun sink => (.ok errors, logln "running {}" [title] sink) }

/-- A suite of three logging cases, the second of which fails, with all three hooks set; the
failure hook never asks to stop. -/
def logging_suite : test_suite LogSink String :=
  { tests := [logging_case "case 1" 0, logging_case "case 2" 2, logging_case "case 3" 0]
    pre_run := some (default_pre_runner '=' 3)
    post_run := some (default_post_runner '=' 3)
    run_failed := some (fun test _errors sink =>
      (.ok false, logln "{} failed, continuing." [test.title] sink)) }

/-- A `std::pow` for the witness: it returns `base`, which is the exact result for the power
1, the only power that the example uses. -/
def witness_pow (base _power : Binary32) : Binary32 := base

end Fixtures

/-! ## Observations on the trace of `test_suite::run` -/

section Observations

variable {σ ε : Type}

/-- The call ended by throwing an exception. -/
def Event.threw : Event σ ε → Bool
  | .pre_run _ (.error _) => true
  | .function _ (.error _) => true
  | .run_failed _ _ (.error _) => true
  | .post_run _ _ (.error _) => true
  | _ => false

/-- The call is a call of the failure hook that returned `true`. -/
def Event.requests_stop : Event σ ε → Bool
  | .run_failed _ _ (.ok true) => true
  | _ => false

/-- The test case whose procedure the call invoked, if the call is one of a procedure. -/
def Event.invoked : Event σ ε → Option (test_case σ ε)
  | .function test _ => some test
  | _ => none

/-- The test case and the counter its procedure returned, if the call is one of a procedure
that returned. -/
def Event.returned : Event σ ε → Option (failed_test σ ε)
  | .function test (.ok errors) => some (test, errors)
  | _ => none

/-- The test cases whose procedures were invoked, in the order of invocation. -/
def invoked_cases (trace : List (Event σ ε)) : List (test_case σ ε) :=
  trace.filterMap Event.invoked

/-- The test cases whose procedures returned, each with the counter returned, in the order of
invocation. -/
def returned_counters (trace : List (Event σ ε)) : List (failed_test σ ε) :=
  trace.filterMap Event.returned

/-- The calls that one iteration of the loop makes for a case whose procedure returns
`call.2`, none of them throwing, when the failure hook (if called) returns `stop`:
`pre_run(case)` if set, the procedure, `run_failed(case, counter)` if set and the counter has
errors, `post_run(case, counter)` if set. -/
def case_events (suite : test_suite σ ε) (call : failed_test σ ε) (stop : Bool) :
    List (Event σ ε) :=
  (if suite.pre_run.isSome then [Event.pre_run call.1 (.ok ())] else [])
    ++ [Event.function call.1 (.ok call.2)]
    ++ (if CT_HAS_ERRORS call.2 && suite.run_failed.isSome
          then [Event.run_failed call.1 call.2 (.ok stop)] else [])
    ++ (if suite.post_run.isSome then [Event.post_run call.1 call.2 (.ok ())] else [])

/-- The calls of a run that made the iterations `blocks` (case, counter returned, and what the
failure hook answered). -/
def blocks_trace (suite : test_suite σ ε) (blocks : List (failed_test σ ε × Bool)) :
    List (Event σ ε) :=
  blocks.flatMap (fun b => case_events suite b.1 b.2)


/-- The test cases that `pre_run` was called with, in call order. -/
def pre_run_calls (trace : List (Event σ ε)) : List (test_case σ ε) :=
  trace.filterMap (fun ev => match ev with
    | .pre_run test _ => some test
    | _ => none)

/-- The arguments that `run_failed` was called with, in call order. -/
def run_failed_calls (trace : List (Event σ ε)) : List (failed_test σ ε) :=
  trace.filterMap (fun ev => match ev with
    | .run_failed test errors _ => some (test, errors)
    | _ => none)

/-- The arguments that `post_run` was called with, in call order. -/
def post_run_calls (trace : List (Event σ ε)) : List (failed_test σ ε) :=
  trace.filterMap (fun ev => match ev with
    | .post_run test errors _ => some (test, errors)
    | _ => none)

/-- One operation on a counter: `CT_INCREMENT_ERRORS` (`none`) or `CT_ADD_TO_ERRORS` with the
given number (`some number`). -/
abbrev CounterOp : Type := Option CT_ERRORS_TYPE

/-- The counter after one operation. -/
def apply_op (errors : CT_ERRORS_TYPE) (op : CounterOp) : CT_ERRORS_TYPE :=
  match op with
  | none => CT_INCREMENT_ERRORS errors
  | some number => CT_ADD_TO_ERRORS errors number

/-- The counter after the operations `ops`, applied left to right. -/
def apply_ops (ops : List CounterOp) (errors : CT_ERRORS_TYPE) : CT_ERRORS_TYPE :=
  ops.foldl apply_op errors

/-- The amount that an operation adds in exact arithmetic. -/
def op_amount (op : CounterOp) : Nat :=
  match op with
  | none => 1
  | some number => number

/-- The amount that the operations `ops` add in exact arithmetic. -/
def ops_total (ops : List CounterOp) : Nat :=
  (ops.map op_amount).sum

/-- The exception that the call ended with, if it threw. -/
def Event.exception : Event σ ε → Option ε
  | .pre_run _ (.error e) => some e
  | .function _ (.error e) => some e
  | .run_failed _ _ (.error e) => some e
  | .post_run _ _ (.error e) => some e
  | _ => none

/-- Exceptions propagate: a piece of `test_suite::run` that computed a value made no call that
threw, and a piece that ended with the exception `e` made its last call when that call threw
`e`, no earlier call having thrown. -/
def Outcome.Propagates {α : Type} (o : Outcome σ ε α) : Prop :=
  match o.result with
  | .ok _ => ∀ ev ∈ o.trace, ev.threw = false
  | .error e => ∃ earlier ev, o.trace = earlier ++ [ev] ∧ ev.exception = some e
      ∧ ∀ ev1 ∈ earlier, ev1.threw = false

/-- A recorded call of a procedure is a call of that procedure: the recorded result is what
`test_case::run` gives in some world state. Nothing is required of the calls of hooks. -/
def Event.genuine : Event σ ε → Prop
  | .function test result => ∃ s1, (test.run s1).1 = result
  | _ => True

/-- The line that `print_failed_tests` logs for one record. -/
def failed_test_line (record : failed_test σ ε) : String :=
  format "  {}: {} errors" [record.1.title, toString record.2]

/-- The world state after the calls that one iteration of the loop makes for `test`, started
in the world state `w`: `pre_run` if set, then the procedure of the case in the state that
`pre_run` left, then, with the counter that the procedure returned, `run_failed` if set and
the counter has errors, then `post_run` if set. (After a procedure that throws: the state the
procedure left.) -/
def case_world (suite : test_suite σ ε) (test : test_case σ ε) (w : σ) : σ :=
  let w1 := match suite.pre_run with
    | some hook => (hook test w).2
    | none => w
  match test.function w1 with
  | (.error _, w2) => w2
  | (.ok errors, w2) =>
    let w3 := match suite.run_failed with
      | some hook => if CT_HAS_ERRORS errors then (hook test errors w2).2 else w2
      | none => w2
    match suite.post_run with
    | some hook => (hook test errors w3).2
    | none => w3

end Observations

/-! ## Observations on the assertion macros -/

section AssertionObservations

variable {α : Type}

/-- The line logged by `CT_ASSERT`, `CT_ASSERT_CODE` and `CT_ASSERT_END`. -/
def assert_line [ToString α] (message value_text expected_text : String) (x y : α) : String :=
  format "{}: {} != {} ({} != {})" [message, value_text, expected_text, toString x, toString y]

/-- The line logged by `CT_ASSERT_SIZE`. -/
def size_line (value_text expected_text : String) (value_size expected_size : Nat) : String :=
  format "Invalid size: {}.size() != {}.size() ({} != {})"
    [value_text, expected_text, toString value_size, toString expected_size]

/-- The line logged by `CT_ASSERT_SUB_SIZE` for outer index `i`. -/
def sub_size_line (value_text expected_text : String) (i value_size expected_size : Nat) :
    String :=
  format "Invalid size: {}[{}].size() != {}[{}].size() ({} != {})"
    [value_text, toString i, expected_text, toString i, toString value_size,
      toString expected_size]

/-- The statements that consist only of assertion macros: each of the macros
`CT_ASSERT_CODE_FMT` to `CT_ASSERT_NEST_CTR` (the block of a `CODE` variant being such a
statement itself), the empty block, `CT_END`, and sequences of these. -/
inductive AssertionOnly {τ : Type} : Stmt τ → Prop where
  | empty : AssertionOnly Stmt.empty
  | ct_end : AssertionOnly CT_END
  | seq (first second : Stmt τ) :
      AssertionOnly first → AssertionOnly second → AssertionOnly (Stmt.seq first second)
  | assert_code_fmt {γ α : Type} [MacroOperand γ α] (value expected : γ) (code : Stmt τ)
      (va_args : Operand LogArgs) :
      AssertionOnly code → AssertionOnly (CT_ASSERT_CODE_FMT value expected code va_args)
  | assert_fmt {γ α : Type} [MacroOperand γ α] (value expected : γ)
      (va_args : Operand LogArgs) :
      AssertionOnly (CT_ASSERT_FMT value expected va_args)
  | assert_code {γ α : Type} [MacroOperand γ α] [ToString α]
      (value_text expected_text : String) (value expected : γ) (message : String)
      (code : Stmt τ) :
      AssertionOnly code →
      AssertionOnly (CT_ASSERT_CODE value_text expected_text value expected message code)
  | assert {γ α : Type} [MacroOperand γ α] [ToString α] (value_text expected_text : String)
      (value expected : γ) (message : String) :
      AssertionOnly (CT_ASSERT value_text expected_text value expected message)
  | assert_end_fmt {γ α : Type} [MacroOperand γ α] (value expected : γ)
      (va_args : Operand LogArgs) : AssertionOnly (CT_ASSERT_END_FMT value expected va_args)
  | assert_end {γ α : Type} [MacroOperand γ α] [ToString α]
      (value_text expected_text : String) (value expected : γ) (message : String) :
      AssertionOnly (CT_ASSERT_END value_text expected_text value expected message)
  | assert_size {α : Type} (value_text expected_text : String) (value expected : List α) :
      AssertionOnly (CT_ASSERT_SIZE value_text expected_text value expected)
  | assert_elm {α : Type} [BEq α] [ToString α] (value_text expected_text : String)
      (value expected : List α) (i : Nat) :
      AssertionOnly (CT_ASSERT_ELM value_text expected_text value expected i)
  | assert_ctr {α : Type} [BEq α] [ToString α] (value_text expected_text : String)
      (value expected : List α) :
      AssertionOnly (CT_ASSERT_CTR value_text expected_text value expected)
  | assert_sub_size {α : Type} (value_text expected_text : String)
      (value expected : List (List α)) (i : Nat) :
      AssertionOnly (CT_ASSERT_SUB_SIZE value_text expected_text value expected i)
  | assert_sub_elm {α : Type} [BEq α] [ToString α] (value_text expected_text : String)
      (value expected : List (List α)) (i1 i2 : Nat) :
      AssertionOnly (CT_ASSERT_SUB_ELM value_text expected_text value expected i1 i2)
  | assert_sub_ctr {α : Type} [BEq α] [ToString α] (value_text expected_text : String)
      (value expected : List (List α)) (i : Nat) :
      AssertionOnly (CT_ASSERT_SUB_CTR value_text expected_text value expected i)
  | assert_nest_ctr {α : Type} [BEq α] [ToString α] (value_text expected_text : String)
      (value expected : List (List α)) :
      AssertionOnly (CT_ASSERT_NEST_CTR value_text expected_text value expected)

/-- How a statement started in state `st` ended, when it ended as the language defines: the
sink of `st` has grown by some lines and the counter is that of `st` after as many
applications of `CT_INCREMENT_ERRORS` as there are new lines; a value returned is that
counter. Nothing is required of undefined behaviour. -/
def Flow.lines_match_increments {τ : Type} (st : ProcState τ) : Flow τ → Prop
  | .next st1 =>
    ∃ lines : List String,
      st1.sink = st.sink ++ lines ∧ st1.errors = CT_INCREMENT_ERRORS^[lines.length] st.errors
  | .returned value st1 =>
    ∃ lines : List String,
      st1.sink = st.sink ++ lines ∧ st1.errors = CT_INCREMENT_ERRORS^[lines.length] st.errors
        ∧ value = st1.errors
  | .undefined => True

end AssertionObservations

/-! ## Auxiliary lemmas -/

section Lemmas

variable {σ ε : Type}

/-- Folding `+` modulo `m` is adding the sum modulo `m`. -/
theorem foldl_add_mod (m : Nat) (l : List Nat) (a : Nat) :
    l.foldl (fun acc x => (acc + x) % m) a = if l = [] then a else (a + l.sum) % m := by
  induction l generalizing a with
  | nil => simp
  | cons x xs ih =>
    simp only [List.foldl_cons, ih, List.sum_cons]
    by_cases h : xs = []
    · simp [h]
    · simp [h, Nat.add_assoc]

theorem sum_failed_tests_errors_fold (failed_tests : List (failed_test σ ε)) :
    sum_failed_tests_errors failed_tests
      = (failed_tests.map Prod.snd).foldl CT_ADD_TO_ERRORS CT_ERRORS_PARAMS := by
  unfold sum_failed_tests_errors
  rw [List.foldl_map]

theorem sum_failed_tests_errors_eq (failed_tests : List (failed_test σ ε)) :
    sum_failed_tests_errors failed_tests = (failed_tests.map Prod.snd).sum % SIZE_MODULUS := by
  rw [sum_failed_tests_errors_fold]
  have h : CT_ADD_TO_ERRORS = fun acc x => (acc + x) % SIZE_MODULUS := rfl
  rw [h, foldl_add_mod]
  by_cases hnil : failed_tests = []
  · simp [hnil, SIZE_MODULUS, CT_ERRORS_PARAMS]
  · simp [hnil, CT_ERRORS_PARAMS]

/-- Sequencing after a piece that did not throw. -/
theorem Run.bind_of_ok {α β : Type} {first : Run σ ε α} (next : α → Run σ ε β) {s : σ}
    {a : α} (h : (first s).result = .ok a) :
    (first >>= next) s = ⟨(next a (first s).world).result, (next a (first s).world).world,
        (first s).trace ++ (next a (first s).world).trace⟩ := by
  show Run.bind first next s = _
  unfold Run.bind
  rcases hf : first s with ⟨r, s1, t1⟩
  rw [hf] at h
  simp only at h
  subst h
  rfl

/-- Sequencing after a piece that threw: the exception propagates, `next` does not run. -/
theorem Run.bind_of_error {α β : Type} {first : Run σ ε α} (next : α → Run σ ε β) {s : σ}
    {e : ε} (h : (first s).result = .error e) :
    (first >>= next) s = ⟨.error e, (first s).world, (first s).trace⟩ := by
  show Run.bind first next s = _
  unfold Run.bind
  rcases hf : first s with ⟨r, s1, t1⟩
  rw [hf] at h
  simp only at h
  subst h
  rfl

/-- The calls of the first piece are calls of the sequence. -/
theorem Run.mem_trace_bind {α β : Type} (first : Run σ ε α) (next : α → Run σ ε β) (s : σ)
    (ev : Event σ ε) (h : ev ∈ (first s).trace) : ev ∈ ((first >>= next) s).trace := by
  rcases hr : (first s).result with e | a
  · rw [Run.bind_of_error next hr]; exact h
  · rw [Run.bind_of_ok next hr]; exact List.mem_append_left _ h

theorem Run.call_apply {α : Type} (f : σ → Except ε α × σ) (event : Except ε α → Event σ ε)
    (s : σ) : Run.call f event s = ⟨(f s).1, (f s).2, [event (f s).1]⟩ := rfl

theorem call_pre_run_spec (suite : test_suite σ ε) (test : test_case σ ε) (s : σ)
    (h : ∀ ev ∈ (suite.call_pre_run test s).trace, ev.threw = false) :
    (suite.call_pre_run test s).result = .ok ()
      ∧ (suite.call_pre_run test s).trace
          = if suite.pre_run.isSome then [Event.pre_run test (.ok ())] else [] := by
  revert h
  unfold test_suite.call_pre_run
  rcases suite.pre_run with _ | hook
  · exact fun _ => ⟨rfl, rfl⟩
  · simp only [Run.call_apply]
    rcases (hook test s).1 with e | u
    · simp [Event.threw]
    · simp

theorem call_function_spec (test : test_case σ ε) (s : σ)
    (h : ∀ ev ∈ (Run.call test.run (Event.function test) s).trace, ev.threw = false) :
    ∃ c, (Run.call test.run (Event.function test) s).result = .ok c
      ∧ (Run.call test.run (Event.function test) s).trace = [Event.function test (.ok c)]
      ∧ (test.run s).1 = .ok c := by
  revert h
  simp only [Run.call_apply]
  rcases (test.run s).1 with e | c
  · simp [Event.threw]
  · exact fun _ => ⟨c, rfl, rfl, rfl⟩

theorem call_run_failed_spec (suite : test_suite σ ε) (test : test_case σ ε)
    (errors : CT_ERRORS_TYPE) (s : σ)
    (h : ∀ ev ∈ (suite.call_run_failed test errors s).trace, ev.threw = false) :
    ∃ stop, (suite.call_run_failed test errors s).result = .ok stop
      ∧ (suite.call_run_failed test errors s).trace
          = (if suite.run_failed.isSome then [Event.run_failed test errors (.ok stop)] else [])
      ∧ (stop = true → suite.run_failed.isSome = true) := by
  revert h
  unfold test_suite.call_run_failed
  rcases suite.run_failed with _ | hook
  · exact fun _ => ⟨false, rfl, rfl, by simp⟩
  · simp only [Run.call_apply]
    rcases (hook test errors s).1 with e | stop
    · simp [Event.threw]
    · exact fun _ => ⟨stop, rfl, rfl, fun _ => rfl⟩

theorem call_post_run_spec (suite : test_suite σ ε) (test : test_case σ ε)
    (errors : CT_ERRORS_TYPE) (s : σ)
    (h : ∀ ev ∈ (suite.call_post_run test errors s).trace, ev.threw = false) :
    (suite.call_post_run test errors s).result = .ok ()
      ∧ (suite.call_post_run test errors s).trace
          = if suite.post_run.isSome then [Event.post_run test errors (.ok ())] else [] := by
  revert h
  unfold test_suite.call_post_run
  rcases suite.post_run with _ | hook
  · exact fun _ => ⟨rfl, rfl⟩
  · simp only [Run.call_apply]
    rcases (hook test errors s).1 with e | u
    · simp [Event.threw]
    · simp

theorem check_errors_spec (suite : test_suite σ ε) (test : test_case σ ε)
    (errors : CT_ERRORS_TYPE) (failed_tests : List (failed_test σ ε)) (s : σ)
    (h : ∀ ev ∈ (suite.check_errors test errors failed_tests s).trace, ev.threw = false) :
    ∃ stop, (suite.check_errors test errors failed_tests s).result
          = .ok (if CT_HAS_ERRORS errors then failed_tests ++ [(test, errors)] else failed_tests,
              stop)
      ∧ (suite.check_errors test errors failed_tests s).trace
          = (if CT_HAS_ERRORS errors && suite.run_failed.isSome
              then [Event.run_failed test errors (.ok stop)] else [])
      ∧ (stop = true → CT_HAS_ERRORS errors = true ∧ suite.run_failed.isSome = true) := by
  revert h
  unfold test_suite.check_errors
  by_cases hc : CT_HAS_ERRORS errors = true
  · simp only [hc, if_true, Bool.true_and]
    intro h
    obtain ⟨stop, hres, htr, hstop⟩ := call_run_failed_spec suite test errors s
      (fun ev hev => h ev (Run.mem_trace_bind _ _ _ _ hev))
    refine ⟨stop, ?_, ?_, fun hs => ⟨trivial, hstop hs⟩⟩
    · rw [Run.bind_of_ok _ hres]; rfl
    · rw [Run.bind_of_ok _ hres, htr]; simp [pure, Run.pure]
  · simp only [hc, if_false, Bool.false_and]
    exact fun _ => ⟨false, rfl, by simp [pure, Run.pure], by simp⟩


/-- One iteration of the loop in which nothing throws: the procedure returned some counter `c`,
the failure hook (if consulted) answered `stop`, the record is appended exactly when `c` has
errors, and the calls made are `case_events suite (test, c) stop`. -/
theorem run_body_spec (suite : test_suite σ ε) (test : test_case σ ε)
    (failed_tests : List (failed_test σ ε)) (s : σ)
    (h : ∀ ev ∈ (suite.run_body test failed_tests s).trace, ev.threw = false) :
    ∃ c stop,
      (suite.run_body test failed_tests s).result
          = .ok (if CT_HAS_ERRORS c then failed_tests ++ [(test, c)] else failed_tests, stop)
        ∧ (suite.run_body test failed_tests s).trace = case_events suite (test, c) stop
        ∧ (stop = true → CT_HAS_ERRORS c = true ∧ suite.run_failed.isSome = true)
        ∧ (∃ s1, (test.run s1).1 = .ok c) := by
  revert h
  unfold test_suite.run_body
  intro h
  obtain ⟨h1r, h1t⟩ := call_pre_run_spec suite test s
    (fun ev hev => h ev (Run.mem_trace_bind _ _ _ _ hev))
  rw [Run.bind_of_ok _ h1r] at h ⊢
  simp only [List.mem_append] at h
  generalize (suite.call_pre_run test s).world = s1 at h ⊢
  obtain ⟨c, h2r, h2t, h2c⟩ := call_function_spec test s1
    (fun ev hev => h ev (Or.inr (Run.mem_trace_bind _ _ _ _ hev)))
  rw [Run.bind_of_ok _ h2r] at h ⊢
  simp only [List.mem_append] at h
  generalize (Run.call test.run (Event.function test) s1).world = s2 at h ⊢
  obtain ⟨stop, h3r, h3t, h3s⟩ := check_errors_spec suite test c failed_tests s2
    (fun ev hev => h ev (Or.inr (Or.inr (Run.mem_trace_bind _ _ _ _ hev))))
  rw [Run.bind_of_ok _ h3r] at h ⊢
  simp only [List.mem_append] at h
  generalize (suite.check_errors test c failed_tests s2).world = s3 at h ⊢
  obtain ⟨h4r, h4t⟩ := call_post_run_spec suite test c s3
    (fun ev hev => h ev (Or.inr (Or.inr (Or.inr (Run.mem_trace_bind _ _ _ _ hev)))))
  rw [Run.bind_of_ok _ h4r]
  refine ⟨c, stop, rfl, ?_, h3s, s1, h2c⟩
  simp only [h1t, h2t, h3t, h4t, case_events, pure, Run.pure, List.append_nil, List.append_assoc]


/-- The loop when nothing throws: it performs a sequence of iterations `blocks`, one per case
in order, appending the records of the failed ones; either it visits all cases and no
iteration asks to stop, or the last iteration performed is the first that asks to stop. -/
theorem run_loop_spec (suite : test_suite σ ε) (tests : List (test_case σ ε))
    (failed_tests : List (failed_test σ ε)) (s : σ)
    (h : ∀ ev ∈ (suite.run_loop tests failed_tests s).trace, ev.threw = false) :
    ∃ blocks : List (failed_test σ ε × Bool),
      (suite.run_loop tests failed_tests s).trace = blocks_trace suite blocks
        ∧ (suite.run_loop tests failed_tests s).result
            = .ok (failed_tests ++ (blocks.map Prod.fst).filter (fun r => CT_HAS_ERRORS r.2))
        ∧ (∀ b ∈ blocks, ∃ s1, (b.1.1.run s1).1 = .ok b.1.2)
        ∧ ((blocks.map (fun b => b.1.1) = tests ∧ ∀ b ∈ blocks, b.2 = false)
            ∨ ∃ init last rest, blocks = init ++ [(last, true)]
                ∧ (∀ b ∈ init, b.2 = false)
                ∧ tests = init.map (fun b => b.1.1) ++ last.1 :: rest
                ∧ CT_HAS_ERRORS last.2 = true ∧ suite.run_failed.isSome = true) := by
  induction tests generalizing failed_tests s with
  | nil =>
    exact ⟨[], rfl, by simp [test_suite.run_loop, pure, Run.pure], by simp,
      Or.inl ⟨rfl, by simp⟩⟩
  | cons test rest ih =>
    revert h
    unfold test_suite.run_loop
    intro h
    obtain ⟨c, stop, hres, htr, hstop, hcall⟩ := run_body_spec suite test failed_tests s
      (fun ev hev => h ev (Run.mem_trace_bind _ _ _ _ hev))
    rw [Run.bind_of_ok _ hres] at h ⊢
    simp only [List.mem_append] at h
    generalize (suite.run_body test failed_tests s).world = s1 at h ⊢
    cases stop with
    | true =>
      refine ⟨[((test, c), true)], ?_, ?_, by simpa using hcall,
        Or.inr ⟨[], (test, c), rest, rfl, by simp, rfl, (hstop rfl).1, (hstop rfl).2⟩⟩
      · simp [htr, blocks_trace, pure, Run.pure]
      · simp [(hstop rfl).1, pure, Run.pure]
    | false =>
      simp only [Bool.false_eq_true, if_false] at h ⊢
      obtain ⟨blocks, btr, bres, bcall, bshape⟩ := ih _ s1 (fun ev hev => h ev (Or.inr hev))
      refine ⟨((test, c), false) :: blocks, ?_, ?_, ?_, ?_⟩
      · simp [htr, btr, blocks_trace]
      · rw [bres]
        by_cases hc : CT_HAS_ERRORS c = true <;> simp [hc]
      · intro b hb
        rcases List.mem_cons.mp hb with rfl | hb
        · exact hcall
        · exact bcall b hb
      · rcases bshape with ⟨hall, hno⟩ | ⟨init, last, rest1, hb, hinit, htests, hlast⟩
        · exact Or.inl ⟨by simp [hall], by simpa using hno⟩
        · exact Or.inr ⟨((test, c), false) :: init, last, rest1, by simp [hb],
            by simpa using hinit, by simp [htests], hlast⟩

theorem blocks_trace_nil (suite : test_suite σ ε) : blocks_trace suite [] = [] := rfl

theorem blocks_trace_cons (suite : test_suite σ ε) (b : failed_test σ ε × Bool)
    (blocks : List (failed_test σ ε × Bool)) :
    blocks_trace suite (b :: blocks) = case_events suite b.1 b.2 ++ blocks_trace suite blocks := by
  simp [blocks_trace]

theorem blocks_trace_append (suite : test_suite σ ε) (l1 l2 : List (failed_test σ ε × Bool)) :
    blocks_trace suite (l1 ++ l2) = blocks_trace suite l1 ++ blocks_trace suite l2 := by
  simp [blocks_trace]

theorem returned_counters_case_events (suite : test_suite σ ε) (call : failed_test σ ε)
    (stop : Bool) : returned_counters (case_events suite call stop) = [call] := by
  unfold returned_counters case_events
  simp only [List.filterMap_append]
  split_ifs <;> simp [Event.returned]

theorem invoked_cases_case_events (suite : test_suite σ ε) (call : failed_test σ ε)
    (stop : Bool) : invoked_cases (case_events suite call stop) = [call.1] := by
  unfold invoked_cases case_events
  simp only [List.filterMap_append]
  split_ifs <;> simp [Event.invoked]

theorem pre_run_calls_case_events (suite : test_suite σ ε) (call : failed_test σ ε)
    (stop : Bool) :
    pre_run_calls (case_events suite call stop) = if suite.pre_run.isSome then [call.1] else [] := by
  unfold pre_run_calls case_events
  simp only [List.filterMap_append]
  split_ifs <;> simp

theorem post_run_calls_case_events (suite : test_suite σ ε) (call : failed_test σ ε)
    (stop : Bool) :
    post_run_calls (case_events suite call stop) = if suite.post_run.isSome then [call] else [] := by
  unfold post_run_calls case_events
  simp only [List.filterMap_append]
  split_ifs <;> simp

theorem run_failed_calls_case_events (suite : test_suite σ ε) (call : failed_test σ ε)
    (stop : Bool) :
    run_failed_calls (case_events suite call stop)
      = if CT_HAS_ERRORS call.2 && suite.run_failed.isSome then [call] else [] := by
  unfold run_failed_calls case_events
  simp only [List.filterMap_append]
  split_ifs <;> simp

theorem requests_stop_case_events (suite : test_suite σ ε) (call : failed_test σ ε)
    (stop : Bool) :
    (case_events suite call stop).filter Event.requests_stop
      = if stop && (CT_HAS_ERRORS call.2 && suite.run_failed.isSome)
          then [Event.run_failed call.1 call.2 (.ok true)] else [] := by
  unfold case_events
  simp only [List.filter_append]
  cases stop <;> split_ifs <;> simp_all [Event.requests_stop]

theorem returned_counters_blocks (suite : test_suite σ ε)
    (blocks : List (failed_test σ ε × Bool)) :
    returned_counters (blocks_trace suite blocks) = blocks.map Prod.fst := by
  induction blocks with
  | nil => rfl
  | cons b blocks ih =>
    rw [blocks_trace_cons]
    unfold returned_counters at ih ⊢
    rw [List.filterMap_append, ih]
    exact congrArg (· ++ _) (returned_counters_case_events suite b.1 b.2)


theorem invoked_cases_blocks (suite : test_suite σ ε)
    (blocks : List (failed_test σ ε × Bool)) :
    invoked_cases (blocks_trace suite blocks) = blocks.map (fun b => b.1.1) := by
  induction blocks with
  | nil => rfl
  | cons b blocks ih =>
    rw [blocks_trace_cons]
    unfold invoked_cases at ih ⊢
    rw [List.filterMap_append, ih]
    exact congrArg (· ++ _) (invoked_cases_case_events suite b.1 b.2)

theorem pre_run_calls_blocks (suite : test_suite σ ε) (hset : suite.pre_run.isSome = true)
    (blocks : List (failed_test σ ε × Bool)) :
    pre_run_calls (blocks_trace suite blocks) = blocks.map (fun b => b.1.1) := by
  induction blocks with
  | nil => rfl
  | cons b blocks ih =>
    have hb := pre_run_calls_case_events suite b.1 b.2
    rw [blocks_trace_cons]
    unfold pre_run_calls at ih hb ⊢
    rw [List.filterMap_append, ih, hb, if_pos hset]
    rfl

theorem post_run_calls_blocks (suite : test_suite σ ε) (hset : suite.post_run.isSome = true)
    (blocks : List (failed_test σ ε × Bool)) :
    post_run_calls (blocks_trace suite blocks) = blocks.map Prod.fst := by
  induction blocks with
  | nil => rfl
  | cons b blocks ih =>
    have hb := post_run_calls_case_events suite b.1 b.2
    rw [blocks_trace_cons]
    unfold post_run_calls at ih hb ⊢
    rw [List.filterMap_append, ih, hb, if_pos hset]
    rfl

theorem run_failed_calls_blocks (suite : test_suite σ ε) (hset : suite.run_failed.isSome = true)
    (blocks : List (failed_test σ ε × Bool)) :
    run_failed_calls (blocks_trace suite blocks)
      = (blocks.map Prod.fst).filter (fun call => CT_HAS_ERRORS call.2) := by
  induction blocks with
  | nil => rfl
  | cons b blocks ih =>
    have hb := run_failed_calls_case_events suite b.1 b.2
    rw [blocks_trace_cons]
    unfold run_failed_calls at ih hb ⊢
    rw [List.filterMap_append, ih, hb, hset, Bool.and_true, List.map_cons, List.filter_cons]
    by_cases hc : CT_HAS_ERRORS b.1.2 = true <;> simp [hc]

theorem stop_event_mem_case_events (suite : test_suite σ ε) (call : failed_test σ ε)
    (hc : CT_HAS_ERRORS call.2 = true) (hset : suite.run_failed.isSome = true) :
    Event.run_failed call.1 call.2 (.ok true) ∈ case_events suite call true := by
  have hf := requests_stop_case_events suite call true
  simp only [hc, hset, Bool.and_self, if_true] at hf
  have : Event.run_failed call.1 call.2 (.ok true)
      ∈ (case_events suite call true).filter Event.requests_stop := by
    rw [hf]; exact List.mem_singleton.mpr rfl
  exact (List.mem_filter.mp this).1

theorem blocks_trace_of_no_stop (suite : test_suite σ ε)
    (blocks : List (failed_test σ ε × Bool)) (hno : ∀ b ∈ blocks, b.2 = false) :
    blocks_trace suite blocks
      = (blocks.map Prod.fst).flatMap (fun call => case_events suite call false) := by
  induction blocks with
  | nil => rfl
  | cons b blocks ih =>
    rw [blocks_trace_cons, ih (fun b hb => hno b (List.mem_cons_of_mem _ hb)),
      hno b (List.mem_cons_self _ _)]
    simp

variable {τ α : Type}

/-- The condition of the expansion for two arguments that bind tighter than `!=`. -/
theorem condition_some [BEq α] (v e : α) :
    MacroOperand.condition (some v) (some e) = some (v != e) := rfl

theorem CT_ASSERT_CODE_FMT_pass [BEq α] (v e : α) (code : Stmt τ) (va_args : Operand LogArgs)
    (st : ProcState τ) (h : (v != e) = false) :
    CT_ASSERT_CODE_FMT (some v) (some e) code va_args st = .next st := by
  simp [CT_ASSERT_CODE_FMT, condition_some, h]

theorem CT_ASSERT_CODE_FMT_fail [BEq α] (v e : α) (code : Stmt τ) (a : LogArgs)
    (st : ProcState τ) (h : (v != e) = true) :
    CT_ASSERT_CODE_FMT (some v) (some e) code (some a) st
      = code { st with sink := st.sink ++ [format a.fmt a.args],
                       errors := CT_INCREMENT_ERRORS st.errors } := by
  simp [CT_ASSERT_CODE_FMT, condition_some, h, logln]

theorem CT_ASSERT_SIZE_pass (value_text expected_text : String) (value expected : List α)
    (h : value.length = expected.length) (st : ProcState τ) :
    CT_ASSERT_SIZE value_text expected_text value expected st = .next st := by
  unfold CT_ASSERT_SIZE CT_ASSERT_END_FMT
  exact CT_ASSERT_CODE_FMT_pass _ _ _ _ st (by simp [h])

theorem CT_ASSERT_SIZE_fail (value_text expected_text : String) (value expected : List α)
    (h : value.length ≠ expected.length) (st : ProcState τ) :
    CT_ASSERT_SIZE value_text expected_text value expected st
      = .returned (CT_INCREMENT_ERRORS st.errors) { st with
          errors := CT_INCREMENT_ERRORS st.errors
          sink := st.sink ++ [size_line value_text expected_text value.length expected.length] } := by
  unfold CT_ASSERT_SIZE CT_ASSERT_END_FMT
  rw [CT_ASSERT_CODE_FMT_fail _ _ _ _ st (by simpa using h)]
  rfl

theorem apply_ops_exact (ops : List CounterOp) :
    ∀ errors : Nat, errors + ops_total ops < SIZE_MODULUS →
      apply_ops ops errors = errors + ops_total ops := by
  induction ops with
  | nil => intro errors _; rfl
  | cons op ops ih =>
    intro errors h
    have hstep : ops_total (op :: ops) = op_amount op + ops_total ops := by
      simp [ops_total]
    rw [hstep] at h
    have h1 : apply_op errors op = errors + op_amount op := by
      cases op with
      | none => exact Nat.mod_eq_of_lt (by simp only [op_amount] at h; omega)
      | some number => exact Nat.mod_eq_of_lt (by simp only [op_amount] at h; omega)
    show apply_ops ops (apply_op errors op) = _
    rw [h1, ih _ (by omega), hstep]
    exact Nat.add_assoc errors (op_amount op) (ops_total ops)

theorem Event.threw_of_exception (ev : Event σ ε) (e : ε) (h : ev.exception = some e) :
    ev.threw = true := by
  cases ev with
  | pre_run test result => cases result <;> simp_all [Event.exception, Event.threw]
  | function test result => cases result <;> simp_all [Event.exception, Event.threw]
  | run_failed test errors result => cases result <;> simp_all [Event.exception, Event.threw]
  | post_run test errors result => cases result <;> simp_all [Event.exception, Event.threw]

theorem Run.propagates_pure {α : Type} (a : α) (s : σ) :
    ((pure a : Run σ ε α) s).Propagates := by
  show ∀ ev ∈ ([] : List (Event σ ε)), ev.threw = false
  simp

theorem Run.propagates_bind {α β : Type} (first : Run σ ε α) (next : α → Run σ ε β) (s : σ)
    (hfirst : (first s).Propagates) (hnext : ∀ a s1, (next a s1).Propagates) :
    ((first >>= next) s).Propagates := by
  rcases hr : (first s).result with e | a
  · rw [Run.bind_of_error next hr]
    unfold Outcome.Propagates at hfirst ⊢
    rw [hr] at hfirst
    exact hfirst
  · rw [Run.bind_of_ok next hr]
    have hn := hnext a (first s).world
    unfold Outcome.Propagates at hfirst hn ⊢
    rw [hr] at hfirst
    simp only at hfirst ⊢
    rcases hr2 : (next a (first s).world).result with e | b
    · rw [hr2] at hn
      obtain ⟨earlier, ev, htr, hex, hno⟩ := hn
      refine ⟨(first s).trace ++ earlier, ev, by rw [htr, List.append_assoc], hex, ?_⟩
      intro ev1 hev1
      rcases List.mem_append.mp hev1 with h1 | h1
      · exact hfirst ev1 h1
      · exact hno ev1 h1
    · rw [hr2] at hn
      intro ev hev
      rcases List.mem_append.mp hev with h1 | h1
      · exact hfirst ev h1
      · exact hn ev h1

theorem Run.propagates_call {α : Type} (f : σ → Except ε α × σ)
    (event : Except ε α → Event σ ε) (hok : ∀ a, (event (.ok a)).threw = false)
    (herr : ∀ e, (event (.error e)).exception = some e) (s : σ) :
    (Run.call f event s).Propagates := by
  rw [Run.call_apply]
  unfold Outcome.Propagates
  rcases (f s).1 with e | a
  · exact ⟨[], event (.error e), rfl, herr e, by simp⟩
  · simpa using hok a

theorem call_pre_run_propagates (suite : test_suite σ ε) (test : test_case σ ε) (s : σ) :
    (suite.call_pre_run test s).Propagates := by
  unfold test_suite.call_pre_run
  rcases suite.pre_run with _ | hook
  · exact Run.propagates_pure () s
  · exact Run.propagates_call (hook test) (Event.pre_run test) (fun _ => rfl) (fun _ => rfl) s

theorem call_run_failed_propagates (suite : test_suite σ ε) (test : test_case σ ε)
    (errors : CT_ERRORS_TYPE) (s : σ) : (suite.call_run_failed test errors s).Propagates := by
  unfold test_suite.call_run_failed
  rcases suite.run_failed with _ | hook
  · exact Run.propagates_pure false s
  · exact Run.propagates_call (hook test errors) (Event.run_failed test errors) (fun _ => rfl)
      (fun _ => rfl) s

theorem call_post_run_propagates (suite : test_suite σ ε) (test : test_case σ ε)
    (errors : CT_ERRORS_TYPE) (s : σ) : (suite.call_post_run test errors s).Propagates := by
  unfold test_suite.call_post_run
  rcases suite.post_run with _ | hook
  · exact Run.propagates_pure () s
  · exact Run.propagates_call (hook test errors) (Event.post_run test errors) (fun _ => rfl)
      (fun _ => rfl) s

theorem check_errors_propagates (suite : test_suite σ ε) (test : test_case σ ε)
    (errors : CT_ERRORS_TYPE) (failed_tests : List (failed_test σ ε)) (s : σ) :
    (suite.check_errors test errors failed_tests s).Propagates := by
  unfold test_suite.check_errors
  split
  · exact Run.propagates_bind _ _ s (call_run_failed_propagates suite test errors s)
      (fun stop s1 => Run.propagates_pure _ s1)
  · exact Run.propagates_pure _ s

theorem run_body_propagates (suite : test_suite σ ε) (test : test_case σ ε)
    (failed_tests : List (failed_test σ ε)) (s : σ) :
    (suite.run_body test failed_tests s).Propagates := by
  unfold test_suite.run_body
  exact Run.propagates_bind _ _ s (call_pre_run_propagates suite test s) (fun _ s1 =>
    Run.propagates_bind _ _ s1
      (Run.propagates_call test.run (Event.function test) (fun _ => rfl) (fun _ => rfl) s1)
      (fun errors s2 =>
        Run.propagates_bind _ _ s2 (check_errors_propagates suite test errors failed_tests s2)
          (fun checked s3 =>
            Run.propagates_bind _ _ s3 (call_post_run_propagates suite test errors s3)
              (fun _ s4 => Run.propagates_pure checked s4))))

theorem run_loop_propagates (suite : test_suite σ ε) (tests : List (test_case σ ε))
    (failed_tests : List (failed_test σ ε)) (s : σ) :
    (suite.run_loop tests failed_tests s).Propagates := by
  induction tests generalizing failed_tests s with
  | nil => exact Run.propagates_pure failed_tests s
  | cons test rest ih =>
    unfold test_suite.run_loop
    refine Run.propagates_bind _ _ s (run_body_propagates suite test failed_tests s) ?_
    rintro ⟨failed_tests1, end_test⟩ s1
    cases end_test with
    | true => exact Run.propagates_pure failed_tests1 s1
    | false => exact ih failed_tests1 s1


theorem invoked_cases_append (l1 l2 : List (Event σ ε)) :
    invoked_cases (l1 ++ l2) = invoked_cases l1 ++ invoked_cases l2 := by
  unfold invoked_cases
  exact List.filterMap_append l1 l2 Event.invoked

theorem Run.invoked_bind_nil {α β : Type} (first : Run σ ε α) (next : α → Run σ ε β) (s : σ)
    (hfirst : invoked_cases (first s).trace = [])
    (hnext : ∀ a s1, invoked_cases (next a s1).trace = []) :
    invoked_cases ((first >>= next) s).trace = [] := by
  rcases hr : (first s).result with e | a
  · rw [Run.bind_of_error next hr]; exact hfirst
  · rw [Run.bind_of_ok next hr]
    simp only [invoked_cases_append, hfirst, hnext, List.append_nil]

theorem call_pre_run_invoked (suite : test_suite σ ε) (test : test_case σ ε) (s : σ) :
    invoked_cases (suite.call_pre_run test s).trace = [] := by
  unfold test_suite.call_pre_run
  rcases suite.pre_run with _ | hook
  · rfl
  · rfl

theorem call_run_failed_invoked (suite : test_suite σ ε) (test : test_case σ ε)
    (errors : CT_ERRORS_TYPE) (s : σ) :
    invoked_cases (suite.call_run_failed test errors s).trace = [] := by
  unfold test_suite.call_run_failed
  rcases suite.run_failed with _ | hook
  · rfl
  · rfl

theorem call_post_run_invoked (suite : test_suite σ ε) (test : test_case σ ε)
    (errors : CT_ERRORS_TYPE) (s : σ) :
    invoked_cases (suite.call_post_run test errors s).trace = [] := by
  unfold test_suite.call_post_run
  rcases suite.post_run with _ | hook
  · rfl
  · rfl

theorem check_errors_invoked (suite : test_suite σ ε) (test : test_case σ ε)
    (errors : CT_ERRORS_TYPE) (failed_tests : List (failed_test σ ε)) (s : σ) :
    invoked_cases (suite.check_errors test errors failed_tests s).trace = [] := by
  unfold test_suite.check_errors
  split
  · exact Run.invoked_bind_nil _ _ s (call_run_failed_invoked suite test errors s)
      (fun _ _ => rfl)
  · rfl

/-- One iteration of the loop invokes the procedure of its case and no other; it invokes
none only when `pre_run` throws. -/
theorem run_body_invoked (suite : test_suite σ ε) (test : test_case σ ε)
    (failed_tests : List (failed_test σ ε)) (s : σ) :
    (∃ e, (suite.run_body test failed_tests s).result = .error e
        ∧ invoked_cases (suite.run_body test failed_tests s).trace = [])
      ∨ invoked_cases (suite.run_body test failed_tests s).trace = [test] := by
  unfold test_suite.run_body
  rcases h1 : (suite.call_pre_run test s).result with e | u
  · left
    rw [Run.bind_of_error _ h1]
    exact ⟨e, rfl, call_pre_run_invoked suite test s⟩
  · right
    rw [Run.bind_of_ok _ h1]
    simp only [invoked_cases_append, call_pre_run_invoked, List.nil_append]
    generalize (suite.call_pre_run test s).world = s1
    have hcall : invoked_cases (Run.call test.run (Event.function test) s1).trace = [test] :=
      rfl
    rcases h2 : (Run.call test.run (Event.function test) s1).result with e | errors
    · rw [Run.bind_of_error _ h2]
      exact hcall
    · rw [Run.bind_of_ok _ h2]
      simp only [invoked_cases_append, hcall]
      refine (congrArg ([test] ++ ·) ?_).trans (List.append_nil _)
      apply Run.invoked_bind_nil
      · exact check_errors_invoked suite test errors failed_tests _
      · intro checked s3
        apply Run.invoked_bind_nil
        · exact call_post_run_invoked suite test errors s3
        · intro _ _; rfl

/-- The procedures invoked by the loop are those of an initial segment of the remaining
cases, in order. -/
theorem run_loop_invoked_prefix (suite : test_suite σ ε) (tests : List (test_case σ ε))
    (failed_tests : List (failed_test σ ε)) (s : σ) :
    invoked_cases (suite.run_loop tests failed_tests s).trace <+: tests := by
  induction tests generalizing failed_tests s with
  | nil => exact List.prefix_refl []
  | cons test rest ih =>
    unfold test_suite.run_loop
    rcases hr : (suite.run_body test failed_tests s).result with e | checked
    · rw [Run.bind_of_error _ hr]
      rcases run_body_invoked suite test failed_tests s with ⟨_, _, hnil⟩ | hone
      · rw [hnil]; exact List.nil_prefix
      · rw [hone]; exact List.prefix_cons_inj test |>.mpr List.nil_prefix
    · rw [Run.bind_of_ok _ hr]
      have hone : invoked_cases (suite.run_body test failed_tests s).trace = [test] := by
        rcases run_body_invoked suite test failed_tests s with ⟨e, he, _⟩ | hone
        · rw [hr] at he; cases he
        · exact hone
      simp only [invoked_cases_append, hone]
      obtain ⟨failed_tests1, end_test⟩ := checked
      cases end_test with
      | true => exact List.prefix_cons_inj test |>.mpr List.nil_prefix
      | false => exact List.prefix_cons_inj test |>.mpr (ih failed_tests1 _)

theorem Run.forall_trace_bind {α β : Type} (P : Event σ ε → Prop) (first : Run σ ε α)
    (next : α → Run σ ε β) (s : σ) (hfirst : ∀ ev ∈ (first s).trace, P ev)
    (hnext : ∀ a s1, ∀ ev ∈ (next a s1).trace, P ev) :
    ∀ ev ∈ ((first >>= next) s).trace, P ev := by
  rcases hr : (first s).result with e | a
  · rw [Run.bind_of_error next hr]; exact hfirst
  · rw [Run.bind_of_ok next hr]
    intro ev hev
    rcases List.mem_append.mp hev with h1 | h1
    · exact hfirst ev h1
    · exact hnext a _ ev h1

theorem call_pre_run_genuine (suite : test_suite σ ε) (test : test_case σ ε) (s : σ) :
    ∀ ev ∈ (suite.call_pre_run test s).trace, ev.genuine := by
  unfold test_suite.call_pre_run
  rcases suite.pre_run with _ | hook
  · exact fun ev hev => absurd hev (List.not_mem_nil ev)
  · intro ev hev
    have h : ev = Event.pre_run test (hook test s).1 := List.mem_singleton.mp hev
    rw [h]; trivial

theorem call_run_failed_genuine (suite : test_suite σ ε) (test : test_case σ ε)
    (errors : CT_ERRORS_TYPE) (s : σ) :
    ∀ ev ∈ (suite.call_run_failed test errors s).trace, ev.genuine := by
  unfold test_suite.call_run_failed
  rcases suite.run_failed with _ | hook
  · exact fun ev hev => absurd hev (List.not_mem_nil ev)
  · intro ev hev
    have h : ev = Event.run_failed test errors (hook test errors s).1 :=
      List.mem_singleton.mp hev
    rw [h]; trivial

theorem call_post_run_genuine (suite : test_suite σ ε) (test : test_case σ ε)
    (errors : CT_ERRORS_TYPE) (s : σ) :
    ∀ ev ∈ (suite.call_post_run test errors s).trace, ev.genuine := by
  unfold test_suite.call_post_run
  rcases suite.post_run with _ | hook
  · exact fun ev hev => absurd hev (List.not_mem_nil ev)
  · intro ev hev
    have h : ev = Event.post_run test errors (hook test errors s).1 :=
      List.mem_singleton.mp hev
    rw [h]; trivial

theorem check_errors_genuine (suite : test_suite σ ε) (test : test_case σ ε)
    (errors : CT_ERRORS_TYPE) (failed_tests : List (failed_test σ ε)) (s : σ) :
    ∀ ev ∈ (suite.check_errors test errors failed_tests s).trace, ev.genuine := by
  unfold test_suite.check_errors
  split
  · exact Run.forall_trace_bind _ _ _ s (call_run_failed_genuine suite test errors s)
      (fun _ _ ev hev => absurd hev (List.not_mem_nil ev))
  · exact fun ev hev => absurd hev (List.not_mem_nil ev)

theorem run_body_genuine (suite : test_suite σ ε) (test : test_case σ ε)
    (failed_tests : List (failed_test σ ε)) (s : σ) :
    ∀ ev ∈ (suite.run_body test failed_tests s).trace, ev.genuine := by
  unfold test_suite.run_body
  refine Run.forall_trace_bind _ _ _ s (call_pre_run_genuine suite test s) (fun _ s1 => ?_)
  refine Run.forall_trace_bind _ _ _ s1 ?_ (fun errors s2 => ?_)
  · intro ev hev
    have h : ev = Event.function test (test.run s1).1 := List.mem_singleton.mp hev
    rw [h]
    exact ⟨s1, rfl⟩
  · refine Run.forall_trace_bind _ _ _ s2
      (check_errors_genuine suite test errors failed_tests s2) (fun checked s3 => ?_)
    exact Run.forall_trace_bind _ _ _ s3 (call_post_run_genuine suite test errors s3)
      (fun _ _ ev hev => absurd hev (List.not_mem_nil ev))

theorem run_loop_genuine (suite : test_suite σ ε) (tests : List (test_case σ ε))
    (failed_tests : List (failed_test σ ε)) (s : σ) :
    ∀ ev ∈ (suite.run_loop tests failed_tests s).trace, ev.genuine := by
  induction tests generalizing failed_tests s with
  | nil => exact fun ev hev => absurd hev (List.not_mem_nil ev)
  | cons test rest ih =>
    unfold test_suite.run_loop
    refine Run.forall_trace_bind _ _ _ s (run_body_genuine suite test failed_tests s) ?_
    rintro ⟨failed_tests1, end_test⟩ s1
    cases end_test with
    | true => exact fun ev hev => absurd hev (List.not_mem_nil ev)
    | false => exact ih failed_tests1 s1

theorem run_body_without_hooks (tests : List (test_case σ ε)) (test : test_case σ ε)
    (failed_tests : List (failed_test σ ε)) (s : σ) :
    ((suite_without_hooks tests).run_body test failed_tests s).result
        = (match (test.function s).1 with
          | .error e => .error e
          | .ok errors =>
            .ok (if CT_HAS_ERRORS errors then failed_tests ++ [(test, errors)]
              else failed_tests, false))
      ∧ ((suite_without_hooks tests).run_body test failed_tests s).world
        = (test.function s).2 := by
  rcases hf : test.function s with ⟨r, s1⟩
  unfold test_suite.run_body test_suite.call_pre_run test_suite.check_errors
    test_suite.call_run_failed test_suite.call_post_run suite_without_hooks test_case.run
  simp only [bind, Run.bind, pure, Run.pure, Run.call, hf]
  rcases r with e | errors
  · exact ⟨rfl, rfl⟩
  · by_cases hc : CT_HAS_ERRORS errors = true
    · simp only [hc, if_true]
      exact ⟨rfl, rfl⟩
    · simp only [hc, if_false]
      exact ⟨rfl, rfl⟩

theorem run_body_with_noop_hooks (tests : List (test_case σ ε)) (test : test_case σ ε)
    (failed_tests : List (failed_test σ ε)) (s : σ) :
    ((suite_with_noop_hooks tests).run_body test failed_tests s).result
        = (match (test.function s).1 with
          | .error e => .error e
          | .ok errors =>
            .ok (if CT_HAS_ERRORS errors then failed_tests ++ [(test, errors)]
              else failed_tests, false))
      ∧ ((suite_with_noop_hooks tests).run_body test failed_tests s).world
        = (test.function s).2 := by
  rcases hf : test.function s with ⟨r, s1⟩
  unfold test_suite.run_body test_suite.call_pre_run test_suite.check_errors
    test_suite.call_run_failed test_suite.call_post_run suite_with_noop_hooks noop_pre_run
    noop_post_run noop_run_failed test_case.run
  simp only [bind, Run.bind, pure, Run.pure, Run.call, hf]
  rcases r with e | errors
  · exact ⟨rfl, rfl⟩
  · by_cases hc : CT_HAS_ERRORS errors = true
    · simp only [hc, if_true]
      exact ⟨rfl, rfl⟩
    · simp only [hc, if_false]
      exact ⟨rfl, rfl⟩

theorem run_loop_noop_hooks (tests1 tests2 tests : List (test_case σ ε))
    (failed_tests : List (failed_test σ ε)) (s : σ) :
    ((suite_without_hooks tests1).run_loop tests failed_tests s).result
        = ((suite_with_noop_hooks tests2).run_loop tests failed_tests s).result
      ∧ ((suite_without_hooks tests1).run_loop tests failed_tests s).world
        = ((suite_with_noop_hooks tests2).run_loop tests failed_tests s).world := by
  induction tests generalizing failed_tests s with
  | nil => exact ⟨rfl, rfl⟩
  | cons test rest ih =>
    obtain ⟨hr1, hw1⟩ := run_body_without_hooks tests1 test failed_tests s
    obtain ⟨hr2, hw2⟩ := run_body_with_noop_hooks tests2 test failed_tests s
    unfold test_suite.run_loop
    rcases hf : (test.function s).1 with e | errors
    · rw [hf] at hr1 hr2
      rw [Run.bind_of_error _ hr1, Run.bind_of_error _ hr2, hw1, hw2]
      exact ⟨rfl, rfl⟩
    · rw [hf] at hr1 hr2
      rw [Run.bind_of_ok _ hr1, Run.bind_of_ok _ hr2, hw1, hw2]
      exact ih _ _

theorem foldl_logln_records (failed_tests : List (failed_test σ ε)) (sink : LogSink) :
    failed_tests.foldl
        (fun out failed_test =>
          logln "  {}: {} errors" [failed_test.1.title, toString failed_test.2] out) sink
      = sink ++ failed_tests.map failed_test_line := by
  induction failed_tests generalizing sink with
  | nil => simp
  | cons record rest ih =>
    rw [List.foldl_cons, ih]
    simp [logln, failed_test_line]

theorem Stmt.for_indices_append (body : Nat → Stmt τ) (l1 l2 : List Nat) (st : ProcState τ) :
    Stmt.for_indices body (l1 ++ l2) st
      = (match Stmt.for_indices body l1 st with
        | .next st1 => Stmt.for_indices body l2 st1
        | .returned value st1 => .returned value st1
        | .undefined => .undefined) := by
  induction l1 generalizing st with
  | nil => rfl
  | cons i rest ih =>
    simp only [List.cons_append, Stmt.for_indices]
    cases body i st with
    | next st1 => exact ih st1
    | returned value st1 => rfl
    | undefined => rfl

theorem range_split (n i : Nat) (h : i < n) :
    ∃ rest, List.range n = List.range i ++ i :: rest := by
  induction n with
  | zero => exact absurd h (Nat.not_lt_zero i)
  | succ n ih =>
    rcases Nat.lt_succ_iff_lt_or_eq.mp h with hlt | heq
    · obtain ⟨rest, hrest⟩ := ih hlt
      exact ⟨rest ++ [n], by rw [List.range_succ, hrest]; simp⟩
    · subst heq
      exact ⟨[], List.range_succ i⟩

theorem for_indices_next (body : Nat → Stmt τ) (indices : List Nat) (st : ProcState τ)
    (h : ∀ i ∈ indices, ∀ st1, body i st1 = .next st1) :
    Stmt.for_indices body indices st = .next st := by
  induction indices with
  | nil => rfl
  | cons i rest ih =>
    unfold Stmt.for_indices
    rw [h i (List.mem_cons_self _ _) st]
    exact ih (fun j hj => h j (List.mem_cons_of_mem _ hj))

theorem CT_ASSERT_SUB_ELM_same [BEq α] [LawfulBEq α] [ToString α]
    (value_text expected_text : String) (value expected : List (List α)) (i j : Nat)
    (row : List α) (hv : value[i]? = some row) (he : expected[i]? = some row)
    (hj : j < row.length) (st : ProcState τ) :
    CT_ASSERT_SUB_ELM value_text expected_text value expected i j st = .next st := by
  unfold CT_ASSERT_SUB_ELM CT_ASSERT_FMT
  rw [hv, he]
  simp only [Option.some_bind, List.getElem?_eq_getElem hj]
  exact CT_ASSERT_CODE_FMT_pass _ _ _ _ st (by simp)

theorem CT_ASSERT_SUB_CTR_same [BEq α] [LawfulBEq α] [ToString α]
    (value_text expected_text : String) (value expected : List (List α)) (i : Nat)
    (row : List α) (hv : value[i]? = some row) (he : expected[i]? = some row)
    (st : ProcState τ) :
    CT_ASSERT_SUB_CTR value_text expected_text value expected i st = .next st := by
  unfold CT_ASSERT_SUB_CTR Stmt.seq CT_ASSERT_SUB_SIZE CT_ASSERT_END_FMT
  rw [hv, he]
  simp only [Option.map_some']
  rw [CT_ASSERT_CODE_FMT_pass _ _ _ _ st (by simp)]
  exact for_indices_next _ _ st (fun j hj st1 =>
    CT_ASSERT_SUB_ELM_same value_text expected_text value expected i j row hv he
      (List.mem_range.mp hj) st1)

theorem CT_ASSERT_SUB_CTR_size_mismatch [BEq α] [ToString α]
    (value_text expected_text : String) (value expected : List (List α)) (i : Nat)
    (row1 row2 : List α) (hv : value[i]? = some row1) (he : expected[i]? = some row2)
    (hsize : row1.length ≠ row2.length) (st : ProcState τ) :
    CT_ASSERT_SUB_CTR value_text expected_text value expected i st
      = .returned (CT_INCREMENT_ERRORS st.errors) { st with
          errors := CT_INCREMENT_ERRORS st.errors
          sink := st.sink
            ++ [sub_size_line value_text expected_text i row1.length row2.length] } := by
  unfold CT_ASSERT_SUB_CTR Stmt.seq CT_ASSERT_SUB_SIZE CT_ASSERT_END_FMT
  rw [hv, he]
  simp only [Option.map_some']
  rw [CT_ASSERT_CODE_FMT_fail _ _ _ _ st (by simpa using hsize)]
  rfl

/-- Identical nested containers pass `CT_ASSERT_NEST_CTR` without any failure: no diagnostic
is evaluated. -/
theorem CT_ASSERT_NEST_CTR_same [BEq α] [LawfulBEq α] [ToString α]
    (value_text expected_text : String) (value : List (List α)) (st : ProcState τ) :
    CT_ASSERT_NEST_CTR value_text expected_text value value st = .next st := by
  unfold CT_ASSERT_NEST_CTR Stmt.seq
  rw [CT_ASSERT_SIZE_pass value_text expected_text value value rfl st]
  refine for_indices_next _ _ st (fun i hi st1 => ?_)
  have hrow := List.getElem?_eq_getElem (List.mem_range.mp hi)
  exact CT_ASSERT_SUB_CTR_same value_text expected_text value value i _ hrow hrow st1

/-- When the outer sizes agree, the rows before outer index `i` are identical and the rows at
`i` differ in size, `CT_ASSERT_NEST_CTR` logs the size line of row `i`, increments the counter
once and the procedure returns that counter: no element of row `i` and nothing at a later
outer index is compared. -/
theorem CT_ASSERT_NEST_CTR_sub_size_mismatch [BEq α] [LawfulBEq α] [ToString α]
    (value_text expected_text : String) (value expected : List (List α)) (i : Nat)
    (row1 row2 : List α) (hsize : value.length = expected.length)
    (hv : value[i]? = some row1) (he : expected[i]? = some row2)
    (hbefore : ∀ j, j < i → value[j]? = expected[j]?) (hmis : row1.length ≠ row2.length)
    (st : ProcState τ) :
    CT_ASSERT_NEST_CTR value_text expected_text value expected st
      = .returned (CT_INCREMENT_ERRORS st.errors) { st with
          errors := CT_INCREMENT_ERRORS st.errors
          sink := st.sink
            ++ [sub_size_line value_text expected_text i row1.length row2.length] } := by
  have hi : i < expected.length := by
    rcases Nat.lt_or_ge i expected.length with h | h
    · exact h
    · rw [List.getElem?_eq_none h] at he; cases he
  obtain ⟨rest, hrest⟩ := range_split expected.length i hi
  unfold CT_ASSERT_NEST_CTR Stmt.seq
  rw [CT_ASSERT_SIZE_pass value_text expected_text value expected hsize st]
  simp only [hrest]
  rw [Stmt.for_indices_append]
  rw [for_indices_next _ (List.range i) st (fun j hj st1 => by
    have hj1 : j < expected.length := Nat.lt_trans (List.mem_range.mp hj) hi
    have hrow := List.getElem?_eq_getElem hj1
    exact CT_ASSERT_SUB_CTR_same value_text expected_text value expected j _
      ((hbefore j (List.mem_range.mp hj)).trans hrow) hrow st1)]
  simp only [Stmt.for_indices]
  rw [CT_ASSERT_SUB_CTR_size_mismatch value_text expected_text value expected i row1 row2 hv he
    hmis st]

/-- A run of procedures whose counters do not depend on the world state, in which nothing
throws: the records are those of the cases invoked, a prefix of the cases, and all of the
cases when no call of the failure hook answers `true` or when there is no failure hook. -/
theorem run_loop_deterministic (suite : test_suite σ ε) (tests : List (test_case σ ε))
    (failed_tests : List (failed_test σ ε)) (s : σ)
    (counter : test_case σ ε → CT_ERRORS_TYPE)
    (hdet : ∀ test ∈ tests, ∀ s1, (test.run s1).1 = .ok (counter test))
    (h : ∀ ev ∈ (suite.run_loop tests failed_tests s).trace, ev.threw = false) :
    ∃ invoked : List (test_case σ ε),
      invoked <+: tests
        ∧ (suite.run_loop tests failed_tests s).result
            = .ok (failed_tests
                ++ (invoked.map (fun test => (test, counter test))).filter
                    (fun r => CT_HAS_ERRORS r.2))
        ∧ ((∀ ev ∈ (suite.run_loop tests failed_tests s).trace, ev.requests_stop = false) →
            invoked = tests)
        ∧ (suite.run_failed = none → invoked = tests) := by
  obtain ⟨blocks, htr, hres, hgen, hshape⟩ := run_loop_spec suite tests failed_tests s h
  have hprefix : blocks.map (fun b => b.1.1) <+: tests := by
    rcases hshape with ⟨hall, _⟩ | ⟨init, last, rest, hb, _, ht, _, _⟩
    · rw [hall]
    · refine ⟨rest, ?_⟩
      rw [hb, ht]
      simp
  have hmap : blocks.map Prod.fst
      = (blocks.map (fun b => b.1.1)).map (fun test => (test, counter test)) := by
    rw [List.map_map]
    refine List.map_congr_left (fun b hb => ?_)
    obtain ⟨s1, hs1⟩ := hgen b hb
    have hmem : b.1.1 ∈ tests := hprefix.subset (List.mem_map_of_mem (fun b => b.1.1) hb)
    have hc : counter b.1.1 = b.1.2 := by
      have := (hdet b.1.1 hmem s1).symm.trans hs1
      exact Except.ok.inj this
    show b.1 = (b.1.1, counter b.1.1)
    rw [hc]
  refine ⟨blocks.map (fun b => b.1.1), hprefix, ?_, ?_, ?_⟩
  · rw [hres, hmap]
  · intro hno
    rcases hshape with ⟨hall, _⟩ | ⟨init, last, rest, hb, _, _, hc, hset⟩
    · exact hall
    · exfalso
      have hmem : Event.run_failed last.1 last.2 (.ok true)
          ∈ (suite.run_loop tests failed_tests s).trace := by
        rw [htr, hb, blocks_trace_append]
        refine List.mem_append_right _ ?_
        simp only [blocks_trace, List.flatMap_cons, List.flatMap_nil, List.append_nil]
        exact stop_event_mem_case_events suite last hc hset
      have := hno _ hmem
      simp [Event.requests_stop] at this
  · intro hnone
    rcases hshape with ⟨hall, _⟩ | ⟨init, last, rest, _, _, _, _, hset⟩
    · exact hall
    · rw [hnone] at hset
      exact absurd hset (by simp)

/-- A run without hooks of procedures that return counters independent of the world state
returns the records of all the cases whose counter has errors. -/
theorem run_loop_without_hooks_deterministic (tests0 tests : List (test_case σ ε))
    (failed_tests : List (failed_test σ ε)) (s : σ)
    (counter : test_case σ ε → CT_ERRORS_TYPE)
    (hdet : ∀ test ∈ tests, ∀ s1, (test.run s1).1 = .ok (counter test)) :
    ((suite_without_hooks tests0).run_loop tests failed_tests s).result
      = .ok (failed_tests
          ++ (tests.map (fun test => (test, counter test))).filter
              (fun r => CT_HAS_ERRORS r.2)) := by
  induction tests generalizing failed_tests s with
  | nil => simp [test_suite.run_loop, pure, Run.pure]
  | cons test rest ih =>
    obtain ⟨hr, _⟩ := run_body_without_hooks tests0 test failed_tests s
    have hf : (test.function s).1 = .ok (counter test) := hdet test (List.mem_cons_self _ _) s
    rw [hf] at hr
    unfold test_suite.run_loop
    rw [Run.bind_of_ok _ hr]
    simp only [Bool.false_eq_true, if_false]
    rw [ih _ _ (fun t ht => hdet t (List.mem_cons_of_mem _ ht))]
    by_cases hc : CT_HAS_ERRORS (counter test) = true
    · simp [hc, List.filter_cons]
    · simp [hc, List.filter_cons]

/-- The condition of line 379 when the failure hook, if set, answers `stop` in state `s`. -/
theorem call_run_failed_answer (suite : test_suite σ ε) (test : test_case σ ε)
    (errors : CT_ERRORS_TYPE) (s : σ) (stop : Bool)
    (hans : ∀ hook, suite.run_failed = some hook → (hook test errors s).1 = .ok stop) :
    (suite.call_run_failed test errors s).result = .ok (suite.run_failed.isSome && stop)
      ∧ ∀ ev ∈ (suite.call_run_failed test errors s).trace, ev.threw = false := by
  revert hans
  unfold test_suite.call_run_failed
  rcases suite.run_failed with _ | hook
  · exact fun _ => ⟨rfl, fun ev hev => absurd hev (List.not_mem_nil ev)⟩
  · intro hans
    have h := hans hook rfl
    simp only [Run.call_apply, h, Option.isSome_some, Bool.true_and, List.mem_singleton,
      true_and]
    intro ev hev
    rw [hev]
    rfl

theorem check_errors_answer (suite : test_suite σ ε) (test : test_case σ ε)
    (errors : CT_ERRORS_TYPE) (failed_tests : List (failed_test σ ε)) (s : σ) (stop : Bool)
    (hans : ∀ hook, suite.run_failed = some hook → (hook test errors s).1 = .ok stop) :
    (suite.check_errors test errors failed_tests s).result
      = .ok (if CT_HAS_ERRORS errors then failed_tests ++ [(test, errors)] else failed_tests,
          CT_HAS_ERRORS errors && (suite.run_failed.isSome && stop)) := by
  unfold test_suite.check_errors
  by_cases hc : CT_HAS_ERRORS errors = true
  · simp only [hc, if_true, Bool.true_and]
    rw [Run.bind_of_ok _ (call_run_failed_answer suite test errors s stop hans).1]
    rfl
  · simp only [hc, if_false, Bool.false_and]
    rfl

/-- One iteration of the loop in which nothing throws, for a procedure that returns `c` in
every world state and a failure hook that answers `stop` for it in every world state. -/
theorem run_body_answer (suite : test_suite σ ε) (test : test_case σ ε)
    (failed_tests : List (failed_test σ ε)) (s : σ) (c : CT_ERRORS_TYPE) (stop : Bool)
    (hdet : ∀ s1, (test.run s1).1 = .ok c)
    (hans : ∀ hook, suite.run_failed = some hook → ∀ s1, (hook test c s1).1 = .ok stop)
    (h : ∀ ev ∈ (suite.run_body test failed_tests s).trace, ev.threw = false) :
    (suite.run_body test failed_tests s).result
      = .ok (if CT_HAS_ERRORS c then failed_tests ++ [(test, c)] else failed_tests,
          CT_HAS_ERRORS c && (suite.run_failed.isSome && stop)) := by
  revert h
  unfold test_suite.run_body
  intro h
  obtain ⟨h1r, h1t⟩ := call_pre_run_spec suite test s
    (fun ev hev => h ev (Run.mem_trace_bind _ _ _ _ hev))
  rw [Run.bind_of_ok _ h1r] at h ⊢
  simp only [List.mem_append] at h
  generalize (suite.call_pre_run test s).world = s1 at h ⊢
  have h2r : (Run.call test.run (Event.function test) s1).result = .ok c := by
    rw [Run.call_apply]; exact hdet s1
  rw [Run.bind_of_ok _ h2r] at h ⊢
  simp only [List.mem_append] at h
  generalize (Run.call test.run (Event.function test) s1).world = s2 at h ⊢
  have h3r := check_errors_answer suite test c failed_tests s2 stop
    (fun hook hh => hans hook hh s2)
  rw [Run.bind_of_ok _ h3r] at h ⊢
  simp only [List.mem_append] at h
  generalize (suite.check_errors test c failed_tests s2).world = s3 at h ⊢
  obtain ⟨h4r, h4t⟩ := call_post_run_spec suite test c s3
    (fun ev hev => h ev (Or.inr (Or.inr (Or.inr (Run.mem_trace_bind _ _ _ _ hev)))))
  rw [Run.bind_of_ok _ h4r]
  rfl

/-- Two runs over the same cases with the same failure hook, whose answers depend only on its
arguments, of procedures whose counters do not depend on the world state: when nothing throws
in either run, they return the same list, whatever `pre_run` and `post_run` are in each and
whatever world states they start from. -/
theorem run_loop_hooks_irrelevant (suite1 suite2 : test_suite σ ε)
    (hsame : suite1.run_failed = suite2.run_failed)
    (counter : test_case σ ε → CT_ERRORS_TYPE) (answer : test_case σ ε → Bool)
    (tests : List (test_case σ ε))
    (hdet : ∀ test ∈ tests, ∀ s, (test.run s).1 = .ok (counter test))
    (hans : ∀ hook, suite1.run_failed = some hook →
      ∀ test ∈ tests, ∀ s, (hook test (counter test) s).1 = .ok (answer test))
    (failed_tests : List (failed_test σ ε)) (s1 s2 : σ)
    (h1 : ∀ ev ∈ (suite1.run_loop tests failed_tests s1).trace, ev.threw = false)
    (h2 : ∀ ev ∈ (suite2.run_loop tests failed_tests s2).trace, ev.threw = false) :
    (suite1.run_loop tests failed_tests s1).result
      = (suite2.run_loop tests failed_tests s2).result := by
  induction tests generalizing failed_tests s1 s2 with
  | nil => rfl
  | cons test rest ih =>
    revert h1 h2
    unfold test_suite.run_loop
    intro h1 h2
    have hmem : test ∈ test :: rest := List.mem_cons_self _ _
    have hb1 := run_body_answer suite1 test failed_tests s1 (counter test) (answer test)
      (hdet test hmem) (fun hook hh => hans hook hh test hmem)
      (fun ev hev => h1 ev (Run.mem_trace_bind _ _ _ _ hev))
    have hb2 := run_body_answer suite2 test failed_tests s2 (counter test) (answer test)
      (hdet test hmem) (fun hook hh => hans hook (hsame.trans hh) test hmem)
      (fun ev hev => h2 ev (Run.mem_trace_bind _ _ _ _ hev))
    rw [Run.bind_of_ok _ hb1] at h1 ⊢
    rw [Run.bind_of_ok _ hb2] at h2 ⊢
    rw [← hsame] at h2 ⊢
    simp only [List.mem_append] at h1 h2
    generalize (suite1.run_body test failed_tests s1).world = w1 at h1 ⊢
    generalize (suite2.run_body test failed_tests s2).world = w2 at h2 ⊢
    cases hstop : (CT_HAS_ERRORS (counter test) && (suite1.run_failed.isSome && answer test))
    · rw [hstop] at h1 h2
      simp only [Bool.false_eq_true, if_false] at h1 h2 ⊢
      exact ih (fun t ht => hdet t (List.mem_cons_of_mem _ ht))
        (fun hook hh t ht => hans hook hh t (List.mem_cons_of_mem _ ht)) _ w1 w2
        (fun ev hev => h1 ev (Or.inr hev)) (fun ev hev => h2 ev (Or.inr hev))
    · simp only [if_true]
      rfl

/-- A statement that ends as required from a state that an earlier one reached as required
ends as required from the earlier state. -/
theorem Flow.lines_match_increments_trans (st st1 : ProcState τ) (flow : Flow τ)
    (lines : List String) (hsink : st1.sink = st.sink ++ lines)
    (herrors : st1.errors = CT_INCREMENT_ERRORS^[lines.length] st.errors)
    (h : flow.lines_match_increments st1) : flow.lines_match_increments st := by
  cases flow with
  | next st2 =>
    obtain ⟨lines2, hs, he⟩ := h
    refine ⟨lines ++ lines2, ?_, ?_⟩
    · rw [hs, hsink, List.append_assoc]
    · rw [he, herrors, List.length_append, Nat.add_comm, Function.iterate_add_apply]
  | returned value st2 =>
    obtain ⟨lines2, hs, he, hv⟩ := h
    refine ⟨lines ++ lines2, ?_, ?_, hv⟩
    · rw [hs, hsink, List.append_assoc]
    · rw [he, herrors, List.length_append, Nat.add_comm, Function.iterate_add_apply]
  | undefined => trivial

theorem Flow.lines_match_increments_next (st : ProcState τ) :
    (Flow.next st).lines_match_increments st :=
  ⟨[], (List.append_nil _).symm, rfl⟩

theorem lines_match_increments_seq (first second : Stmt τ)
    (h1 : ∀ st, (first st).lines_match_increments st)
    (h2 : ∀ st, (second st).lines_match_increments st) (st : ProcState τ) :
    (Stmt.seq first second st).lines_match_increments st := by
  have h := h1 st
  unfold Stmt.seq
  rcases hf : first st with st1 | ⟨value, st1⟩ | _
  · rw [hf] at h
    obtain ⟨lines, hs, he⟩ := h
    exact Flow.lines_match_increments_trans st st1 _ lines hs he (h2 st1)
  · rw [hf] at h
    exact h
  · trivial

theorem lines_match_increments_for_indices (body : Nat → Stmt τ)
    (h : ∀ i st, (body i st).lines_match_increments st) (indices : List Nat)
    (st : ProcState τ) :
    (Stmt.for_indices body indices st).lines_match_increments st := by
  induction indices generalizing st with
  | nil => exact Flow.lines_match_increments_next st
  | cons i rest ih =>
    have hi := h i st
    unfold Stmt.for_indices
    rcases hf : body i st with st1 | ⟨value, st1⟩ | _
    · rw [hf] at hi
      obtain ⟨lines, hs, he⟩ := hi
      exact Flow.lines_match_increments_trans st st1 _ lines hs he (ih st1)
    · rw [hf] at hi
      exact hi
    · trivial

theorem lines_match_increments_CT_END (st : ProcState τ) :
    (CT_END st).lines_match_increments st :=
  ⟨[], (List.append_nil _).symm, rfl, rfl⟩

theorem lines_match_increments_CT_ASSERT_CODE_FMT {γ : Type} [MacroOperand γ α]
    (value expected : γ) (code : Stmt τ) (va_args : Operand LogArgs)
    (h : ∀ st, (code st).lines_match_increments st) (st : ProcState τ) :
    (CT_ASSERT_CODE_FMT value expected code va_args st).lines_match_increments st := by
  unfold CT_ASSERT_CODE_FMT
  rcases MacroOperand.condition value expected with _ | _ | _
  · trivial
  · exact Flow.lines_match_increments_next st
  · rcases va_args with _ | a
    · trivial
    · exact Flow.lines_match_increments_trans st _ _ [format a.fmt a.args] rfl rfl (h _)

theorem lines_match_increments_CT_ASSERT_SIZE (value_text expected_text : String)
    (value expected : List α) (st : ProcState τ) :
    (CT_ASSERT_SIZE value_text expected_text value expected st).lines_match_increments st := by
  unfold CT_ASSERT_SIZE CT_ASSERT_END_FMT
  exact lines_match_increments_CT_ASSERT_CODE_FMT _ _ _ _ lines_match_increments_CT_END st

theorem lines_match_increments_CT_ASSERT_ELM [BEq α] [ToString α]
    (value_text expected_text : String) (value expected : List α) (i : Nat)
    (st : ProcState τ) :
    (CT_ASSERT_ELM value_text expected_text value expected i st).lines_match_increments st := by
  unfold CT_ASSERT_ELM CT_ASSERT_FMT
  exact lines_match_increments_CT_ASSERT_CODE_FMT _ _ _ _ Flow.lines_match_increments_next st

theorem lines_match_increments_CT_ASSERT_SUB_SIZE (value_text expected_text : String)
    (value expected : List (List α)) (i : Nat) (st : ProcState τ) :
    (CT_ASSERT_SUB_SIZE value_text expected_text value expected i st).lines_match_increments
      st := by
  unfold CT_ASSERT_SUB_SIZE CT_ASSERT_END_FMT
  exact lines_match_increments_CT_ASSERT_CODE_FMT _ _ _ _ lines_match_increments_CT_END st

theorem lines_match_increments_CT_ASSERT_SUB_ELM [BEq α] [ToString α]
    (value_text expected_text : String) (value expected : List (List α)) (i1 i2 : Nat)
    (st : ProcState τ) :
    (CT_ASSERT_SUB_ELM value_text expected_text value expected i1 i2
      st).lines_match_increments st := by
  unfold CT_ASSERT_SUB_ELM CT_ASSERT_FMT
  exact lines_match_increments_CT_ASSERT_CODE_FMT _ _ _ _ Flow.lines_match_increments_next st

theorem lines_match_increments_CT_ASSERT_SUB_CTR [BEq α] [ToString α]
    (value_text expected_text : String) (value expected : List (List α)) (i : Nat)
    (st : ProcState τ) :
    (CT_ASSERT_SUB_CTR value_text expected_text value expected i st).lines_match_increments
      st := by
  unfold CT_ASSERT_SUB_CTR
  refine lines_match_increments_seq _ _ (fun st1 => ?_) (fun st1 => ?_) st
  · exact lines_match_increments_CT_ASSERT_SUB_SIZE value_text expected_text value expected i st1
  · rcases expected[i]? with _ | row
    · trivial
    · exact lines_match_increments_for_indices _ (fun j st2 =>
        lines_match_increments_CT_ASSERT_SUB_ELM value_text expected_text value expected i j
          st2) _ st1

/-- A statement that consists only of assertion macros ends with as many new lines in the
sink as increments applied to the counter. -/
theorem lines_match_increments_of_assertion_only {body : Stmt τ} (h : AssertionOnly body) :
    ∀ st, (body st).lines_match_increments st := by
  induction h with
  | empty => exact Flow.lines_match_increments_next
  | ct_end => exact lines_match_increments_CT_END
  | seq first second _ _ ih1 ih2 => exact lines_match_increments_seq first second ih1 ih2
  | assert_code_fmt value expected code va_args _ ih =>
    exact lines_match_increments_CT_ASSERT_CODE_FMT value expected code va_args ih
  | assert_fmt value expected va_args =>
    exact lines_match_increments_CT_ASSERT_CODE_FMT value expected _ va_args
      Flow.lines_match_increments_next
  | assert_code value_text expected_text value expected message code _ ih =>
    exact lines_match_increments_CT_ASSERT_CODE_FMT value expected code _ ih
  | assert value_text expected_text value expected message =>
    exact lines_match_increments_CT_ASSERT_CODE_FMT value expected _ _
      Flow.lines_match_increments_next
  | assert_end_fmt value expected va_args =>
    exact lines_match_increments_CT_ASSERT_CODE_FMT value expected _ va_args
      lines_match_increments_CT_END
  | assert_end value_text expected_text value expected message =>
    exact lines_match_increments_CT_ASSERT_CODE_FMT value expected _ _
      lines_match_increments_CT_END
  | assert_size value_text expected_text value expected =>
    exact lines_match_increments_CT_ASSERT_SIZE value_text expected_text value expected
  | assert_elm value_text expected_text value expected i =>
    exact lines_match_increments_CT_ASSERT_ELM value_text expected_text value expected i
  | assert_ctr value_text expected_text value expected =>
    exact lines_match_increments_seq _ _
      (lines_match_increments_CT_ASSERT_SIZE value_text expected_text value expected)
      (lines_match_increments_for_indices _
        (lines_match_increments_CT_ASSERT_ELM value_text expected_text value expected) _)
  | assert_sub_size value_text expected_text value expected i =>
    exact lines_match_increments_CT_ASSERT_SUB_SIZE value_text expected_text value expected i
  | assert_sub_elm value_text expected_text value expected i1 i2 =>
    exact lines_match_increments_CT_ASSERT_SUB_ELM value_text expected_text value expected i1 i2
  | assert_sub_ctr value_text expected_text value expected i =>
    exact lines_match_increments_CT_ASSERT_SUB_CTR value_text expected_text value expected i
  | assert_nest_ctr value_text expected_text value expected =>
    exact lines_match_increments_seq _ _
      (lines_match_increments_CT_ASSERT_SIZE value_text expected_text value expected)
      (lines_match_increments_for_indices _
        (lines_match_increments_CT_ASSERT_SUB_CTR value_text expected_text value expected) _)

theorem call_pre_run_world (suite : test_suite σ ε) (test : test_case σ ε) (s : σ) :
    (suite.call_pre_run test s).world
      = (match suite.pre_run with
        | some hook => (hook test s).2
        | none => s) := by
  unfold test_suite.call_pre_run
  rcases suite.pre_run with _ | hook <;> rfl

theorem call_post_run_world (suite : test_suite σ ε) (test : test_case σ ε)
    (errors : CT_ERRORS_TYPE) (s : σ) :
    (suite.call_post_run test errors s).world
      = (match suite.post_run with
        | some hook => (hook test errors s).2
        | none => s) := by
  unfold test_suite.call_post_run
  rcases suite.post_run with _ | hook <;> rfl

theorem check_errors_world (suite : test_suite σ ε) (test : test_case σ ε)
    (errors : CT_ERRORS_TYPE) (failed_tests : List (failed_test σ ε)) (s : σ)
    (h : ∀ ev ∈ (suite.check_errors test errors failed_tests s).trace, ev.threw = false) :
    (suite.check_errors test errors failed_tests s).world
      = (match suite.run_failed with
        | some hook => if CT_HAS_ERRORS errors then (hook test errors s).2 else s
        | none => s) := by
  revert h
  unfold test_suite.check_errors
  by_cases hc : CT_HAS_ERRORS errors = true
  · simp only [hc, if_true]
    intro h
    obtain ⟨stop, hres, -, -⟩ := call_run_failed_spec suite test errors s
      (fun ev hev => h ev (Run.mem_trace_bind _ _ _ _ hev))
    rw [Run.bind_of_ok _ hres]
    show (suite.call_run_failed test errors s).world = _
    unfold test_suite.call_run_failed
    rcases suite.run_failed with _ | hook <;> rfl
  · simp only [hc, if_false]
    intro _
    rcases suite.run_failed with _ | hook <;> rfl

/-- One iteration of the loop in which nothing throws leaves the world state
`case_world suite test s`. -/
theorem run_body_world (suite : test_suite σ ε) (test : test_case σ ε)
    (failed_tests : List (failed_test σ ε)) (s : σ)
    (h : ∀ ev ∈ (suite.run_body test failed_tests s).trace, ev.threw = false) :
    (suite.run_body test failed_tests s).world = case_world suite test s := by
  revert h
  unfold test_suite.run_body
  intro h
  obtain ⟨h1r, -⟩ := call_pre_run_spec suite test s
    (fun ev hev => h ev (Run.mem_trace_bind _ _ _ _ hev))
  rw [Run.bind_of_ok _ h1r] at h ⊢
  simp only [List.mem_append] at h
  have hw1 := call_pre_run_world suite test s
  simp only [case_world]
  rw [← hw1]
  generalize (suite.call_pre_run test s).world = s1 at h ⊢
  obtain ⟨c, h2r, -, h2c⟩ := call_function_spec test s1
    (fun ev hev => h ev (Or.inr (Run.mem_trace_bind _ _ _ _ hev)))
  rw [Run.bind_of_ok _ h2r] at h ⊢
  simp only [List.mem_append] at h
  have hf : test.function s1 = (.ok c, (Run.call test.run (Event.function test) s1).world) :=
    Prod.ext h2c rfl
  rw [hf]
  generalize (Run.call test.run (Event.function test) s1).world = s2 at h ⊢
  obtain ⟨stop, h3r, -, -⟩ := check_errors_spec suite test c failed_tests s2
    (fun ev hev => h ev (Or.inr (Or.inr (Run.mem_trace_bind _ _ _ _ hev))))
  have hw3 := check_errors_world suite test c failed_tests s2
    (fun ev hev => h ev (Or.inr (Or.inr (Run.mem_trace_bind _ _ _ _ hev))))
  rw [Run.bind_of_ok _ h3r] at h ⊢
  simp only [List.mem_append] at h
  simp only
  rw [← hw3]
  generalize (suite.check_errors test c failed_tests s2).world = s3 at h ⊢
  obtain ⟨h4r, -⟩ := call_post_run_spec suite test c s3
    (fun ev hev => h ev (Or.inr (Or.inr (Or.inr (Run.mem_trace_bind _ _ _ _ hev)))))
  rw [Run.bind_of_ok _ h4r]
  exact call_post_run_world suite test c s3

/-- A run in which nothing throws and no call of the failure hook returns `true` leaves the
world state that the iterations for all the cases, in order, produce. -/
theorem run_loop_world (suite : test_suite σ ε) (tests : List (test_case σ ε))
    (failed_tests : List (failed_test σ ε)) (s : σ)
    (h : ∀ ev ∈ (suite.run_loop tests failed_tests s).trace, ev.threw = false)
    (hstop : ∀ ev ∈ (suite.run_loop tests failed_tests s).trace, ev.requests_stop = false) :
    (suite.run_loop tests failed_tests s).world
      = tests.foldl (fun w test => case_world suite test w) s := by
  induction tests generalizing failed_tests s with
  | nil => rfl
  | cons test rest ih =>
    revert h hstop
    unfold test_suite.run_loop
    intro h hstop
    have hbody : ∀ ev ∈ (suite.run_body test failed_tests s).trace, ev.threw = false :=
      fun ev hev => h ev (Run.mem_trace_bind _ _ _ _ hev)
    obtain ⟨c, stop, hres, htr, hs, -⟩ := run_body_spec suite test failed_tests s hbody
    have hw := run_body_world suite test failed_tests s hbody
    have hnostop : stop = false := by
      cases stop with
      | false => rfl
      | true =>
        exfalso
        have hmem := stop_event_mem_case_events suite (test, c) (hs rfl).1 (hs rfl).2
        rw [← htr] at hmem
        have := hstop _ (Run.mem_trace_bind _ _ _ _ hmem)
        simp [Event.requests_stop] at this
    subst hnostop
    rw [Run.bind_of_ok _ hres] at h hstop ⊢
    simp only [List.mem_append, Bool.false_eq_true, if_false] at h hstop ⊢
    rw [List.foldl_cons, ← hw]
    exact ih _ _ (fun ev hev => h ev (Or.inr hev)) (fun ev hev => hstop ev (Or.inr hev))

theorem bit_length_aux_le (fuel : Nat) :
    ∀ n k : Nat, n < 2 ^ k → bit_length_aux fuel n ≤ k := by
  induction fuel with
  | zero => intro n k _; exact Nat.zero_le _
  | succ fuel ih =>
    intro n k h
    unfold bit_length_aux
    by_cases hn : n = 0
    · simp [hn]
    · simp only [hn, if_false]
      cases k with
      | zero => exact absurd h (by simp at *; omega)
      | succ k =>
        have : n / 2 < 2 ^ k := by
          rw [Nat.div_lt_iff_lt_mul (by decide)]
          rw [Nat.pow_succ] at h
          exact h
        exact Nat.succ_le_succ (ih _ _ this)

/-- Rounding is exact on a value with fewer than 24 significant digits that is a whole number
of units: `m * 2 ^ s` in units of `2 ^ -(149 + shift)`, with `shift ≤ s`, below `2 ^ 128`. -/
theorem Binary32.round_exact (m s shift : Nat) (hm : m < 2 ^ 24) (hshift : shift ≤ s)
    (hlt : m * 2 ^ (s - shift) < 2 ^ 277) :
    Binary32.round ((m : Int) * 2 ^ s) shift = .finite ((m : Int) * 2 ^ (s - shift)) := by
  have habs : ((m : Int) * 2 ^ s).natAbs = m * 2 ^ s := by
    have : ((m : Int) * 2 ^ s) = ((m * 2 ^ s : Nat) : Int) := by push_cast; rfl
    rw [this, Int.natAbs_ofNat]
  have hbits : bit_length (m * 2 ^ s) - 24 ≤ s := by
    have hlt2 : m * 2 ^ s < 2 ^ (24 + s) := by
      rw [Nat.pow_add]
      exact Nat.mul_lt_mul_of_pos_right hm (Nat.pow_pos (by decide))
    have := bit_length_aux_le 1024 _ _ hlt2
    unfold bit_length
    omega
  have hneg : ¬ ((m : Int) * 2 ^ s < 0) := by
    have : (0 : Int) ≤ (m : Int) * 2 ^ s := by positivity
    omega
  unfold Binary32.round
  simp only [habs, hneg, if_false]
  generalize hd : max shift (bit_length (m * 2 ^ s) - 24) = drop
  have hds : drop ≤ s := by rw [← hd]; exact Nat.max_le.mpr ⟨hshift, hbits⟩
  have hsd : shift ≤ drop := by rw [← hd]; exact Nat.le_max_left _ _
  have hsplit : m * 2 ^ s = m * 2 ^ (s - drop) * 2 ^ drop := by
    rw [Nat.mul_assoc, ← Nat.pow_add, Nat.sub_add_cancel hds]
  have hpos : 0 < 2 ^ drop := Nat.pow_pos (by decide)
  have hq : m * 2 ^ s / 2 ^ drop = m * 2 ^ (s - drop) := by
    rw [hsplit, Nat.mul_div_cancel _ hpos]
  have hr : m * 2 ^ s % 2 ^ drop = 0 := by
    rw [hsplit, Nat.mul_mod_left]
  have hup1 : ¬ (2 ^ drop < 2 * 0) := by simp
  have hup2 : ¬ (2 * 0 = 2 ^ drop) := by simp; omega
  simp only [hq, hr, hup1, hup2, decide_False, Bool.false_and, Bool.or_false,
    Bool.false_eq_true, if_false]
  have hunits : m * 2 ^ (s - drop) * 2 ^ (drop - shift) = m * 2 ^ (s - shift) := by
    rw [Nat.mul_assoc, ← Nat.pow_add]
    congr 2
    omega
  have hfin : ¬ (277 < bit_length (m * 2 ^ (s - shift))) :=
    Nat.not_lt.mpr (bit_length_aux_le 1024 _ _ hlt)
  rw [hunits, if_neg hfin]
  push_cast
  rfl

theorem mul_two_pow_lt (m s k : Nat) (hm : m < 2 ^ 24) (hs : s + 24 ≤ k) :
    m * 2 ^ s < 2 ^ k := by
  have h1 : m * 2 ^ s < 2 ^ 24 * 2 ^ s :=
    Nat.mul_lt_mul_of_pos_right hm (Nat.pow_pos (by decide))
  have h2 : 2 ^ 24 * 2 ^ s ≤ 2 ^ k := by
    rw [← Nat.pow_add]
    exact Nat.pow_le_pow_right (by decide) (by omega)
  exact Nat.lt_of_lt_of_le h1 h2

/-- The sum of `n` halves is exact up to `n = 2 ^ 24`. -/
theorem add_half_exact (n : Nat) (hn : n < 2 ^ 24) :
    Binary32.add (.finite ((n : Int) * 2 ^ 148)) (.finite (2 ^ 148))
      = .finite (((n + 1 : Nat) : Int) * 2 ^ 148) := by
  have hsum : (n : Int) * 2 ^ 148 + 2 ^ 148 = ((n + 1 : Nat) : Int) * 2 ^ 148 := by
    push_cast; ring
  simp only [Binary32.add]
  rw [hsum]
  by_cases hlt : n + 1 < 2 ^ 24
  · have h := Binary32.round_exact (n + 1) 148 0 hlt (Nat.zero_le _)
      (mul_two_pow_lt _ _ _ hlt (by decide))
    exact h
  · have heq : n + 1 = 2 ^ 24 := by omega
    have h := Binary32.round_exact (2 ^ 23) 149 0 (by norm_num) (Nat.zero_le _)
      (mul_two_pow_lt _ _ _ (by norm_num) (by decide))
    rw [heq]
    have e : (((2 ^ 24 : Nat) : Int) * 2 ^ 148) = (((2 ^ 23 : Nat) : Int) * 2 ^ 149) := by
      norm_num
    rw [e]
    exact h

theorem iterate_operator_call (n : Nat) (hn : n ≤ 2 ^ 24) :
    custom_errors_class.CT_INCREMENT_ERRORS^[n] ⟨.finite 0⟩
      = ⟨.finite ((n : Int) * 2 ^ 148)⟩ := by
  induction n with
  | zero => simp
  | succ n ih =>
    rw [Function.iterate_succ_apply', ih (Nat.le_of_succ_le hn)]
    show custom_errors_class.my_error_t.mk _ = _
    rw [add_half_exact n (by omega)]

theorem get_errors_of_halves (n : Nat) (hn : n ≤ 2 ^ 24) :
    custom_errors_class.my_error_t.get_errors ⟨.finite ((n : Int) * 2 ^ 148)⟩
      = some (n : Int) := by
  have hprod : (n : Int) * 2 ^ 148 * 2 ^ 150 = (n : Int) * 2 ^ 298 := by ring
  have hround : Binary32.round ((n : Int) * 2 ^ 298) 149 = .finite ((n : Int) * 2 ^ 149) := by
    by_cases hlt : n < 2 ^ 24
    · exact Binary32.round_exact n 298 149 hlt (by norm_num)
        (mul_two_pow_lt _ _ _ hlt (by decide))
    · have heq : n = 2 ^ 24 := by omega
      have h := Binary32.round_exact (2 ^ 23) 299 149 (by norm_num) (by norm_num)
        (mul_two_pow_lt _ _ _ (by norm_num) (by decide))
      rw [heq]
      have e1 : (((2 ^ 24 : Nat) : Int) * 2 ^ 298) = (((2 ^ 23 : Nat) : Int) * 2 ^ 299) := by
        norm_num
      have e2 : (((2 ^ 24 : Nat) : Int) * 2 ^ 149)
          = (((2 ^ 23 : Nat) : Int) * 2 ^ (299 - 149)) := by norm_num
      rw [e1, e2]
      exact h
  unfold custom_errors_class.my_error_t.get_errors Binary32.mul
  simp only
  rw [hprod, hround]
  unfold Binary32.to_int
  have hdiv : Int.tdiv ((n : Int) * 2 ^ 149) (2 ^ 149) = n := by
    have hpow : (0 : Int) < 2 ^ 149 := pow_pos (by decide) _
    rw [Int.tdiv_eq_ediv (Int.mul_nonneg (Int.ofNat_nonneg n) (Int.le_of_lt hpow))
      (Int.le_of_lt hpow)]
    exact Int.mul_ediv_cancel _ (Int.ne_of_gt hpow)
  simp only [hdiv]
  have h1 : -(2 ^ 31 : Int) ≤ (n : Int) := by
    have : (0 : Int) ≤ n := Int.ofNat_nonneg n
    omega
  have h2 : (n : Int) < 2 ^ 31 := by
    have : (n : Int) ≤ 2 ^ 24 := by exact_mod_cast hn
    omega
  rw [if_pos ⟨h1, h2⟩]

set_option maxRecDepth 100000 in
/-- Beyond `2 ^ 24` halves the sum no longer grows: `2 ^ 23 + 0.5` lies halfway between two
values of the type and is rounded to the even one, `2 ^ 23`. -/
theorem add_half_saturates :
    Binary32.add (.finite (2 ^ 24 * 2 ^ 148)) (.finite (2 ^ 148))
      = .finite (2 ^ 24 * 2 ^ 148) := by
  rfl

theorem has_errors_of_halves (n : Nat) (hn : 0 < n) :
    custom_errors_class.CT_HAS_ERRORS ⟨.finite ((n : Int) * 2 ^ 148)⟩ = true := by
  have hne : (n : Int) * 2 ^ 148 ≠ 0 := by
    have h1 : (0 : Int) < n := by exact_mod_cast hn
    have h2 : (0 : Int) < 2 ^ 148 := pow_pos (by decide) _
    exact Int.ne_of_gt (Int.mul_pos h1 h2)
  unfold custom_errors_class.CT_HAS_ERRORS custom_errors_class.my_error_t.has_errors
  simp [bne, BEq.beq, Binary32.eq]
  omega

/-- The procedure of the example, for a `std::pow` that returns zero for `pow(0.0f, 1.0f)`:
the four increments give 2.0, the assertion is not triggered, and the counter is returned. -/
theorem test_custom_errors_class_returns (pow : Binary32 → Binary32 → Binary32)
    (hpow : pow (.finite 0) (.finite (2 ^ 149)) = .finite 0)
    (st : custom_errors_class.ProcState) :
    custom_errors_class.test_custom_errors_class pow st
      = .returned ⟨.finite (2 ^ 150)⟩ { st with my_errors := ⟨.finite (2 ^ 150)⟩ } := by
  have h4 : custom_errors_class.CT_INCREMENT_ERRORS (custom_errors_class.CT_INCREMENT_ERRORS
      (custom_errors_class.CT_INCREMENT_ERRORS (custom_errors_class.CT_INCREMENT_ERRORS
        ⟨.finite 0⟩))) = ⟨.finite (2 ^ 150)⟩ := by
    have h := iterate_operator_call 4 (by norm_num)
    have e : ((4 : Nat) : Int) * 2 ^ 148 = 2 ^ 150 := by norm_num
    rw [e] at h
    exact h
  have hget : custom_errors_class.my_error_t.get_errors ⟨.finite (2 ^ 150)⟩ = some 4 := by
    have h := get_errors_of_halves 4 (by norm_num)
    have e : ((4 : Nat) : Int) * 2 ^ 148 = 2 ^ 150 := by norm_num
    rw [e] at h
    exact h
  simp only [custom_errors_class.test_custom_errors_class, custom_errors_class.Stmt.seq,
    custom_errors_class.CT_BEGIN, custom_errors_class.increment_errors,
    custom_errors_class.fresh_counter, custom_errors_class.my_error_t.construct,
    custom_errors_class.CT_ERRORS_PARAMS, hpow, h4,
    custom_errors_class.CT_ASSERT, custom_errors_class.CT_ASSERT_CODE_FMT, hget,
    condition_some, custom_errors_class.CT_END]
  rfl

end Lemmas

/-! ## Claims about `test_suite::run` -/

section Suite

variable {σ ε : Type}

/-- C1: in a run of `test_suite::run` in which no callable throws and the failure hook is unset
or returns `false` every time, the procedures of all cases of the suite are invoked in
case-list order, each returning a counter, and `run` returns exactly the pairs (case, counter
the case returned) whose counter has errors, in that order: the filter by `CT_HAS_ERRORS` of
the case list paired with the returned counters. In particular, when each procedure returns
the same counter `counter test` in every world state, the result is the filter of
`tests.map (fun test => (test, counter test))`. -/
theorem run_returns_failed_cases (suite : test_suite σ ε) (s : σ)
    (hthrow : ∀ ev ∈ (suite.run s).trace, ev.threw = false)
    (hstop : ∀ ev ∈ (suite.run s).trace, ev.requests_stop = false) :
    (returned_counters (suite.run s).trace).map Prod.fst = suite.tests
      ∧ (∀ call ∈ returned_counters (suite.run s).trace,
          ∃ s1, (call.1.run s1).1 = .ok call.2)
      ∧ (suite.run s).result
          = .ok ((returned_counters (suite.run s).trace).filter
              (fun call => CT_HAS_ERRORS call.2))
      ∧ (∀ counter : test_case σ ε → CT_ERRORS_TYPE,
          (∀ test ∈ suite.tests, ∀ s1, (test.run s1).1 = .ok (counter test)) →
          (suite.run s).result
            = .ok ((suite.tests.map (fun test => (test, counter test))).filter
                (fun call => CT_HAS_ERRORS call.2))) := by
  have base : (returned_counters (suite.run s).trace).map Prod.fst = suite.tests
      ∧ (∀ call ∈ returned_counters (suite.run s).trace,
          ∃ s1, (call.1.run s1).1 = .ok call.2)
      ∧ (suite.run s).result
          = .ok ((returned_counters (suite.run s).trace).filter
              (fun call => CT_HAS_ERRORS call.2)) := by
    unfold test_suite.run at *
    obtain ⟨blocks, htr, hres, hcall, hshape⟩ := run_loop_spec suite suite.tests [] s hthrow
    rw [htr] at hstop ⊢
    rw [hres, returned_counters_blocks]
    rcases hshape with ⟨hall, -⟩ | ⟨init, last, rest, hb, -, -, hc, hset⟩
    · refine ⟨by rw [← hall, List.map_map]; rfl, ?_, by simp⟩
      intro call hmem
      obtain ⟨b, hb, rfl⟩ := List.mem_map.mp hmem
      exact hcall b hb
    · exfalso
      have hmem : Event.run_failed last.1 last.2 (.ok true) ∈ blocks_trace suite blocks := by
        rw [hb, blocks_trace_append]
        refine List.mem_append_right _ ?_
        rw [blocks_trace_cons, blocks_trace_nil, List.append_nil]
        exact stop_event_mem_case_events suite last hc hset
      exact absurd (hstop _ hmem) (by simp [Event.requests_stop])
  obtain ⟨hcases, hcall, hres⟩ := base
  refine ⟨hcases, hcall, hres, fun counter hdet => ?_⟩
  have hpairs : returned_counters (suite.run s).trace
      = suite.tests.map (fun test => (test, counter test)) := by
    rw [← hcases, List.map_map]
    refine (List.map_id _).symm.trans (List.map_congr_left (fun call hmem => ?_))
    obtain ⟨s1, hs1⟩ := hcall call hmem
    have hin : call.1 ∈ suite.tests := hcases ▸ List.mem_map_of_mem Prod.fst hmem
    have hsame := (hdet call.1 hin s1).symm.trans hs1
    injection hsame with hsame
    exact Prod.ext rfl hsame.symm
  rw [hres, hpairs]

/-- Witness for C1: six cases of which only the second and the fifth fail give exactly two
records, the second case and then the fifth. -/
theorem run_returns_failed_cases_witness :
    (∀ ev ∈ (witness_suite.run []).trace, ev.threw = false)
      ∧ (∀ ev ∈ (witness_suite.run []).trace, ev.requests_stop = false)
      ∧ (witness_suite.run []).result
          = .ok [(witness_case "case 2" 1, 1), (witness_case "case 5" 3, 3)] :=
  ⟨by decide, by decide,
    (run_returns_failed_cases witness_suite [] (by decide) (by decide)).2.2.1.trans rfl⟩


/-- C3: in a run of `test_suite::run` in which no callable throws and the failure hook never
returns `true`, the trace is the concatenation, over the cases in case-list order, of the
calls `pre_run(case)`, the case's procedure, `run_failed(case, counter)` exactly when the
counter has errors, `post_run(case, counter)` with the counter the procedure returned (each
hook only if it is set). Each counter recorded is the result of the member `function` of its
case, and the world state that the run leaves is the one that these calls produce, in this
order: for each case in turn `pre_run`, then the procedure in the state `pre_run` left, then
`run_failed` and `post_run` with the counter the procedure returned there. Hence a set
`pre_run` and a set `post_run` are called exactly once for each of the cases, failed or not,
and `run_failed` exactly for the failed ones. -/
theorem run_call_order (suite : test_suite σ ε) (s : σ)
    (hthrow : ∀ ev ∈ (suite.run s).trace, ev.threw = false)
    (hstop : ∀ ev ∈ (suite.run s).trace, ev.requests_stop = false) :
    (returned_counters (suite.run s).trace).map Prod.fst = suite.tests
      ∧ (suite.run s).trace
          = (returned_counters (suite.run s).trace).flatMap
              (fun call => case_events suite call false)
      ∧ (∀ call ∈ returned_counters (suite.run s).trace,
          ∃ s1, (call.1.function s1).1 = .ok call.2)
      ∧ (suite.run s).world = suite.tests.foldl (fun w test => case_world suite test w) s
      ∧ (suite.pre_run.isSome = true → pre_run_calls (suite.run s).trace = suite.tests)
      ∧ (suite.post_run.isSome = true →
          post_run_calls (suite.run s).trace = returned_counters (suite.run s).trace)
      ∧ (suite.run_failed.isSome = true →
          run_failed_calls (suite.run s).trace
            = (returned_counters (suite.run s).trace).filter
                (fun call => CT_HAS_ERRORS call.2)) := by
  have hworld := run_loop_world suite suite.tests [] s hthrow hstop
  unfold test_suite.run at *
  obtain ⟨blocks, htr, -, hgen, hshape⟩ := run_loop_spec suite suite.tests [] s hthrow
  rw [htr] at hstop ⊢
  rw [returned_counters_blocks]
  rcases hshape with ⟨hall, hno⟩ | ⟨init, last, rest, hb, -, -, hc, hset⟩
  · refine ⟨by rw [← hall, List.map_map]; rfl, ?_, ?_, hworld, fun hset => ?_,
      fun hset => post_run_calls_blocks suite hset blocks,
      fun hset => run_failed_calls_blocks suite hset blocks⟩
    · exact blocks_trace_of_no_stop suite blocks hno
    · intro call hcall
      obtain ⟨b, hb, rfl⟩ := List.mem_map.mp hcall
      exact hgen b hb
    · rw [pre_run_calls_blocks suite hset, hall]
  · exfalso
    have hmem : Event.run_failed last.1 last.2 (.ok true) ∈ blocks_trace suite blocks := by
      rw [hb, blocks_trace_append]
      refine List.mem_append_right _ ?_
      rw [blocks_trace_cons, blocks_trace_nil, List.append_nil]
      exact stop_event_mem_case_events suite last hc hset
    exact absurd (hstop _ hmem) (by simp [Event.requests_stop])

/-- Witness for C3: three cases whose procedures log a line, the second failing, with all
hooks set: the lines in the sink show the hooks and the procedures in the order of the calls,
and the counters recorded are those the procedures return. -/
theorem run_call_order_witness :
    (∀ ev ∈ (logging_suite.run []).trace, ev.threw = false)
      ∧ (∀ ev ∈ (logging_suite.run []).trace, ev.requests_stop = false)
      ∧ returned_counters (logging_suite.run []).trace
          = [(logging_case "case 1" 0, 0), (logging_case "case 2" 2, 2),
              (logging_case "case 3" 0, 0)]
      ∧ (logging_suite.run []).trace
          = [Event.pre_run (logging_case "case 1" 0) (.ok ()),
              Event.function (logging_case "case 1" 0) (.ok 0),
              Event.post_run (logging_case "case 1" 0) 0 (.ok ()),
              Event.pre_run (logging_case "case 2" 2) (.ok ()),
              Event.function (logging_case "case 2" 2) (.ok 2),
              Event.run_failed (logging_case "case 2" 2) 2 (.ok false),
              Event.post_run (logging_case "case 2" 2) 2 (.ok ()),
              Event.pre_run (logging_case "case 3" 0) (.ok ()),
              Event.function (logging_case "case 3" 0) (.ok 0),
              Event.post_run (logging_case "case 3" 0) 0 (.ok ())]
      ∧ (logging_suite.run []).world
          = ["=== case 1 ===", "running case 1", "=== End of case 1, 0 errors ===\n",
              "=== case 2 ===", "running case 2", "case 2 failed, continuing.",
              "=== End of case 2, 2 errors ===\n",
              "=== case 3 ===", "running case 3", "=== End of case 3, 0 errors ===\n"]
      ∧ pre_run_calls (logging_suite.run []).trace = logging_suite.tests
      ∧ post_run_calls (logging_suite.run []).trace
          = returned_counters (logging_suite.run []).trace
      ∧ run_failed_calls (logging_suite.run []).trace = [(logging_case "case 2" 2, 2)] :=
  have h := run_call_order logging_suite [] (by decide) (by decide)
  ⟨by decide, by decide, rfl, h.2.1.trans rfl, h.2.2.2.1.trans rfl, h.2.2.2.2.1 rfl,
    h.2.2.2.2.2.1 rfl, (h.2.2.2.2.2.2 rfl).trans rfl⟩

end Suite

/-! ## Claims about the assertion macros -/

section Assertions

variable {τ α : Type}

/-- What `CT_ASSERT_END` does for arguments whose texts bind tighter than `!=`, with values
`x` and `y`, in every procedure state: when `x != y` it logs one line, increments the counter
once and the procedure returns that incremented counter, whatever statement `rest` follows;
when `x == y` the state is unchanged and control reaches `rest`. -/
theorem CT_ASSERT_END_tight_operands [BEq α] [ToString α]
    (value_text expected_text : String) (x y : α) (message : String) (st : ProcState τ)
    (rest : Stmt τ) :
    ((x != y) = true →
        CT_ASSERT_END value_text expected_text (some x) (some y) message st
            = .returned (CT_INCREMENT_ERRORS st.errors) { st with
                errors := CT_INCREMENT_ERRORS st.errors
                sink := st.sink ++ [assert_line message value_text expected_text x y] }
          ∧ Stmt.seq (CT_ASSERT_END value_text expected_text (some x) (some y) message) rest st
            = .returned (CT_INCREMENT_ERRORS st.errors) { st with
                errors := CT_INCREMENT_ERRORS st.errors
                sink := st.sink ++ [assert_line message value_text expected_text x y] })
      ∧ ((x == y) = true →
          CT_ASSERT_END value_text expected_text (some x) (some y) message st = .next st
            ∧ Stmt.seq (CT_ASSERT_END value_text expected_text (some x) (some y) message) rest st
              = rest st) := by
  constructor
  · intro hne
    have hfail : CT_ASSERT_END value_text expected_text (some x) (some y) message st
        = .returned (CT_INCREMENT_ERRORS st.errors) { st with
            errors := CT_INCREMENT_ERRORS st.errors
            sink := st.sink ++ [assert_line message value_text expected_text x y] } := by
      unfold CT_ASSERT_END assert_va_args
      rw [CT_ASSERT_CODE_FMT_fail x y _ _ st hne]
      rfl
    exact ⟨hfail, by simp [Stmt.seq, hfail]⟩
  · intro heq
    have hpass : CT_ASSERT_END value_text expected_text (some x) (some y) message st
        = .next st := by
      unfold CT_ASSERT_END
      exact CT_ASSERT_CODE_FMT_pass x y _ _ st (by simp [bne, heq])
    exact ⟨hpass, by simp [Stmt.seq, hpass]⟩

/-- C5: the code does not do this for all arguments, because the expansion pastes their texts
around `!=` without parentheses. `CT_ASSERT_END(1 & 3, 1 & 3, msg)`, whose arguments both
have the value 1, tests `1 & 3 != 1 & 3`, that is `1 & (3 != 1) & 3`, which is 1: it logs a
line, increments the counter and returns 1 from the procedure although the values are equal.
`CT_ASSERT_END(2 & 2, 3, msg)`, with the values 2 and 3, tests `2 & (2 != 3)`, which is 0:
the counter stays and control reaches the next statement although the values differ. With
the parentheses written by the caller both assertions do what the claim says. -/
theorem CT_ASSERT_END_pasted_operands_defect :
    (IntText.mk 1 [(LooseOp.bit_and, 3)]).value = 1
      ∧ (IntText.paste_ne (IntText.mk 1 [(LooseOp.bit_and, 3)])
          (IntText.mk 1 [(LooseOp.bit_and, 3)])).value = 1
      ∧ Stmt.seq
            (CT_ASSERT_END "1 & 3" "1 & 3" (IntText.mk 1 [(LooseOp.bit_and, 3)])
              (IntText.mk 1 [(LooseOp.bit_and, 3)]) "both should be equal")
            (CT_ASSERT "c" "d" (some (1 : Int)) (some 2) "not reached") witness_state
          = .returned 1
              { errors := 1
                sink := ["both should be equal: 1 & 3 != 1 & 3 (1 != 1)"]
                vars := () }
      ∧ (IntText.mk 2 [(LooseOp.bit_and, 2)]).value = 2
      ∧ (IntText.paste_ne (IntText.mk 2 [(LooseOp.bit_and, 2)]) (IntText.mk 3 [])).value = 0
      ∧ CT_ASSERT_END "2 & 2" "3" (IntText.mk 2 [(LooseOp.bit_and, 2)]) (IntText.mk 3 [])
            "both should be equal" witness_state
          = .next witness_state
      ∧ CT_ASSERT_END "(1 & 3)" "(1 & 3)" (some (Int.land 1 3)) (some (Int.land 1 3))
            "both should be equal" witness_state
          = .next witness_state
      ∧ CT_ASSERT_END "(2 & 2)" "3" (some (Int.land 2 2)) (some (3 : Int))
            "both should be equal" witness_state
          = .returned 1
              { errors := 1
                sink := ["both should be equal: (2 & 2) != 3 (2 != 3)"]
                vars := () } :=
  ⟨rfl, rfl, rfl, rfl, rfl, rfl, rfl, rfl⟩

/-- C7: for sequences whose lengths differ, `CT_ASSERT_CTR(value, expected)` logs the size
line, increments the counter exactly once and the procedure returns that counter, whatever
statement `rest` follows. The outcome is that of `CT_ASSERT_SIZE` alone, and it is the same
for all sequences of these lengths and for every comparison `!=` of the element type: no
element is compared. -/
theorem CT_ASSERT_CTR_size_mismatch [BEq α] [ToString α] (value_text expected_text : String)
    (value expected : List α) (hsize : value.length ≠ expected.length) (st : ProcState τ)
    (rest : Stmt τ) :
    CT_ASSERT_CTR value_text expected_text value expected st
        = .returned (CT_INCREMENT_ERRORS st.errors) { st with
            errors := CT_INCREMENT_ERRORS st.errors
            sink := st.sink
              ++ [size_line value_text expected_text value.length expected.length] }
      ∧ CT_ASSERT_CTR value_text expected_text value expected st
        = CT_ASSERT_SIZE value_text expected_text value expected st
      ∧ Stmt.seq (CT_ASSERT_CTR value_text expected_text value expected) rest st
        = CT_ASSERT_CTR value_text expected_text value expected st
      ∧ (∀ (compare : BEq α) (value2 expected2 : List α),
          value2.length = value.length → expected2.length = expected.length →
          @CT_ASSERT_CTR τ α compare _ value_text expected_text value2 expected2 st
            = .returned (CT_INCREMENT_ERRORS st.errors) { st with
                errors := CT_INCREMENT_ERRORS st.errors
                sink := st.sink
                  ++ [size_line value_text expected_text value.length expected.length] }) := by
  have key : ∀ (compare : BEq α) (value2 expected2 : List α),
      value2.length = value.length → expected2.length = expected.length →
      @CT_ASSERT_CTR τ α compare _ value_text expected_text value2 expected2 st
        = .returned (CT_INCREMENT_ERRORS st.errors) { st with
            errors := CT_INCREMENT_ERRORS st.errors
            sink := st.sink
              ++ [size_line value_text expected_text value.length expected.length] } := by
    intro compare value2 expected2 hv he
    have h := CT_ASSERT_SIZE_fail value_text expected_text value2 expected2
      (by rw [hv, he]; exact hsize) st
    unfold CT_ASSERT_CTR Stmt.seq
    rw [h, hv, he]
  have hthis := key ‹BEq α› value expected rfl rfl
  refine ⟨hthis, ?_, ?_, key⟩
  · rw [hthis, CT_ASSERT_SIZE_fail value_text expected_text value expected hsize st]
  · simp only [Stmt.seq, hthis]

/-- Witness for C7: a sequence of four elements against one of five. -/
theorem CT_ASSERT_CTR_size_mismatch_witness :
    [(1 : Int), 2, 7, 4].length ≠ [(1 : Int), 2, 3, 4, 5].length
      ∧ CT_ASSERT_CTR "value" "expected" [(1 : Int), 2, 7, 4] [1, 2, 3, 4, 5] witness_state
        = .returned 1
            { errors := 1, sink := ["Invalid size: value.size() != expected.size() (4 != 5)"],
              vars := () } :=
  ⟨by decide, (CT_ASSERT_CTR_size_mismatch "value" "expected" [(1 : Int), 2, 7, 4]
    [1, 2, 3, 4, 5] (by decide) witness_state Stmt.empty).1⟩

end Assertions

/-! ## Claims about aggregation and the default counter -/

section Aggregation

variable {σ ε : Type}

/-- C8: `sum_failed_tests_errors` returns the left fold of `CT_ADD_TO_ERRORS` over the records'
counters in list order, starting from `CT_ERRORS_PARAMS = 0`; this is the sum of the counters
in `std::size_t` arithmetic, and the exact sum whenever that is representable. Records with
counters 2 and 5 give 7, and the empty list gives `CT_ERRORS_PARAMS`, which has no errors. -/
theorem sum_failed_tests_errors_spec (failed_tests : List (failed_test σ ε)) :
    sum_failed_tests_errors failed_tests
        = (failed_tests.map Prod.snd).foldl CT_ADD_TO_ERRORS CT_ERRORS_PARAMS
      ∧ CT_ERRORS_PARAMS = 0
      ∧ sum_failed_tests_errors failed_tests = (failed_tests.map Prod.snd).sum % SIZE_MODULUS
      ∧ ((failed_tests.map Prod.snd).sum < SIZE_MODULUS →
          sum_failed_tests_errors failed_tests = (failed_tests.map Prod.snd).sum)
      ∧ (∀ case1 case2 : test_case σ ε, sum_failed_tests_errors [(case1, 2), (case2, 5)] = 7)
      ∧ sum_failed_tests_errors ([] : List (failed_test σ ε)) = CT_ERRORS_PARAMS
      ∧ CT_HAS_ERRORS CT_ERRORS_PARAMS = false := by
  refine ⟨sum_failed_tests_errors_fold failed_tests, rfl,
    sum_failed_tests_errors_eq failed_tests, ?_, ?_, rfl, rfl⟩
  · intro h
    rw [sum_failed_tests_errors_eq, Nat.mod_eq_of_lt h]
  · intro case1 case2
    rfl

/-- C9: `sum_failed_tests_errors` returns the same counter for every permutation of the list
of failure records. -/
theorem sum_failed_tests_errors_perm (failed_tests reordered : List (failed_test σ ε))
    (h : failed_tests.Perm reordered) :
    sum_failed_tests_errors reordered = sum_failed_tests_errors failed_tests := by
  rw [sum_failed_tests_errors_eq, sum_failed_tests_errors_eq, (h.map Prod.snd).sum_eq]

/-- Witness for C9: two records, with counters 2 and 5, in both orders. -/
theorem sum_failed_tests_errors_perm_witness :
    [(witness_case "case 2" 2, 2), (witness_case "case 5" 5, 5)].Perm
        [(witness_case "case 5" 5, 5), (witness_case "case 2" 2, 2)]
      ∧ sum_failed_tests_errors [(witness_case "case 5" 5, 5), (witness_case "case 2" 2, 2)]
          = sum_failed_tests_errors [(witness_case "case 2" 2, 2), (witness_case "case 5" 5, 5)] :=
  ⟨List.Perm.swap _ _ _, sum_failed_tests_errors_perm _ _ (List.Perm.swap _ _ _)⟩

/-- C10, as stated, fails: `1` and `2 ^ 64 - 1` are values of `std::size_t` that both have
errors, and adding them wraps around to `0`, which has none. -/
theorem has_errors_add_counterexample :
    (1 < SIZE_MODULUS ∧ 18446744073709551615 < SIZE_MODULUS)
      ∧ CT_HAS_ERRORS (CT_ADD_TO_ERRORS 1 18446744073709551615)
          ≠ (CT_HAS_ERRORS 1 || CT_HAS_ERRORS 18446744073709551615) := by
  decide

/-- C10, amended: for counters `a` and `b` whose sum is representable in `std::size_t` (the
addition does not wrap around), `has_errors (add a b) = (has_errors a || has_errors b)`. -/
theorem has_errors_add (a b : CT_ERRORS_TYPE) (h : a + b < SIZE_MODULUS) :
    CT_HAS_ERRORS (CT_ADD_TO_ERRORS a b) = (CT_HAS_ERRORS a || CT_HAS_ERRORS b) := by
  unfold CT_HAS_ERRORS CT_ADD_TO_ERRORS
  rw [Nat.mod_eq_of_lt h]
  rw [Bool.eq_iff_iff]
  simp only [bne_iff_ne, Bool.or_eq_true, ne_eq, Nat.add_eq_zero_iff]
  tauto

/-- Witness for the amended C10: counters 2 and 5. -/
theorem has_errors_add_witness :
    2 + 5 < SIZE_MODULUS
      ∧ CT_HAS_ERRORS (CT_ADD_TO_ERRORS 2 5) = (CT_HAS_ERRORS 2 || CT_HAS_ERRORS 5) :=
  ⟨by decide, has_errors_add 2 5 (by decide)⟩

end Aggregation

/-! ## Further claims about the default counter -/

section Counter

/-- C11, as stated, fails: the largest `std::size_t` has errors, but incrementing it, or
adding 1 to it, wraps around to `0`, which has none. -/
theorem has_errors_monotone_counterexample :
    18446744073709551615 < SIZE_MODULUS
      ∧ CT_HAS_ERRORS 18446744073709551615 = true
      ∧ CT_HAS_ERRORS (CT_INCREMENT_ERRORS 18446744073709551615) = false
      ∧ CT_HAS_ERRORS (CT_ADD_TO_ERRORS 18446744073709551615 1) = false := by
  decide

/-- C11, amended: for a counter `c` that has errors, `CT_INCREMENT_ERRORS c` has errors when
`c` is not the largest `std::size_t`, `CT_ADD_TO_ERRORS c d` has errors when `c + d` is
representable, and the counter after any sequence of increment and add operations has errors
when the exact total is representable (nothing wraps around). -/
theorem has_errors_monotone (c : CT_ERRORS_TYPE) (h : CT_HAS_ERRORS c = true) :
    (c + 1 < SIZE_MODULUS → CT_HAS_ERRORS (CT_INCREMENT_ERRORS c) = true)
      ∧ (∀ d : CT_ERRORS_TYPE, c + d < SIZE_MODULUS →
          CT_HAS_ERRORS (CT_ADD_TO_ERRORS c d) = true)
      ∧ (∀ ops : List CounterOp, c + ops_total ops < SIZE_MODULUS →
          CT_HAS_ERRORS (apply_ops ops c) = true) := by
  have hc : c ≠ 0 := by simpa [CT_HAS_ERRORS] using h
  refine ⟨fun hlt => ?_, fun d hlt => ?_, fun ops hlt => ?_⟩
  · have h1 : CT_INCREMENT_ERRORS c = c + 1 := Nat.mod_eq_of_lt hlt
    simp [CT_HAS_ERRORS, h1]
  · have h1 : CT_ADD_TO_ERRORS c d = c + d := Nat.mod_eq_of_lt hlt
    simp [CT_HAS_ERRORS, h1, hc]
  · rw [apply_ops_exact ops c hlt]
    simp [CT_HAS_ERRORS, hc]

/-- Witness for the amended C11: the counter 3, which has errors. -/
theorem has_errors_monotone_witness :
    CT_HAS_ERRORS 3 = true
      ∧ (3 + 1 < SIZE_MODULUS → CT_HAS_ERRORS (CT_INCREMENT_ERRORS 3) = true)
      ∧ (∀ d : CT_ERRORS_TYPE, 3 + d < SIZE_MODULUS →
          CT_HAS_ERRORS (CT_ADD_TO_ERRORS 3 d) = true)
      ∧ (∀ ops : List CounterOp, 3 + ops_total ops < SIZE_MODULUS →
          CT_HAS_ERRORS (apply_ops ops 3) = true) :=
  ⟨by decide, has_errors_monotone 3 (by decide)⟩

end Counter

/-! ## Further claims about `test_suite::run` -/

section SuiteFurther

variable {σ ε : Type}

/-- C13: if in a run of `test_suite::run` the procedure of a case `k` throws `e`, then `run`
ends with that same exception `e` instead of returning a list; the throwing call is the last
call of the run, nothing having thrown before it; and the procedures invoked are those of the
cases up to `k` in the case list, none of the cases `after` it. -/
theorem run_propagates_exception (suite : test_suite σ ε) (s : σ) (k : test_case σ ε) (e : ε)
    (h : Event.function k (.error e) ∈ (suite.run s).trace) :
    (suite.run s).result = .error e
      ∧ (∃ s1, (k.run s1).1 = .error e)
      ∧ ∃ earlier after,
          (suite.run s).trace = earlier ++ [Event.function k (.error e)]
            ∧ (∀ ev ∈ earlier, ev.threw = false)
            ∧ suite.tests = invoked_cases earlier ++ k :: after
            ∧ invoked_cases (suite.run s).trace = invoked_cases earlier ++ [k] := by
  have hprop := run_loop_propagates suite suite.tests [] s
  have hpre := run_loop_invoked_prefix suite suite.tests [] s
  have hgen := run_loop_genuine suite suite.tests [] s _ h
  unfold test_suite.run at *
  unfold Outcome.Propagates at hprop
  rcases hr : (suite.run_loop suite.tests [] s).result with e1 | failed_tests
  · rw [hr] at hprop
    obtain ⟨earlier, ev, htr, hex, hno⟩ := hprop
    have hev : Event.function k (.error e) = ev := by
      rw [htr] at h
      rcases List.mem_append.mp h with h1 | h1
      · exact absurd (hno _ h1) (by simp [Event.threw])
      · exact List.mem_singleton.mp h1
    subst hev
    have he : e1 = e := by
      simp only [Event.exception, Option.some.injEq] at hex
      exact hex.symm
    subst he
    have hinv : invoked_cases (suite.run_loop suite.tests [] s).trace
        = invoked_cases earlier ++ [k] := by
      rw [htr, invoked_cases_append]; rfl
    rw [hinv] at hpre
    obtain ⟨after, hafter⟩ := hpre
    refine ⟨rfl, hgen, earlier, after, htr, hno, ?_, hinv⟩
    rw [← hafter, List.append_assoc]; rfl
  · rw [hr] at hprop
    exact absurd (hprop _ h) (by simp [Event.threw])

/-- Witness for C13: the second of three cases throws `"boom"`; the third is never invoked. -/
theorem run_propagates_exception_witness :
    Event.function (throwing_case "case 2" "boom") (.error "boom")
        ∈ (throwing_suite.run []).trace
      ∧ (throwing_suite.run []).result = .error "boom"
      ∧ invoked_cases (throwing_suite.run []).trace
          = [witness_case "case 1" 0, throwing_case "case 2" "boom"] :=
  ⟨.tail _ (.tail _ (.tail _ (.tail _ (.head _)))),
    (run_propagates_exception throwing_suite [] (throwing_case "case 2" "boom") "boom"
      (.tail _ (.tail _ (.tail _ (.tail _ (.head _)))))).1,
    rfl⟩

/-- C16: in every run of `test_suite::run` in which no callable throws, whatever the hooks
and whether or not the failure hook stops the run, `run` returns a list whose cases form a
subsequence of the case list in the same relative order; every record has a counter with
errors, which is the counter that the procedure of its case returned in this run; and the
list is exactly the invoked cases whose counter has errors, so no record is produced for a
case whose counter has no errors. -/
theorem run_result_subsequence (suite : test_suite σ ε) (s : σ)
    (hthrow : ∀ ev ∈ (suite.run s).trace, ev.threw = false) :
    ∃ failed_tests,
      (suite.run s).result = .ok failed_tests
        ∧ (failed_tests.map Prod.fst).Sublist suite.tests
        ∧ (∀ record ∈ failed_tests,
            CT_HAS_ERRORS record.2 = true
              ∧ record ∈ returned_counters (suite.run s).trace
              ∧ ∃ s1, (record.1.run s1).1 = .ok record.2)
        ∧ failed_tests
            = (returned_counters (suite.run s).trace).filter (fun call => CT_HAS_ERRORS call.2)
        ∧ (returned_counters (suite.run s).trace).map Prod.fst <+: suite.tests := by
  have hpre := run_loop_invoked_prefix suite suite.tests [] s
  unfold test_suite.run at *
  obtain ⟨blocks, htr, hres, hcall, -⟩ := run_loop_spec suite suite.tests [] s hthrow
  rw [htr] at hpre ⊢
  rw [invoked_cases_blocks] at hpre
  rw [returned_counters_blocks, hres, List.nil_append]
  have hmap : (blocks.map Prod.fst).map Prod.fst = blocks.map (fun b => b.1.1) := by
    rw [List.map_map]; rfl
  refine ⟨_, rfl, ?_, ?_, rfl, hmap ▸ hpre⟩
  · refine List.Sublist.trans ?_ hpre.sublist
    rw [← hmap]
    exact (List.filter_sublist _).map Prod.fst
  · intro record hrec
    obtain ⟨hmem, herr⟩ := List.mem_filter.mp hrec
    obtain ⟨b, hb, rfl⟩ := List.mem_map.mp hmem
    exact ⟨herr, hmem, hcall b hb⟩

/-- Witness for C16: the run that `default_run_failed_quitter` stops at the second of six
cases. -/
theorem run_result_subsequence_witness :
    (∀ ev ∈ (stopping_suite.run []).trace, ev.threw = false)
      ∧ ∃ failed_tests,
          (stopping_suite.run []).result = .ok failed_tests
            ∧ (failed_tests.map Prod.fst).Sublist stopping_suite.tests
            ∧ (∀ record ∈ failed_tests,
                CT_HAS_ERRORS record.2 = true
                  ∧ record ∈ returned_counters (stopping_suite.run []).trace
                  ∧ ∃ s1, (record.1.run s1).1 = .ok record.2)
            ∧ failed_tests
                = (returned_counters (stopping_suite.run []).trace).filter
                    (fun call => CT_HAS_ERRORS call.2)
            ∧ (returned_counters (stopping_suite.run []).trace).map Prod.fst
                <+: stopping_suite.tests :=
  ⟨by decide, run_result_subsequence stopping_suite [] (by decide)⟩

/-- C17: for every list of test cases and every starting world state, `test_suite::run` with
`pre_run`, `post_run` and `run_failed` all unset and `run` with the three hooks set to
callables that do nothing (the failure hook returning `false`) end the same way: they return
the same failure list, or end with the same exception, and leave the same world state. -/
theorem run_absent_hooks_are_noops (tests : List (test_case σ ε)) (s : σ) :
    ((suite_without_hooks tests).run s).result = ((suite_with_noop_hooks tests).run s).result
      ∧ ((suite_without_hooks tests).run s).world
        = ((suite_with_noop_hooks tests).run s).world :=
  run_loop_noop_hooks tests tests tests [] s

end SuiteFurther

/-! ## Claims about the exit indicator -/

section ExitIndicator

variable {σ ε : Type}

/-- C20, as stated, fails: two cases that each return `2 ^ 63`, a value of `std::size_t`, give
a failure list of two records whose sum wraps around to `0`, so the exit indicator is `false`
although the list is not empty. -/
theorem exit_indicator_counterexample :
    9223372036854775808 < SIZE_MODULUS
      ∧ overflow_suite.pre_run.isNone = true
      ∧ overflow_suite.post_run.isNone = true
      ∧ overflow_suite.run_failed.isNone = true
      ∧ (overflow_suite.run []).result
          = .ok [(witness_case "case 1" 9223372036854775808, 9223372036854775808),
                 (witness_case "case 2" 9223372036854775808, 9223372036854775808)]
      ∧ CT_HAS_ERRORS (sum_failed_tests_errors
          [(witness_case "case 1" 9223372036854775808, 9223372036854775808),
           (witness_case "case 2" 9223372036854775808, 9223372036854775808)]) = false :=
  ⟨by decide, rfl, rfl, rfl, rfl, by decide⟩

/-- C20, amended: for a suite without failure hook (in particular one with no hooks at all) in
whose run no callable throws, `run` invokes every case and returns a failure list that is
non-empty if and only if some case returned a counter with errors; the
exit indicator `CT_HAS_ERRORS (sum_failed_tests_errors failed_tests)` being `true` implies
that the list is non-empty, and it is `true` if and only if the list is non-empty whenever
the sum of the counters in the list is representable in `std::size_t` (no wraparound). -/
theorem exit_indicator (suite : test_suite σ ε) (s : σ)
    (hfailed : suite.run_failed = none)
    (hthrow : ∀ ev ∈ (suite.run s).trace, ev.threw = false) :
    ∃ failed_tests,
      (suite.run s).result = .ok failed_tests
        ∧ (returned_counters (suite.run s).trace).map Prod.fst = suite.tests
        ∧ (failed_tests ≠ [] ↔
            ∃ call ∈ returned_counters (suite.run s).trace, CT_HAS_ERRORS call.2 = true)
        ∧ (CT_HAS_ERRORS (sum_failed_tests_errors failed_tests) = true → failed_tests ≠ [])
        ∧ ((failed_tests.map Prod.snd).sum < SIZE_MODULUS →
            (CT_HAS_ERRORS (sum_failed_tests_errors failed_tests) = true ↔ failed_tests ≠ [])) := by
  unfold test_suite.run at *
  obtain ⟨blocks, htr, hres, -, hshape⟩ := run_loop_spec suite suite.tests [] s hthrow
  rw [htr, returned_counters_blocks, hres, List.nil_append]
  have hall : (blocks.map Prod.fst).map Prod.fst = suite.tests := by
    rcases hshape with ⟨hall, -⟩ | ⟨_, _, _, _, _, _, _, hset⟩
    · rw [← hall, List.map_map]; rfl
    · rw [hfailed] at hset; cases hset
  have hnonempty : ∀ l : List (failed_test σ ε),
      (∀ record ∈ l, CT_HAS_ERRORS record.2 = true) → l ≠ [] → (l.map Prod.snd).sum ≠ 0 := by
    intro l hl hne
    cases l with
    | nil => exact absurd rfl hne
    | cons record rest =>
      have h1 : record.2 ≠ 0 := by
        simpa [CT_HAS_ERRORS] using hl record (List.mem_cons_self _ _)
      simp only [List.map_cons, List.sum_cons]
      exact fun h => h1 (Nat.eq_zero_of_add_eq_zero_right h)
  have hempty : CT_HAS_ERRORS (sum_failed_tests_errors ([] : List (failed_test σ ε))) = false :=
    rfl
  refine ⟨_, rfl, hall, ?_, ?_, ?_⟩
  · rw [Ne, List.filter_eq_nil_iff]
    push_neg
    rfl
  · intro hsum hnil
    rw [hnil, hempty] at hsum
    cases hsum
  · intro hlt
    constructor
    · intro hsum hnil
      rw [hnil, hempty] at hsum
      cases hsum
    · intro hne
      rw [sum_failed_tests_errors_eq, Nat.mod_eq_of_lt hlt]
      have := hnonempty _ (fun record hrec => (List.mem_filter.mp hrec).2) hne
      simpa [CT_HAS_ERRORS] using this

/-- Witness for the amended C20: three cases returning 0, 3 and 0 give one record, the second
case with counter 3, whose sum is 3 and has errors. -/
theorem exit_indicator_witness :
    three_case_suite.run_failed = none
      ∧ (∀ ev ∈ (three_case_suite.run []).trace, ev.threw = false)
      ∧ (three_case_suite.run []).result = .ok [(witness_case "case 2" 3, 3)]
      ∧ sum_failed_tests_errors [(witness_case "case 2" 3, 3)] = 3
      ∧ CT_HAS_ERRORS (sum_failed_tests_errors [(witness_case "case 2" 3, 3)]) = true
      ∧ ∃ failed_tests,
          (three_case_suite.run []).result = .ok failed_tests
            ∧ (returned_counters (three_case_suite.run []).trace).map Prod.fst
                = three_case_suite.tests
            ∧ (failed_tests ≠ [] ↔
                ∃ call ∈ returned_counters (three_case_suite.run []).trace,
                  CT_HAS_ERRORS call.2 = true)
            ∧ (CT_HAS_ERRORS (sum_failed_tests_errors failed_tests) = true →
                failed_tests ≠ [])
            ∧ ((failed_tests.map Prod.snd).sum < SIZE_MODULUS →
                (CT_HAS_ERRORS (sum_failed_tests_errors failed_tests) = true
                  ↔ failed_tests ≠ [])) :=
  ⟨rfl, by decide, rfl, rfl, rfl, exit_indicator three_case_suite [] rfl (by decide)⟩

end ExitIndicator

/-! ## Claims about reporting -/

section Reporting

variable {σ ε : Type}

/-- C18, as stated, fails: for one record `print_failed_tests` emits two lines, the heading
`Failed tests:` and the line of the record. -/
theorem print_failed_tests_counterexample :
    [(witness_case "case 2" 3, 3)].length = 1
      ∧ print_failed_tests [(witness_case "case 2" 3, 3)] []
          = ["Failed tests:", "  case 2: 3 errors"]
      ∧ (print_failed_tests [(witness_case "case 2" 3, 3)] []).length = 2 :=
  ⟨rfl, rfl, rfl⟩

/-- C18, amended: `print_failed_tests` emits nothing when the list is empty, and otherwise
the heading line `Failed tests:` followed by exactly one line per record, in record order,
each made of the record's case title and its counter's printable count; so `n > 0` records
give `n + 1` lines. -/
theorem print_failed_tests_spec (failed_tests : List (failed_test σ ε)) (sink : LogSink) :
    print_failed_tests ([] : List (failed_test σ ε)) sink = sink
      ∧ print_failed_tests failed_tests sink
          = (if failed_tests.isEmpty then sink
              else sink ++ "Failed tests:" :: failed_tests.map failed_test_line)
      ∧ (∀ record : failed_test σ ε,
          failed_test_line record
            = "  " ++ record.1.title ++ ": " ++ toString record.2 ++ " errors")
      ∧ (print_failed_tests failed_tests sink).length
          = sink.length + (if failed_tests.isEmpty then 0 else failed_tests.length + 1) := by
  have hmain : print_failed_tests failed_tests sink
      = (if failed_tests.isEmpty then sink
          else sink ++ "Failed tests:" :: failed_tests.map failed_test_line) := by
    unfold print_failed_tests
    split
    · rfl
    · rw [foldl_logln_records]
      have hhead : logln "Failed tests:" [] sink = sink ++ ["Failed tests:"] := by
        unfold logln
        exact congrArg (fun line => sink ++ [line]) (by decide)
      rw [hhead, List.append_assoc]
      rfl
  refine ⟨rfl, hmain, fun record => ?_, ?_⟩
  · apply String.ext
    simp [failed_test_line, format, format_chars]
  · rw [hmain]
    split
    · rfl
    · simp

end Reporting

/-! ## Further claims about the assertion macros -/

section AssertionsFurther

variable {τ α : Type}

/-- C14: the code does not do this for all inputs. For `value = {{1, 2, 3}, {4}}` and
`expected = {{1, 2, 9}, {4, 5}}` the outer sizes agree and the first outer index with
different inner sizes is 1, but the element mismatch at `[0][2]` makes `CT_ASSERT_SUB_ELM`
evaluate its diagnostic argument `expected[i2][i2]`, here `expected[2][2]`, out of range:
undefined behaviour before the size assertion of row 1 is reached. With identical rows before
the mismatching one (here `value = {{1, 2, 9}, {4}}`) the macro records the one size failure
and the procedure returns. -/
theorem CT_ASSERT_NEST_CTR_sub_size_defect :
    [[(1 : Int), 2, 3], [4]].length = [[(1 : Int), 2, 9], [4, 5]].length
      ∧ [(1 : Int), 2, 3].length = [(1 : Int), 2, 9].length
      ∧ [(4 : Int)].length ≠ [(4 : Int), 5].length
      ∧ CT_ASSERT_NEST_CTR "value" "expected" [[(1 : Int), 2, 3], [4]] [[1, 2, 9], [4, 5]]
            witness_state
          = .undefined
      ∧ CT_ASSERT_NEST_CTR "value" "expected" [[(1 : Int), 2, 9], [4]] [[1, 2, 9], [4, 5]]
            witness_state
          = .returned 1
              { errors := 1
                sink := ["Invalid size: value[1].size() != expected[1].size() (1 != 2)"]
                vars := () } :=
  ⟨rfl, rfl, by decide, rfl, rfl⟩

/-- C15: the code does not do this for all inputs. The two equal 3x5 nested vectors of the
usage example leave the counter at 0, and a difference at `[0][2]` is counted once, with the
runtime value of `expected[2][2]` in the message. But with a difference at `[0][3]`, in
containers of identical shape, `CT_ASSERT_SUB_ELM` evaluates its diagnostic argument
`expected[i2][i2]`, here `expected[3][3]`, which is out of range for the three rows:
undefined behaviour, so the swapped index does not affect the message text only. -/
theorem CT_ASSERT_NEST_CTR_swapped_index_defect :
    test_container_assertion witness_state = .returned 0 witness_state
      ∧ CT_ASSERT_NEST_CTR "nested_value" "nested_expected"
            [[1, 2, 99, 4, 5], [6, 7, 8, 9, 10], [11, 12, 13, 14, 15]] usage_nested
            witness_state
          = .next
              { errors := 1
                sink := ["Invalid element: nested_value[0][2] != nested_expected[0][2] " ++
                  "(99 != 13)"]
                vars := () }
      ∧ ([[1, 2, 3, 99, 5], [6, 7, 8, 9, 10], [11, 12, 13, 14, 15]].map List.length
          = usage_nested.map List.length)
      ∧ CT_ASSERT_NEST_CTR "nested_value" "nested_expected"
            [[1, 2, 3, 99, 5], [6, 7, 8, 9, 10], [11, 12, 13, 14, 15]] usage_nested
            witness_state
          = .undefined :=
  ⟨rfl, rfl, rfl, rfl⟩

/-- What `CT_ASSERT_CODE_FMT` does for arguments whose texts bind tighter than `!=`, with
values `x` and `y`, in every procedure state and for every block `code`: when `x != y` it is
one execution of `code`, started in the state in which the line has been logged and the
counter incremented once (so a block that applies `f` to the variables, given the counter it
sees, applies it once and sees the incremented counter); when `x == y` the state, hence the
counter, is unchanged whatever the block is: the block is not executed. -/
theorem CT_ASSERT_CODE_FMT_tight_operands [BEq α] (x y : α) (code : Stmt τ) (va_args : LogArgs)
    (st : ProcState τ) :
    ((x != y) = true →
        CT_ASSERT_CODE_FMT (some x) (some y) code (some va_args) st
            = code { st with
                sink := st.sink ++ [format va_args.fmt va_args.args]
                errors := CT_INCREMENT_ERRORS st.errors }
          ∧ ∀ f : CT_ERRORS_TYPE → τ → τ,
              CT_ASSERT_CODE_FMT (some x) (some y)
                  (fun st1 => .next { st1 with vars := f st1.errors st1.vars })
                  (some va_args) st
                = .next { errors := CT_INCREMENT_ERRORS st.errors
                          sink := st.sink ++ [format va_args.fmt va_args.args]
                          vars := f (CT_INCREMENT_ERRORS st.errors) st.vars })
      ∧ ((x != y) = false →
          ∀ code2 : Stmt τ,
            CT_ASSERT_CODE_FMT (some x) (some y) code2 (some va_args) st = .next st) := by
  refine ⟨fun hne => ⟨CT_ASSERT_CODE_FMT_fail x y code va_args st hne, fun f => ?_⟩,
    fun heq code2 => CT_ASSERT_CODE_FMT_pass x y code2 _ st heq⟩
  rw [CT_ASSERT_CODE_FMT_fail x y _ va_args st hne]

/-- C19: the code does not do this for all arguments, because the expansion pastes their texts
around `!=` without parentheses. In `test_basic_assertion` of the usage example the block
attached to the assertion of `3 * 3` against `8` runs once, after the increment, and the
procedure returns 1. But `CT_ASSERT_CODE_FMT(1 & 3, 1 & 3, code, ...)` with the same block,
whose arguments both have the value 1, tests `1 & 3 != 1 & 3`, that is `1 & (3 != 1) & 3`,
which is 1: the line is logged, the counter incremented and the block executed although the
values are equal. -/
theorem CT_ASSERT_CODE_FMT_pasted_operands_defect :
    test_basic_assertion { errors := 0, sink := [], vars := none }
        = .returned 1
            { errors := 1, sink := ["3 * 3 should equal 8... should it?"], vars := some 9 }
      ∧ (IntText.mk 1 [(LooseOp.bit_and, 3)]).value = 1
      ∧ (IntText.paste_ne (IntText.mk 1 [(LooseOp.bit_and, 3)])
          (IntText.mk 1 [(LooseOp.bit_and, 3)])).value = 1
      ∧ CT_ASSERT_CODE_FMT (IntText.mk 1 [(LooseOp.bit_and, 3)])
            (IntText.mk 1 [(LooseOp.bit_and, 3)]) test_basic_assertion_block
            (some ⟨"1 & 3 should equal 1 & 3", []⟩) { errors := 0, sink := [], vars := none }
          = .next { errors := 1, sink := ["1 & 3 should equal 1 & 3"], vars := some 9 }
      ∧ CT_ASSERT_CODE_FMT (some (Int.land 1 3)) (some (Int.land 1 3))
            test_basic_assertion_block (some ⟨"(1 & 3) should equal (1 & 3)", []⟩)
            { errors := 0, sink := [], vars := none }
          = .next { errors := 0, sink := [], vars := none } :=
  ⟨rfl, rfl, rfl, rfl, rfl⟩

end AssertionsFurther

/-! ## Claims about element access -/

section Bounds

variable {τ α : Type}

/-- C24: the code does not keep every access within bounds. For `value = {{1, 2}}` and
`expected = {{1, 3}}` the outer and the inner size assertions pass and the operands of the
comparison at `[0][1]` are in range, but they differ, and the diagnostic argument of
`CT_ASSERT_SUB_ELM` is `expected[i2][i2]`, here `expected[1][1]`: the outer index 1 is not
smaller than `expected.size() = 1`. For `{{5, 6}, {7}}` against `{{5, 9}, {7}}` the row
`expected[1]` exists and the inner index 1 is not smaller than `expected[1].size() = 1`.
Both evaluations of `CT_ASSERT_NEST_CTR` are undefined behaviour. -/
theorem CT_ASSERT_NEST_CTR_diagnostic_out_of_bounds :
    (CT_ASSERT_SIZE "value" "expected" [[(1 : Int), 2]] [[(1 : Int), 3]] witness_state
          = .next witness_state
        ∧ CT_ASSERT_SUB_SIZE "value" "expected" [[(1 : Int), 2]] [[(1 : Int), 3]] 0 witness_state
          = .next witness_state
        ∧ [[(1 : Int), 2]][0]?.bind (fun row => row[1]?) = some 2
        ∧ [[(1 : Int), 3]][0]?.bind (fun row => row[1]?) = some 3
        ∧ [[(1 : Int), 3]].length = 1
        ∧ [[(1 : Int), 3]][1]? = none
        ∧ sub_elm_va_args "value" "expected" [[(1 : Int), 2]] [[(1 : Int), 3]] 0 1 = none
        ∧ CT_ASSERT_SUB_ELM "value" "expected" [[(1 : Int), 2]] [[(1 : Int), 3]] 0 1
            witness_state = .undefined
        ∧ CT_ASSERT_NEST_CTR "value" "expected" [[(1 : Int), 2]] [[(1 : Int), 3]] witness_state
          = .undefined)
      ∧ ([[(5 : Int), 6], [7]].map List.length = [[(5 : Int), 9], [7]].map List.length
        ∧ [[(5 : Int), 9], [7]][1]? = some [7]
        ∧ [(7 : Int)].length = 1
        ∧ [(7 : Int)][1]? = none
        ∧ sub_elm_va_args "value" "expected" [[(5 : Int), 6], [7]] [[(5 : Int), 9], [7]] 0 1
          = none
        ∧ CT_ASSERT_NEST_CTR "value" "expected" [[(5 : Int), 6], [7]] [[(5 : Int), 9], [7]]
            witness_state = .undefined) :=
  ⟨⟨rfl, rfl, rfl, rfl, rfl, rfl, rfl, rfl, rfl⟩, rfl, rfl, rfl, rfl, rfl, rfl⟩

end Bounds

/-! ## Claims relating runs of the same cases -/

section RunRelations

variable {σ ε : Type}

/-- C25, as stated, fails: two failing cases whose procedures return 1 in every world state,
and a failure hook that returns a flag shared with `pre_run`. Started with the flag unset and
with no `pre_run`, the run returns both records; with the `pre_run` that sets the flag, the
failure hook answers `true` at the first case and the run returns one record. Nothing throws
in either run: `pre_run` changed the returned list. -/
theorem pre_run_changes_result_counterexample :
    (∀ test ∈ (flag_suite none).tests, ∀ flag, (test.run flag).1 = .ok 1)
      ∧ (flag_suite (some flag_pre_run)).tests = (flag_suite none).tests
      ∧ (flag_suite (some flag_pre_run)).run_failed = (flag_suite none).run_failed
      ∧ (flag_suite (some flag_pre_run)).post_run = (flag_suite none).post_run
      ∧ (∀ ev ∈ ((flag_suite none).run false).trace, ev.threw = false)
      ∧ (∀ ev ∈ ((flag_suite (some flag_pre_run)).run false).trace, ev.threw = false)
      ∧ ((flag_suite none).run false).result
          = .ok [(flag_case "case 1" 1, 1), (flag_case "case 2" 1, 1)]
      ∧ ((flag_suite (some flag_pre_run)).run false).result = .ok [(flag_case "case 1" 1, 1)]
      ∧ ((flag_suite (some flag_pre_run)).run false).result.toOption.map List.length
          ≠ ((flag_suite none).run false).result.toOption.map List.length :=
  ⟨fun test ht flag => by
      simp only [flag_suite, List.mem_cons, List.mem_singleton, List.not_mem_nil, or_false] at ht
      rcases ht with rfl | rfl <;> rfl,
    rfl, rfl, rfl, by decide, by decide, rfl, rfl, by decide⟩

/-- C25, amended: for a suite whose procedures return counters that do not depend on the world
state, in runs in which no callable throws: the list returned with the failure hook is a
prefix of the list returned by the same suite with no failure hook, and equal to it when no
call of the failure hook returns `true`. The list with no failure hook is the records of all
the cases whose counter has errors, whatever `pre_run` and `post_run` are and whatever world
state the run starts from. With a failure hook whose answer depends only on its arguments,
the list is again the same whatever `pre_run` and `post_run` are. -/
theorem run_early_termination_truncates (suite : test_suite σ ε)
    (counter : test_case σ ε → CT_ERRORS_TYPE) (s s2 : σ)
    (hdet : ∀ test ∈ suite.tests, ∀ s1, (test.run s1).1 = .ok (counter test))
    (hthrow : ∀ ev ∈ (suite.run s).trace, ev.threw = false)
    (hthrow2 : ∀ ev ∈ ({ suite with run_failed := none }.run s2).trace, ev.threw = false) :
    ∃ with_hook without_hook : List (failed_test σ ε),
      (suite.run s).result = .ok with_hook
        ∧ ({ suite with run_failed := none }.run s2).result = .ok without_hook
        ∧ with_hook <+: without_hook
        ∧ ((∀ ev ∈ (suite.run s).trace, ev.requests_stop = false) → with_hook = without_hook)
        ∧ without_hook
            = (suite.tests.map (fun test => (test, counter test))).filter
                (fun r => CT_HAS_ERRORS r.2)
        ∧ ((suite_without_hooks suite.tests).run s2).result = .ok without_hook
        ∧ (∀ (other : test_suite σ ε) (s3 : σ),
            other.tests = suite.tests → other.run_failed = none →
            (∀ ev ∈ (other.run s3).trace, ev.threw = false) →
            (other.run s3).result = .ok without_hook)
        ∧ (∀ (answer : test_case σ ε → Bool) (other : test_suite σ ε) (s3 : σ),
            (∀ hook, suite.run_failed = some hook →
              ∀ test ∈ suite.tests, ∀ s1, (hook test (counter test) s1).1 = .ok (answer test)) →
            other.tests = suite.tests → other.run_failed = suite.run_failed →
            (∀ ev ∈ (other.run s3).trace, ev.threw = false) →
            (other.run s3).result = .ok with_hook) := by
  obtain ⟨invoked, hprefix, hres, hnostop, _⟩ :=
    run_loop_deterministic suite suite.tests [] s counter hdet hthrow
  rw [List.nil_append] at hres
  have hnone : ∀ (other : test_suite σ ε) (s3 : σ),
      other.tests = suite.tests → other.run_failed = none →
      (∀ ev ∈ (other.run s3).trace, ev.threw = false) →
      (other.run s3).result
        = .ok ((suite.tests.map (fun test => (test, counter test))).filter
            (fun r => CT_HAS_ERRORS r.2)) := by
    intro other s3 htests hrf hth
    obtain ⟨invoked2, _, hres2, _, hall⟩ :=
      run_loop_deterministic other other.tests [] s3 counter (htests ▸ hdet) hth
    rw [hall hrf, List.nil_append] at hres2
    rw [← htests]
    exact hres2
  refine ⟨_, _, hres, hnone _ s2 rfl rfl hthrow2, ?_, ?_, rfl, ?_, hnone, ?_⟩
  · exact List.IsPrefix.filter _ (List.IsPrefix.map _ hprefix)
  · intro hno
    rw [hnostop hno]
  · exact run_loop_without_hooks_deterministic suite.tests suite.tests [] s2 counter hdet
  · intro answer other s3 hans htests hrf hth
    have h := run_loop_hooks_irrelevant other suite hrf counter answer suite.tests hdet
      (fun hook hh => hans hook (hrf ▸ hh)) [] s3 s (htests ▸ hth) hthrow
    show (other.run_loop other.tests [] s3).result = _
    rw [htests, h]
    exact hres

/-- Witness for the amended C25: the six cases with `default_run_failed_quitter` give the
record of the second case, a prefix of the two records that the same suite gives with no
failure hook. -/
theorem run_early_termination_truncates_witness :
    (∀ test ∈ stopping_suite.tests, ∀ s1,
        (test.run s1).1 = .ok ((test.run []).1.toOption.getD 0))
      ∧ (∀ ev ∈ (stopping_suite.run []).trace, ev.threw = false)
      ∧ (∀ ev ∈ ({ stopping_suite with run_failed := none }.run []).trace, ev.threw = false)
      ∧ (stopping_suite.run []).result = .ok [(witness_case "case 2" 1, 1)]
      ∧ ({ stopping_suite with run_failed := none }.run []).result
          = .ok [(witness_case "case 2" 1, 1), (witness_case "case 5" 3, 3)]
      ∧ ∃ with_hook without_hook : List (failed_test LogSink String),
          (stopping_suite.run []).result = .ok with_hook
            ∧ ({ stopping_suite with run_failed := none }.run []).result = .ok without_hook
            ∧ with_hook <+: without_hook :=
  have hdet : ∀ test ∈ stopping_suite.tests, ∀ s1,
      (test.run s1).1 = .ok ((test.run []).1.toOption.getD 0) := fun test ht s1 => by
    simp only [stopping_suite, witness_cases, List.mem_cons, List.mem_singleton,
      List.not_mem_nil, or_false] at ht
    rcases ht with rfl | rfl | rfl | rfl | rfl | rfl <;> rfl
  ⟨hdet, by decide, by decide, rfl, rfl,
    (run_early_termination_truncates stopping_suite
      (fun test => (test.run []).1.toOption.getD 0) [] [] hdet (by decide) (by decide)).imp
      (fun _ h => h.imp (fun _ h1 => ⟨h1.1, h1.2.1, h1.2.2.1⟩))⟩

end RunRelations

/-! ## Claims about the log lines of assertions -/

section AssertionLog

/-- C21: the code does not do this for every triggered assertion. In the procedure
`CT_BEGIN; CT_ASSERT_NEST_CTR(value, expected); CT_END` with `value = {{1, 2, 3}}` and
`expected = {{1, 2, 4}}` the size assertions pass and the assertion at `[0][2]` is triggered:
its operands are in range and differ. The arguments of its `logln` include
`expected[i2][i2]`, here `expected[2][2]`, out of range for the one row: the behaviour is
undefined where the line should be emitted, so no line is appended and no increment applied
by anything the language defines. When `expected[i2][i2]` exists, the triggered assertion
appends one line and the counter is incremented once. -/
theorem triggered_nested_assertion_without_line :
    [[(1 : Int), 2, 3]][0]?.bind (fun row => row[2]?) = some 3
      ∧ [[(1 : Int), 2, 4]][0]?.bind (fun row => row[2]?) = some 4
      ∧ MacroOperand.condition ([[(1 : Int), 2, 3]][0]?.bind (fun row => row[2]?))
          ([[(1 : Int), 2, 4]][0]?.bind (fun row => row[2]?)) = some true
      ∧ [[(1 : Int), 2, 4]][2]? = none
      ∧ sub_elm_va_args "value" "expected" [[(1 : Int), 2, 3]] [[(1 : Int), 2, 4]] 0 2 = none
      ∧ CT_ASSERT_SUB_ELM "value" "expected" [[(1 : Int), 2, 3]] [[(1 : Int), 2, 4]] 0 2
          witness_state = .undefined
      ∧ Stmt.seq CT_BEGIN
            (Stmt.seq (CT_ASSERT_NEST_CTR "value" "expected" [[(1 : Int), 2, 3]] [[1, 2, 4]])
              CT_END) witness_state
          = .undefined
      ∧ Stmt.seq CT_BEGIN
            (Stmt.seq
              (CT_ASSERT_NEST_CTR "value" "expected"
                [[(1 : Int), 2, 3], [0, 0, 0], [0, 0, 5]] [[1, 2, 4], [0, 0, 0], [0, 0, 5]])
              CT_END) witness_state
          = .returned 1
              { errors := 1
                sink := ["Invalid element: value[0][2] != expected[0][2] (3 != 5)"]
                vars := () } :=
  ⟨rfl, rfl, rfl, rfl, rfl, rfl, rfl, rfl⟩

end AssertionLog

/-! ## Claims about the custom counter of examples/custom_errors_class.cpp -/

section CustomCounter

/-- C23: in examples/custom_errors_class.cpp, for every `std::pow` that returns zero for
`pow(0.0f, 1.0f)` as the C library documents, over `float` arithmetic with rounding to
nearest: the counter constructed with `CT_ERRORS_PARAMS` has no errors and `get_errors()` is
0; after `n` increments, for every `n` up to `2 ^ 24`, `get_errors()` is `n`, and the counter
has errors when `n > 0`; that is the whole range, for one more increment after `2 ^ 24` leaves
the counter as it is. The procedure `test_custom_errors_class` does not trigger its assertion
and logs nothing: it returns the counter of four increments, which holds 2.0, whose
`get_errors()` is 4, which is formatted as `4` (so its line in the list of failed tests ends
in `4 errors`) and has errors. -/
theorem custom_counter_spec (pow : Binary32 → Binary32 → Binary32)
    (hpow : pow (.finite 0) (.finite (2 ^ 149)) = .finite 0) :
    custom_errors_class.CT_HAS_ERRORS (custom_errors_class.fresh_counter pow) = false
      ∧ (custom_errors_class.fresh_counter pow).get_errors = some 0
      ∧ (∀ n : Nat, n ≤ 2 ^ 24 →
          (custom_errors_class.CT_INCREMENT_ERRORS^[n]
              (custom_errors_class.fresh_counter pow)).get_errors
            = some (n : Int)
          ∧ (0 < n →
            custom_errors_class.CT_HAS_ERRORS (custom_errors_class.CT_INCREMENT_ERRORS^[n]
              (custom_errors_class.fresh_counter pow)) = true))
      ∧ custom_errors_class.CT_INCREMENT_ERRORS
            (custom_errors_class.CT_INCREMENT_ERRORS^[2 ^ 24]
              (custom_errors_class.fresh_counter pow))
          = custom_errors_class.CT_INCREMENT_ERRORS^[2 ^ 24]
            (custom_errors_class.fresh_counter pow)
      ∧ custom_errors_class.CT_INCREMENT_ERRORS^[4] (custom_errors_class.fresh_counter pow)
          = ⟨.finite (2 ^ 150)⟩
      ∧ (∀ st : custom_errors_class.ProcState,
          custom_errors_class.test_custom_errors_class pow st
            = .returned ⟨.finite (2 ^ 150)⟩ { st with my_errors := ⟨.finite (2 ^ 150)⟩ })
      ∧ custom_errors_class.my_error_t.get_errors ⟨.finite (2 ^ 150)⟩ = some 4
      ∧ custom_errors_class.formatter ⟨.finite (2 ^ 150)⟩ = some "4"
      ∧ (custom_errors_class.formatter ⟨.finite (2 ^ 150)⟩).map
          (fun text => format "  {}: {} errors" ["Test the new custom my_error_t class", text])
          = some "  Test the new custom my_error_t class: 4 errors"
      ∧ custom_errors_class.CT_HAS_ERRORS ⟨.finite (2 ^ 150)⟩ = true := by
  have hfresh : custom_errors_class.fresh_counter pow = ⟨.finite 0⟩ := by
    simp only [custom_errors_class.fresh_counter, custom_errors_class.my_error_t.construct,
      custom_errors_class.CT_ERRORS_PARAMS, hpow]
  have hiter : ∀ n : Nat, n ≤ 2 ^ 24 →
      custom_errors_class.CT_INCREMENT_ERRORS^[n] (⟨.finite 0⟩ : custom_errors_class.my_error_t)
        = ⟨.finite ((n : Int) * 2 ^ 148)⟩ := iterate_operator_call
  have hvalue : ((4 : Nat) : Int) * 2 ^ 148 = 2 ^ 150 := by norm_num
  have hfour : custom_errors_class.CT_INCREMENT_ERRORS^[4]
      (⟨.finite 0⟩ : custom_errors_class.my_error_t) = ⟨.finite (2 ^ 150)⟩ := by
    rw [hiter 4 (by norm_num), hvalue]
  have hget : custom_errors_class.my_error_t.get_errors ⟨.finite (2 ^ 150)⟩ = some 4 := by
    have h := get_errors_of_halves 4 (by norm_num)
    rw [hvalue] at h
    exact h
  have hformat : custom_errors_class.formatter ⟨.finite (2 ^ 150)⟩ = some "4" := by
    show (custom_errors_class.my_error_t.get_errors _).map toString = _
    rw [hget]
    rfl
  rw [hfresh]
  refine ⟨rfl, ?_, fun n hn => ⟨?_, fun hpos => ?_⟩, ?_, hfour,
    test_custom_errors_class_returns pow hpow, hget, hformat, ?_, ?_⟩
  · have h := get_errors_of_halves 0 (Nat.zero_le _)
    have e : ((0 : Nat) : Int) * 2 ^ 148 = 0 := by norm_num
    rw [e] at h
    exact h
  · rw [hiter n hn]
    exact get_errors_of_halves n hn
  · rw [hiter n hn]
    exact has_errors_of_halves n hpos
  · rw [hiter _ (Nat.le_refl _)]
    show custom_errors_class.my_error_t.mk _ = _
    have e : (((2 ^ 24 : Nat) : Int) * 2 ^ 148) = 2 ^ 24 * 2 ^ 148 := by norm_num
    rw [e, add_half_saturates]
  · rw [hformat]
    rfl
  · have h := has_errors_of_halves 4 (by norm_num)
    rw [hvalue] at h
    exact h

/-- Witness for C23: a `std::pow` that is exact for the power 1, and a procedure started with
an empty log sink: it returns the counter that holds 2.0 and leaves the sink empty. -/
theorem custom_counter_spec_witness :
    witness_pow (.finite 0) (.finite (2 ^ 149)) = .finite 0
      ∧ custom_errors_class.test_custom_errors_class witness_pow ⟨⟨.nan⟩, []⟩
          = .returned ⟨.finite (2 ^ 150)⟩ ⟨⟨.finite (2 ^ 150)⟩, []⟩
      ∧ custom_errors_class.formatter ⟨.finite (2 ^ 150)⟩ = some "4"
      ∧ custom_errors_class.CT_HAS_ERRORS ⟨.finite (2 ^ 150)⟩ = true :=
  have h := custom_counter_spec witness_pow rfl
  ⟨rfl, h.2.2.2.2.2.1 ⟨⟨.nan⟩, []⟩, h.2.2.2.2.2.2.2.1, h.2.2.2.2.2.2.2.2.2⟩

end CustomCounter

end Confer
